import Mathlib

/-!
# zathura: a shallow embedding of the viewer core of zathura.c

The global struct of the program (called Zathura in the C source) is the record
Session below; its nested structs keep their C names (Global, Marker,
Bookmarks, PDF, Thread, Style).  C functions become functions that take the
record and give back the updated record.

Conventions of the embedding:
* C int values are mathematical integers (no claim here depends on overflow
  of a page number; atoi wraps explicitly);
* C doubles are exact rationals, except in the recolour loop of draw, where
  the single and double precision roundings are the fields of the record
  Float of the session; the pixels that poppler renders are the field render
  of a page;
* C strings are lists of characters without the terminating NUL;
* of the widgets only the inputbar entry is kept (its text and the level of
  the last notify); the other widget calls (sc_scroll, switch_view,
  update_status, queue_draw, focus changes) are left out;
* the tables of config.h (shortcuts, buffer_commands, commands,
  special_commands) are parameters of the functions that read them, and
  their function pointers are functions on the session; its constants
  (ZOOM_MIN, ZOOM_MAX, ZOOM_STEP, GOTO_MODE, BM_PAGE_ENTRY, BM_PAGE_OFFSET)
  are the fields of the record Config;
* the file system and the document library are the record Files, a parameter
  of open_file; the key file of the bookmarks is a list of groups of integer
  entries, and the glib and cairo functions used are modelled from their
  documented meaning;
* the completion functions read the table settings of config.h, a parameter
  of cc_set, and the directories and the printer list of the record Shell, a
  parameter of cc_open and cc_print;
* the threads (sc_search on the main thread, search on the workers) are a
  step function on the record Threads, one statement on the shared flag, the
  mutex or the thread handle per step;
* an access to Zathura.PDF.pages outside the allocated array is undefined
  behaviour in C; the embedding records it in the field fault and goes on.
-/

namespace Zathura

/-! ## Enumeration constants (the anonymous enum at the top of zathura.c) -/

def NEXT : Int := 0
def PREVIOUS : Int := 1
def LEFT : Int := 2
def RIGHT : Int := 3
def UP : Int := 4
def DOWN : Int := 5
def BOTTOM : Int := 6
def TOP : Int := 7
def HIDE : Int := 8
def NORMAL : Int := 9
def HIGHLIGHT : Int := 10
def INSERT : Int := 11
def VISUAL : Int := 12
def DELETE_LAST_WORD : Int := 13
def DEFAULT : Int := 14
def ERROR : Int := 15
def WARNING : Int := 16
def NEXT_GROUP : Int := 17
def PREVIOUS_GROUP : Int := 18
def ZOOM_IN : Int := 19
def ZOOM_OUT : Int := 20
def ZOOM_ORIGINAL : Int := 21
def ZOOM_SPECIFIC : Int := 22
def FORWARD : Int := 23
def BACKWARD : Int := 24
def ADJUST_BESTFIT : Int := 25
def ADJUST_WIDTH : Int := 26
def ADJUST_NONE : Int := 27
def CONTINUOUS : Int := 28
def DELETE_LAST : Int := 29
def ADD_MARKER : Int := 30
def EVAL_MARKER : Int := 31
def INDEX : Int := 32
def EXPAND : Int := 33
def COLLAPSE : Int := 34
def SELECT : Int := 35
def GOTO_DEFAULT : Int := 36
def GOTO_LABELS : Int := 37
def GOTO_OFFSET : Int := 38

/-! ## Data model -/

/-- A rectangle of the document library: four doubles. -/
structure PopplerRectangle where
  x1 : ℚ
  y1 : ℚ
  x2 : ℚ
  y2 : ℚ
  deriving DecidableEq, Repr

/-- One pixel of a CAIRO_FORMAT_RGB24 row: data[0] is blue, data[1] green,
data[2] red, each an unsigned char. -/
structure Pixel where
  blue : Nat
  green : Nat
  red : Nat
  deriving DecidableEq, Repr

/-- A page of the document library, seen through the queries the viewer makes
on it: poppler_page_get_size, poppler_page_find_text, the property label, and
poppler_page_render, given as the pixel rows of a white image surface of the
given width and height after the page was painted on it at the given rotation
and scale factor. -/
structure PopplerPage where
  width : ℚ := 0
  height : ℚ := 0
  find_text : List Char → List PopplerRectangle := fun _ => []
  label : List Char := []
  render : Int → ℚ → Int → Int → List (List Pixel) := fun _ _ _ _ => []

/-- A document of the document library: its pages, in order. -/
structure PopplerDocument where
  pages : List PopplerPage := []

/-- The typedef Page: library page, 1-based id, label. -/
structure Page where
  page : PopplerPage := {}
  id : Int := 0
  label : List Char := []

/-- The typedef Marker. -/
structure Marker where
  id : Int
  page : Int
  deriving DecidableEq, Repr

/-- The typedef Bookmark. -/
structure Bookmark where
  id : List Char
  page : Int
  deriving DecidableEq, Repr

/-- The typedef Argument; the data pointer is used as a string or is NULL. -/
structure Argument where
  n : Int := 0
  data : Option (List Char) := none
  deriving DecidableEq, Repr

/-- A GdkColor: three 16-bit channels. -/
structure GdkColor where
  red : Nat := 0
  green : Nat := 0
  blue : Nat := 0
  deriving DecidableEq, Repr

/-- The cairo image surface held in Zathura.PDF.surface: its integer size,
whether the recolour loop ran over it, the highlight rectangles painted on it
since it was created, and its pixel rows as draw left them. -/
structure Surface where
  width : Int := 0
  height : Int := 0
  recolored : Bool := false
  highlights : List PopplerRectangle := []
  image : List (List Pixel) := []
  deriving DecidableEq, Repr

/-- The struct Zathura.Style (the colours the core reads). -/
structure StyleS where
  recolor_darkcolor : GdkColor := {}
  recolor_lightcolor : GdkColor := {}
  search_highlight : GdkColor := {}

/-- The struct Zathura.Global. -/
structure GlobalS where
  buffer : Option (List Char) := none
  history : List (List Char) := []
  mode : Int := NORMAL
  viewing_mode : Int := NORMAL
  recolor : Bool := false
  enable_labelmode : Bool := false
  goto_mode : Int := GOTO_DEFAULT
  adjust_mode : Int := ADJUST_NONE

/-- The struct Zathura.Marker; number_of_markers is the length of the array. -/
structure MarkerS where
  markers : List Marker := []
  last : Int := -1

/-- A GKeyFile as the core reads and writes it: the groups in order, each
with its keys in order and, for every key, the integer that
g_key_file_get_integer gives for its value. -/
abbrev GKeyFile := List (List Char × List (List Char × Int))

/-- The struct Zathura.Bookmarks; number_of_bookmarks is the length of
bookmarks, and data is the key file (NULL before it is created). -/
structure BookmarksS where
  bookmarks : List Bookmark := []
  data : Option GKeyFile := none

/-- The struct Zathura.PDF. -/
structure PDFS where
  document : Option PopplerDocument := none
  pages : List Page := []
  page_number : Int := 0
  page_offset : Int := 0
  number_of_pages : Int := 0
  scale : Int := 0
  rotate : Int := 0
  surface : Option Surface := none
  file : List Char := []
  password : Option (List Char) := none

/-- The struct Zathura.Thread together with the static locals search_item and
direction of search (its third static, next_page, is written before every
read, so it carries nothing from one call to the next). -/
structure ThreadS where
  search_thread_running : Bool := false
  search_item : Option (List Char) := none
  direction : Int := 0

/-- The part of the struct Zathura.UI the core writes to: the text of the
inputbar entry and the level of the last notify, which sets its colours. -/
structure UIS where
  inputbar : List Char := []
  inputbar_level : Int := DEFAULT

/-- The typedef CompletionElement; the next pointer is the list it sits in. -/
structure CompletionElement where
  value : Option (List Char)
  description : Option (List Char) := none
  deriving DecidableEq, Repr

/-- The typedef CompletionGroup. -/
structure CompletionGroup where
  value : Option (List Char)
  elements : List CompletionElement
  deriving DecidableEq, Repr

/-- The typedef Completion. -/
structure Completion where
  groups : List CompletionGroup
  deriving DecidableEq, Repr

/-- The typedef CompletionRow, without its widget. -/
structure CompletionRow where
  command : List Char
  description : Option (List Char) := none
  command_id : Int
  is_group : Bool
  deriving DecidableEq, Repr

/-- The static locals of isc_completion (results stands for the pointer being
set; n_items is the length of rows) and the static local current of
isc_command_history. -/
structure StaticS where
  results : Bool := false
  rows : List CompletionRow := []
  current_item : Int := 0
  previous_command : Option (List Char) := none
  previous_parameter : Option (List Char) := none
  previous_id : Int := 0
  previous_length : Int := 0
  command_mode : Bool := true
  current : Int := 0

/-- The floating point arithmetic of the machine, as far as the recolour loop
of draw uses it: single rounds the result of an operation on float values and
double that of an operation on double values.  Exact arithmetic is the
default. -/
structure FloatS where
  single : ℚ → ℚ := fun x => x
  double : ℚ → ℚ := fun x => x

/-- The global struct Zathura.  Three fields are not in the C struct: fault is
set when an array is read outside its allocation, Static holds the static
locals of the inputbar functions, and Float is the arithmetic of the machine. -/
structure Session where
  Style : StyleS := {}
  Global : GlobalS := {}
  Marker : MarkerS := {}
  Bookmarks : BookmarksS := {}
  PDF : PDFS := {}
  Thread : ThreadS := {}
  fault : Bool := false
  UI : UIS := {}
  Static : StaticS := {}
  Float : FloatS := {}

/-- Zathura.Marker.number_of_markers. -/
def number_of_markers (z : Session) : Int := z.Marker.markers.length

/-! ## Helpers for C arrays and numeric conversions -/

/-- Reading xs[i] of a C array with an int index: nothing outside the array. -/
def array_at {α : Type} (xs : List α) (i : Int) : Option α :=
  if i < 0 then none else xs[i.toNat]?

/-- Conversion of a double to an integer type: truncation toward zero. -/
def trunc (q : ℚ) : Int := if 0 ≤ q then ⌊q⌋ else ⌈q⌉

/-- The library query poppler_page_get_size. -/
def poppler_page_get_size (p : PopplerPage) : ℚ × ℚ := (p.width, p.height)

/-- The library query poppler_document_get_page: the page, or NULL for an
index that is not a page of the document. -/
def poppler_document_get_page (d : PopplerDocument) (index : Int) : Option PopplerPage :=
  array_at d.pages index

/-! ## The recolour loop of draw -/

/-- One channel of the recolour loop: c1 is the dark channel, c2 the light
channel, both already divided by 257.  rndF rounds the result of a single
precision operation and rndD that of the final double precision addition;
the value is then converted to unsigned char. -/
def recolor_channel (rndF rndD : ℚ → ℚ) (c1 c2 mean : Int) : Int :=
  let min : Int := 0x00
  let max : Int := 0xFF
  let s : ℚ := rndF (rndF ((c2 : ℚ) - (c1 : ℚ)) / ((max - min : Int) : ℚ))
  let v : ℚ := rndD (rndF (rndF (s * ((mean - min : Int) : ℚ)) + (c1 : ℚ)) + 1 / 2)
  trunc v % 256

/-- The body of the recolour loop for one pixel. -/
def recolor_pixel (rndF rndD : ℚ → ℚ) (dark light : GdkColor) (data : Pixel) : Pixel :=
  let r1 : Int := (dark.red / 257 : Nat)
  let g1 : Int := (dark.green / 257 : Nat)
  let b1 : Int := (dark.blue / 257 : Nat)
  let r2 : Int := (light.red / 257 : Nat)
  let g2 : Int := (light.green / 257 : Nat)
  let b2 : Int := (light.blue / 257 : Nat)
  let mean : Int := ((data.blue + data.green + data.red) / 3 : Nat)
  { red := (recolor_channel rndF rndD r1 r2 mean).toNat,
    green := (recolor_channel rndF rndD g1 g2 mean).toNat,
    blue := (recolor_channel rndF rndD b1 b2 mean).toNat }

/-- The inner loop of the recolour loop (for x from 0 below width) on the row
data: the pixel x is recoloured. -/
def recolor_row (rndF rndD : ℚ → ℚ) (dark light : GdkColor) (width : Int)
    (data : List Pixel) : List Pixel :=
  data.enum.map (fun entry =>
    if (entry.1 : Int) < width then recolor_pixel rndF rndD dark light entry.2 else entry.2)

/-- The recolour loop (for y from 0 below height, for x from 0 below width):
the pixel x of the row y of the image is recoloured. -/
def recolor_image (rndF rndD : ℚ → ℚ) (dark light : GdkColor) (width height : Int)
    (image : List (List Pixel)) : List (List Pixel) :=
  image.enum.map (fun entry =>
    if (entry.1 : Int) < height then recolor_row rndF rndD dark light width entry.2
    else entry.2)

/-! ## draw and set_page -/

/-- The function notify: the level picks the colours of the inputbar (ERROR,
WARNING, anything else the default colours) and the message, when there is
one, becomes its text. -/
def notify (z : Session) (level : Int) (message : Option (List Char)) : Session :=
  let shown : Int :=
    if level = ERROR then ERROR else if level = WARNING then WARNING else DEFAULT
  { z with UI :=
      { z.UI with inputbar_level := shown, inputbar := message.getD z.UI.inputbar } }

/-- The display width and height computed in draw from the page size. -/
def draw_size (rotate : Int) (scale page_width page_height : ℚ) : ℚ × ℚ :=
  if rotate = 0 ∨ rotate = 180 then (page_width * scale, page_height * scale)
  else (page_height * scale, page_width * scale)

/-- The index of Zathura.PDF.pages that draw reads for page_id, or none when
draw returns at its guard. -/
def draw_lookup (z : Session) (page_id : Int) : Option Int :=
  if z.PDF.document.isNone ∨ page_id < 0 ∨ page_id > z.PDF.number_of_pages then none
  else some page_id

/-- The function draw: the surface is created with the display size converted
to int, the page is rendered on it, and with Zathura.Global.recolor set the
recolour loop runs over the width and the height of the surface. -/
def draw (z : Session) (page_id : Int) : Session :=
  match draw_lookup z page_id with
  | none => z
  | some i =>
    let scale : ℚ := (z.PDF.scale : ℚ) / 100
    let rotate := z.PDF.rotate
    match array_at z.PDF.pages i with
    | none => { z with fault := true, PDF := { z.PDF with surface := none } }
    | some current_page =>
      let size := poppler_page_get_size current_page.page
      let dims := draw_size rotate scale size.1 size.2
      let image := current_page.page.render rotate scale (trunc dims.1) (trunc dims.2)
      let image :=
        if z.Global.recolor then
          recolor_image z.Float.single z.Float.double z.Style.recolor_darkcolor
            z.Style.recolor_lightcolor (trunc dims.1) (trunc dims.2) image
        else image
      let surface : Surface :=
        { width := trunc dims.1, height := trunc dims.2,
          recolored := z.Global.recolor, highlights := [], image := image }
      { z with PDF := { z.PDF with surface := some surface } }

/-- The function set_page. -/
def set_page (z : Session) (page : Int) : Session :=
  if page > z.PDF.number_of_pages ∨ page < 0 then
    notify z WARNING (some "Could not open page".toList)
  else draw { z with PDF := { z.PDF with page_number := page } } page

/-! ## Markers -/

/-- The search loop of add_marker: the first entry with the given id gets the
page; none when no entry has the id. -/
def markers_update : List Marker → Int → Int → Option (List Marker)
  | [], _, _ => none
  | m :: ms, id, page_number =>
    if m.id = id then some ({ m with page := page_number } :: ms)
    else (markers_update ms id page_number).map (fun r => m :: r)

/-- The function add_marker. -/
def add_marker (z : Session) (id : Int) : Session :=
  if id < 0x30 ∨ id > 0x7A then z
  else
    let page_number := z.PDF.page_number
    match markers_update z.Marker.markers id page_number with
    | some ms => { z with Marker := { markers := ms, last := page_number } }
    | none =>
      { z with Marker :=
          { markers := z.Marker.markers ++ [{ id := id, page := page_number }],
            last := page_number } }

/-- The search loop of eval_marker: the first entry with the given id. -/
def markers_find : List Marker → Int → Option Marker
  | [], _ => none
  | m :: ms, id => if m.id = id then some m else markers_find ms id

/-- The function eval_marker. -/
def eval_marker (z : Session) (id : Int) : Session :=
  if id = 0x27 then
    let current_page := z.PDF.page_number
    let z1 := set_page z z.Marker.last
    { z1 with Marker := { z1.Marker with last := current_page } }
  else
    match markers_find z.Marker.markers id with
    | some m => set_page z m.page
    | none => z

/-! ## Navigation and the goto buffer command -/

/-- The function sc_navigate; the C operator % is truncated division. -/
def sc_navigate (z : Session) (argument : Argument) : Session :=
  if z.PDF.document.isNone then z
  else
    let number_of_pages := z.PDF.number_of_pages
    let new_page := z.PDF.page_number
    let new_page :=
      if argument.n = NEXT then Int.tmod (new_page + number_of_pages + 1) number_of_pages
      else if argument.n = PREVIOUS then Int.tmod (new_page + number_of_pages - 1) number_of_pages
      else new_page
    set_page z new_page

/-- The libc predicate isspace in the C locale. -/
def isspace (c : Char) : Bool :=
  c.toNat = 32 ∨ (9 ≤ c.toNat ∧ c.toNat ≤ 13)

/-- The libc predicate isdigit. -/
def isdigit (c : Char) : Bool :=
  48 ≤ c.toNat ∧ c.toNat ≤ 57

/-- The digit loop of atoi: the value of the longest prefix of digits. -/
def atoi_digits : List Char → Nat → Nat
  | [], acc => acc
  | c :: cs, acc => if isdigit c then atoi_digits cs (acc * 10 + (c.toNat - 48)) else acc

/-- Reduction of an integer to the range of a 32-bit int. -/
def wrap32 (v : Int) : Int := (v + 2 ^ 31) % 2 ^ 32 - 2 ^ 31

/-- The libc function atoi, as the cast to int of strtol in base 10 on a
platform with a 64-bit long: white space, an optional sign, digits; a value
outside the range of long saturates before the cast. -/
def atoi (s : List Char) : Int :=
  let s := s.dropWhile isspace
  let v : Int :=
    match s with
    | '-' :: cs => - (atoi_digits cs 0 : Int)
    | '+' :: cs => (atoi_digits cs 0 : Int)
    | _ => (atoi_digits s 0 : Int)
  wrap32 (max (-(2 ^ 63)) (min v (2 ^ 63 - 1)))

/-- The glib function g_strndup: the first n characters. -/
def g_strndup (s : List Char) (n : Nat) : List Char := s.take n

/-- The label loop of bcmd_goto: every page whose label is the typed text
overwrites pid with its id, so the last such page wins. -/
def goto_label (pages : List Page) (id : List Char) (pid : Int) : Int :=
  pages.foldl (fun acc p => if id = p.label then p.id else acc) pid

/-- The function bcmd_goto. -/
def bcmd_goto (z : Session) (buffer : List Char) (_argument : Argument) : Session :=
  let b_length := buffer.length
  if b_length < 1 then z
  else if buffer = ['g', 'g'] then set_page z 0
  else if buffer = ['G'] then set_page z (z.PDF.number_of_pages - 1)
  else
    let id := g_strndup buffer (b_length - 1)
    let pid := atoi id
    let pid :=
      if z.Global.goto_mode = GOTO_LABELS then
        goto_label (z.PDF.pages.take z.PDF.number_of_pages.toNat) id pid
      else if z.Global.goto_mode = GOTO_OFFSET then pid + z.PDF.page_offset
      else pid
    set_page z (pid - 1)

/-! ## Highlight rectangles -/

/-- The switch of recalcRectangle on the rotation, for a page of the given
size and scale factor. -/
def recalc (rotate : Int) (scale page_width page_height : ℚ)
    (rectangle : PopplerRectangle) : PopplerRectangle :=
  let x1 := rectangle.x1
  let x2 := rectangle.x2
  let y1 := rectangle.y1
  let y2 := rectangle.y2
  if rotate = 90 then
    { x1 := y2 * scale, y1 := x1 * scale, x2 := y1 * scale, y2 := x2 * scale }
  else if rotate = 180 then
    { x1 := (page_width - x2) * scale, y1 := y2 * scale,
      x2 := (page_width - x1) * scale, y2 := y1 * scale }
  else if rotate = 270 then
    { x1 := (page_height - y1) * scale, y1 := (page_width - x2) * scale,
      x2 := (page_height - y2) * scale, y2 := (page_width - x1) * scale }
  else
    { x1 := x1 * scale, y1 := (page_height - y1) * scale,
      x2 := x2 * scale, y2 := (page_height - y2) * scale }

/-- The function recalcRectangle: the rewritten rectangle, or none when
Zathura.PDF.pages has no entry page_id. -/
def recalcRectangle (z : Session) (page_id : Int) (rectangle : PopplerRectangle) :
    Option PopplerRectangle :=
  match array_at z.PDF.pages page_id with
  | none => none
  | some current_page =>
    let size := poppler_page_get_size current_page.page
    let scale : ℚ := (z.PDF.scale : ℚ) / 100
    some (recalc z.PDF.rotate scale size.1 size.2 rectangle)

/-- The function highlight_result: the rewritten rectangle is painted on the
current surface, when there is one. -/
def highlight_result (z : Session) (page_id : Int) (rectangle : PopplerRectangle) : Session :=
  match recalcRectangle z page_id rectangle with
  | none => { z with fault := true }
  | some r =>
    match z.PDF.surface with
    | none => z
    | some sf =>
      { z with PDF := { z.PDF with surface := some { sf with highlights := sf.highlights ++ [r] } } }

/-! ## Roundings -/

/-- A rounding that stays within one unit in the last place of a single
precision number below 1024, which holds for every IEEE rounding of single
or higher precision. -/
def rounds_within (rnd : ℚ → ℚ) : Prop :=
  ∀ x : ℚ, |x| ≤ 1024 → |rnd x - x| ≤ 1 / 2 ^ 14

/-! ## The search worker -/

/-- How the search worker left. -/
inductive SearchExit where
  /-- no document or no search text: the worker stops in the first branch,
  where it takes document_lock a second time -/
  | blocked
  /-- the running flag was found FALSE before a page was scanned -/
  | cancelled
  /-- poppler_document_get_page gave NULL -/
  | no_page
  /-- a page with results: set_page and the highlights were done -/
  | found (page : Int) (results : List PopplerRectangle)
  /-- the loop ended without results -/
  | not_found
  deriving DecidableEq, Repr

/-- What the page loop of search ended with. -/
inductive ScanResult where
  | cancelled
  | no_page
  | hit (next_page : Int) (results : List PopplerRectangle)
  | done
  deriving DecidableEq, Repr

/-- The page examined at a value of page_counter. -/
def scan_page (number_of_pages page_number direction : Int) (page_counter : Nat) : Int :=
  Int.tmod (number_of_pages + page_number + (page_counter : Int) * direction) number_of_pages

/-- The for loop of search over the values of page_counter still to come;
running c is the value of the running flag read at page_counter = c. -/
def search_scan (doc : PopplerDocument) (search_item : List Char) (running : Nat → Bool)
    (number_of_pages page_number direction : Int) : List Nat → ScanResult
  | [] => ScanResult.done
  | page_counter :: rest =>
    if running page_counter = false then ScanResult.cancelled
    else
      let next_page := scan_page number_of_pages page_number direction page_counter
      match poppler_document_get_page doc next_page with
      | none => ScanResult.no_page
      | some page =>
        let results := page.find_text search_item
        if results ≠ [] then ScanResult.hit next_page results
        else search_scan doc search_item running number_of_pages page_number direction rest

/-- The static search_item of search after its first statement: the text of
the argument when it brings one, the text of the call before otherwise. -/
def search_item_of (z : Session) (argument : Argument) : Option (List Char) :=
  match argument.data with
  | some d => some d
  | none => z.Thread.search_item

/-- The static direction of search once the argument is looked at: set from
the argument when its n is not 0, kept from the call before otherwise. -/
def search_direction_of (z : Session) (argument : Argument) : Int :=
  if argument.n ≠ 0 then (if argument.n = BACKWARD then -1 else 1)
  else z.Thread.direction

/-- The thread function search.  cleared c tells whether another thread has
set the running flag to FALSE by the time it is read at page_counter = c. -/
def search (z : Session) (argument : Argument) (cleared : Nat → Bool) : Session × SearchExit :=
  let item := search_item_of z argument
  let direction := search_direction_of z argument
  let z := { z with Thread := { z.Thread with search_item := item } }
  match z.PDF.document, item with
  | some doc, some search_item =>
    if search_item.length = 0 then (z, SearchExit.blocked)
    else
      let z := { z with Thread := { z.Thread with direction := direction } }
      let number_of_pages := z.PDF.number_of_pages
      let page_number := z.PDF.page_number
      let running := fun c => z.Thread.search_thread_running && !cleared c
      match search_scan doc search_item running number_of_pages page_number direction
          (List.range' 1 number_of_pages.toNat) with
      | ScanResult.cancelled =>
        ({ z with Thread := { z.Thread with search_thread_running := false } },
          SearchExit.cancelled)
      | ScanResult.no_page => (z, SearchExit.no_page)
      | ScanResult.hit next_page results =>
        let z := set_page z next_page
        let z := results.foldl (fun s r => highlight_result s next_page r) z
        ({ z with Thread := { z.Thread with search_thread_running := false } },
          SearchExit.found next_page results)
      | ScanResult.done =>
        ({ z with Thread := { z.Thread with search_thread_running := false } },
          SearchExit.not_found)
  | _, _ => (z, SearchExit.blocked)

/-- The function sc_search, once a worker that was still running has been
told to stop and has been joined: the running flag is set and the worker
runs. -/
def sc_search (z : Session) (argument : Argument) (cleared : Nat → Bool) :
    Session × SearchExit :=
  search { z with Thread := { z.Thread with search_thread_running := true } } argument cleared

/-- The rectangles poppler_page_find_text gives for the text on page i of the
document (none for an index that is not a page). -/
def page_results (doc : PopplerDocument) (search_item : List Char) (i : Int) :
    List PopplerRectangle :=
  match poppler_document_get_page doc i with
  | some page => page.find_text search_item
  | none => []

/-- Page i of the document has at least one match of the text. -/
abbrev has_match (doc : PopplerDocument) (search_item : List Char) (i : Int) : Prop :=
  page_results doc search_item i ≠ []

/-- The pages the loop of search hands to poppler_page_find_text, in order:
the trace of search_scan. -/
def scan_visited (doc : PopplerDocument) (search_item : List Char) (running : Nat → Bool)
    (number_of_pages page_number direction : Int) : List Nat → List Int
  | [] => []
  | page_counter :: rest =>
    if running page_counter = false then []
    else
      let next_page := scan_page number_of_pages page_number direction page_counter
      match poppler_document_get_page doc next_page with
      | none => []
      | some page =>
        if page.find_text search_item ≠ [] then [next_page]
        else next_page ::
          scan_visited doc search_item running number_of_pages page_number direction rest

/-- The pages in the order in which the loop of search examines them, when it
is not stopped: page_counter runs from 1 to the number of pages. -/
def scan_order (number_of_pages page_number direction : Int) : List Int :=
  (List.range' 1 number_of_pages.toNat).map (scan_page number_of_pages page_number direction)

/-! ## Modes and the keyboard callback of the view -/

/-- The function change_mode. -/
def change_mode (z : Session) (mode : Int) : Session :=
  let mode_text : List Char :=
    if mode = INSERT then "-- INSERT --".toList
    else if mode = VISUAL then "-- VISUAL --".toList
    else []
  let mode : Int :=
    if mode = INSERT ∨ mode = VISUAL ∨ mode = ADD_MARKER ∨ mode = EVAL_MARKER then mode
    else NORMAL
  notify { z with Global := { z.Global with mode := mode } } DEFAULT (some mode_text)

/-- The function sc_abort. -/
def sc_abort (z : Session) (_argument : Argument) : Session :=
  let z :=
    match z.Global.buffer with
    | some _ => { z with Global := { z.Global with buffer := none } }
    | none => z
  change_mode z NORMAL

/-- The typedef Shortcut; mode -1 stands for every mode. -/
structure Shortcut where
  mask : Nat
  key : Int
  function : Session → Argument → Session
  mode : Int
  argument : Argument

/-- The typedef BufferCommand. -/
structure BufferCommand where
  regex : List Char
  function : Session → List Char → Argument → Session
  argument : Argument

/-- The fields of a GdkEventKey the callbacks read. -/
structure GdkEventKey where
  keyval : Nat
  state : Nat := 0
  deriving DecidableEq, Repr

/-- The test of one entry in the shortcut loop of cb_view_kb_pressed. -/
def shortcut_matches (z : Session) (event : GdkEventKey) (s : Shortcut) : Bool :=
  (event.keyval : Int) = s.key ∧
  (event.state &&& s.mask = s.mask ∨ s.mask = 0) ∧
  (z.Global.mode = s.mode ∨ s.mode = -1)

/-- The append step of cb_view_kb_pressed: a key from 0x21 to 0x7A goes to the
end of the buffer, which is created when there is none. -/
def kb_append (z : Session) (event : GdkEventKey) : Session :=
  if event.keyval ≥ 0x21 ∧ event.keyval ≤ 0x7A then
    let buffer := z.Global.buffer.getD []
    { z with Global := { z.Global with buffer := some (buffer ++ [Char.ofNat event.keyval]) } }
  else z

/-- The function cb_view_kb_pressed, with its return value.  regexec r b
tells whether the extended regular expression r matches the text b (regcomp
and regexec of the C library giving 0). -/
def cb_view_kb_pressed (shortcuts : List Shortcut) (buffer_commands : List BufferCommand)
    (regexec : List Char → List Char → Bool) (z : Session) (event : GdkEventKey) :
    Session × Bool :=
  match shortcuts.find? (shortcut_matches z event) with
  | some s => (s.function z s.argument, true)
  | none =>
    if z.Global.mode = ADD_MARKER then
      (change_mode (add_marker z event.keyval) NORMAL, true)
    else if z.Global.mode = EVAL_MARKER then
      (change_mode (eval_marker z event.keyval) NORMAL, true)
    else
      let z := kb_append z event
      match z.Global.buffer with
      | none => (z, false)
      | some buffer =>
        match buffer_commands.find? (fun bc => regexec bc.regex buffer) with
        | some bc =>
          let z := bc.function z buffer bc.argument
          ({ z with Global := { z.Global with buffer := none } }, true)
        | none => (z, false)

/-! ## The inputbar: completion, history and command dispatch -/

/-- The typedef Command; argc is the length of the argument list. -/
structure Command where
  command : List Char
  abbr : Option (List Char) := none
  function : Session → List (List Char) → Session × Bool
  completion : Option (Session → List Char → Session × Option Completion) := none
  description : Option (List Char) := none

/-- The typedef SpecialCommand. -/
structure SpecialCommand where
  identifier : Char
  function : Session → List Char → Argument → Session × Bool
  always : Int
  argument : Argument

/-- Typing in the inputbar entry, or gtk_entry_set_text: the text is replaced. -/
def entry_set_text (z : Session) (text : List Char) : Session :=
  { z with UI := { z.UI with inputbar := text } }

/-- The test strncmp(a, b, n) == 0 on strings without NUL. -/
def strncmp_eq (a b : List Char) (n : Nat) : Bool := a.take n = b.take n

/-- Exchange of the entries i and j of an array. -/
def rows_swap (rows : List CompletionRow) (i j : Nat) : List CompletionRow :=
  match rows[i]?, rows[j]? with
  | some a, some b => (rows.set i b).set j a
  | _, _ => rows

/-- The rows of the elements of one group that start with the typed
parameter, in the order of the group. -/
def group_matching (group : CompletionGroup) (current_parameter : List Char)
    (previous_id : Int) : List CompletionRow :=
  group.elements.filterMap (fun element =>
    match element.value with
    | some value =>
      if current_parameter.length ≤ value.length ∧
          strncmp_eq current_parameter value current_parameter.length then
        some { command := value, description := element.description,
               command_id := previous_id, is_group := false }
      else none
    | none => none)

/-- One round of the group loop of isc_completion: the matching elements go
to the end of rows; a group with a value and at least one such element then
gets its own row at the end, which is exchanged with the first of them. -/
def completion_group_rows (rows : List CompletionRow) (group : CompletionGroup)
    (current_parameter : List Char) (previous_id : Int) : List CompletionRow :=
  let matching := group_matching group current_parameter previous_id
  let rows := rows ++ matching
  let group_elements := matching.length
  match group.value with
  | some value =>
    if group_elements > 0 then
      let n_items := rows.length
      let rows := rows ++
        [{ command := value, description := none, command_id := -1, is_group := true }]
      rows_swap rows (n_items - group_elements) n_items
    else rows
  | none => rows

/-- The rows of the list based on parameters. -/
def completion_parameter_rows (groups : List CompletionGroup) (current_parameter : List Char)
    (previous_id : Int) : List CompletionRow :=
  groups.foldl (fun rows group =>
    completion_group_rows rows group current_parameter previous_id) []

/-- The rows of the list based on commands: the commands whose name or
abbreviation starts with the typed command, in the order of the table. -/
def completion_command_rows (commands : List Command) (current_command : List Char) :
    List CompletionRow :=
  commands.enum.filterMap (fun entry =>
    let abbr_length := match entry.2.abbr with
      | some abbr => abbr.length
      | none => 0
    let cmd_length := entry.2.command.length
    if (current_command.length ≤ cmd_length ∧
          strncmp_eq current_command entry.2.command current_command.length) ∨
        (current_command.length ≤ abbr_length ∧
          strncmp_eq current_command (entry.2.abbr.getD []) current_command.length) then
      some { command := entry.2.command, description := entry.2.description,
             command_id := (entry.1 : Int), is_group := false }
    else none)

/-- No group row is the last row and no group row stands directly before
another group row. -/
def seps_ok : List CompletionRow → Prop
  | [] => True
  | [a] => a.is_group = false
  | a :: b :: rest => (a.is_group = true → b.is_group = false) ∧ seps_ok (b :: rest)

/-- The move of current_item at the head of the cursor loop. -/
def completion_step (n_items : Int) (n : Int) (current_item : Int) : Int :=
  if n = NEXT ∨ n = NEXT_GROUP then Int.tmod (current_item + n_items + 1) n_items
  else if n = PREVIOUS ∨ n = PREVIOUS_GROUP then Int.tmod (current_item + n_items - 1) n_items
  else current_item

/-- The cursor loop of isc_completion (for i from 0 below n_items), with the
number of rounds left, current_item and next_group; a row index outside the
rows ends it. -/
def completion_loop (rows : List CompletionRow) (command_mode : Bool) (n : Int) :
    Nat → Int → Bool → Int
  | 0, current_item, _ => current_item
  | rounds + 1, current_item, next_group =>
    let current_item := completion_step rows.length n current_item
    match array_at rows current_item with
    | none => current_item
    | some row =>
      if row.is_group then
        completion_loop rows command_mode n rounds current_item
          (if command_mode = false ∧ (n = NEXT_GROUP ∨ n = PREVIOUS_GROUP) then true
           else next_group)
      else if command_mode = false ∧ next_group = false ∧
          (n = NEXT_GROUP ∨ n = PREVIOUS_GROUP) then
        completion_loop rows command_mode n rounds current_item next_group
      else current_item

/-- The block of isc_completion that creates the list when there is none,
with a flag telling whether the function goes on to the cursor block (it
returns early when the command has no completion or the completion is empty). -/
def completion_create (commands : List Command) (z : Session) (argument : Argument)
    (current_command : List Char) (current_parameter : Option (List Char)) : Session × Bool :=
  if z.Static.results then (z, true)
  else
    let z := { z with Static := { z.Static with results := true } }
    let first : Int := if argument.n = NEXT then -1 else 0
    let command_list : Session × Bool :=
      ({ z with Static := { z.Static with
          command_mode := true,
          rows := completion_command_rows commands current_command,
          current_item := first } }, true)
    match z.Static.previous_command, current_parameter with
    | some previous_command, some parameter =>
      if current_command = previous_command then
        if z.Static.previous_id < 0 then (z, false)
        else
          match array_at commands z.Static.previous_id with
          | none => ({ z with fault := true }, false)
          | some command =>
            match command.completion with
            | none => (z, false)
            | some completion =>
              let called := completion z parameter
              let z := called.1
              match called.2 with
              | none => (z, false)
              | some result =>
                if result.groups.isEmpty then (z, false)
                else
                  ({ z with Static := { z.Static with
                      command_mode := false,
                      rows := completion_parameter_rows result.groups parameter
                        z.Static.previous_id,
                      current_item := first } }, true)
      else command_list
    | _, _ => command_list

/-- The block of isc_completion that moves the cursor, writes the chosen row
into the inputbar and keeps what it wrote in the previous_ statics. -/
def completion_update (z : Session) (argument : Argument) (length : Int)
    (current_command : List Char) (current_parameter : Option (List Char)) : Session :=
  let st := z.Static
  if st.results = true ∧ (st.rows.length : Int) > 0 then
    let current_item :=
      completion_loop st.rows st.command_mode argument.n st.rows.length st.current_item false
    match array_at st.rows current_item with
    | none => { z with fault := true, Static := { st with current_item := current_item } }
    | some row =>
      let temp : List Char :=
        if st.command_mode then
          ':' :: row.command ++
            (match current_parameter with
             | some parameter => ' ' :: parameter
             | none => [])
        else
          match st.previous_command with
          | some previous_command => ':' :: previous_command ++ ' ' :: row.command
          | none => [':']
      let previous_command := if st.command_mode then row.command else current_command
      let previous_parameter :=
        if st.command_mode then current_parameter else some row.command
      let previous_length : Int :=
        (previous_command.length : Int) +
          (if st.command_mode then length - (current_command.length : Int)
           else ((previous_parameter.getD []).length : Int) + 1)
      { z with
        UI := { z.UI with inputbar := temp },
        Static := { st with
          current_item := current_item,
          previous_command := some previous_command,
          previous_parameter := previous_parameter,
          previous_length := previous_length,
          previous_id := row.command_id } }
  else z

/-- The function isc_completion. -/
def isc_completion (commands : List Command) (z : Session) (argument : Argument) : Session :=
  let input := z.UI.inputbar.drop 1
  let identifier : Char := z.UI.inputbar.headD (Char.ofNat 0)
  let length : Int := input.length
  if length = 0 ∧ identifier = Char.ofNat 0 then z
  else
    let offset := input.indexOf ' '
    let current_command := if offset < input.length then input.take offset else input
    let current_parameter : Option (List Char) :=
      if offset < input.length then some (input.drop (offset + 1)) else none
    if identifier ≠ ':' ∧ argument.n ≠ HIDE then z
    else
      let st := z.Static
      let parameter_differs : Bool :=
        match current_parameter, st.previous_parameter with
        | some a, some b => a ≠ b
        | _, _ => false
      let command_differs : Bool :=
        match st.previous_command with
        | some c => current_command ≠ c
        | none => false
      let delete : Bool :=
        argument.n = HIDE ∨ parameter_differs = true ∨ command_differs = true ∨
          st.previous_length ≠ length
      let st :=
        if delete then
          { st with results := false, rows := [], current_item := 0, command_mode := true }
        else st
      let z := { z with Static := st }
      if delete = true ∧ argument.n = HIDE then z
      else
        let created := completion_create commands z argument current_command current_parameter
        if created.2 then
          completion_update created.1 argument length current_command current_parameter
        else created.1

/-- The function isc_abort. -/
def isc_abort (commands : List Command) (z : Session) : Session :=
  notify (isc_completion commands z { n := HIDE }) DEFAULT (some [])

/-- The function isc_command_history; g_list_nth_data gives NULL outside the
list, and notify then leaves the text. -/
def isc_command_history (z : Session) (argument : Argument) : Session :=
  let length : Int := z.Global.history.length
  if length > 0 then
    let current :=
      if argument.n = NEXT then Int.tmod (length + z.Static.current + 1) length
      else Int.tmod (length + z.Static.current - 1) length
    let command := array_at z.Global.history current
    notify { z with Static := { z.Static with current := current } } DEFAULT command
  else z

/-- The glib function g_strsplit with the delimiter of one space and no limit:
no token for the empty string, else the pieces between the spaces. -/
def g_strsplit (input : List Char) : List (List Char) :=
  if input = [] then [] else input.splitOn ' '

/-- The test of one entry in the command loop of cb_inputbar_activate. -/
def command_matches (command : List Char) (c : Command) : Bool :=
  command = c.command ∨ some command = c.abbr

/-- The function cb_inputbar_activate, with its return value. -/
def cb_inputbar_activate (commands : List Command) (special_commands : List SpecialCommand)
    (z : Session) : Session × Bool :=
  let text := z.UI.inputbar
  let input := text.drop 1
  let tokens := g_strsplit input
  match tokens with
  | [] => (isc_abort commands z, false)
  | command :: arguments =>
    let z := { z with Global := { z.Global with history := z.Global.history ++ [text] } }
    let identifier : Char := text.headD (Char.ofNat 0)
    match special_commands.find? (fun sc => identifier = sc.identifier) with
    | some sc =>
      if sc.always = 1 then (isc_abort commands z, true)
      else
        let called := sc.function z input sc.argument
        ((if called.2 then isc_abort commands called.1 else called.1), true)
    | none =>
      match commands.find? (command_matches command) with
      | some c =>
        let called := c.function z arguments
        let z := if called.2 then isc_abort commands called.1 else called.1
        (isc_completion commands z { n := HIDE }, true)
      | none =>
        let z := notify z ERROR (some "Unknown command.".toList)
        (isc_completion commands z { n := HIDE }, true)

/-! ## Sequences of page operations -/

/-- The operations on the current page and on the markers. -/
inductive Op where
  | set_page (page : Int)
  | sc_navigate (argument : Argument)
  | bcmd_goto (buffer : List Char) (argument : Argument)
  | add_marker (id : Int)
  | eval_marker (id : Int)
  deriving DecidableEq, Repr

/-- One operation. -/
def step (z : Session) : Op → Session
  | Op.set_page page => set_page z page
  | Op.sc_navigate argument => sc_navigate z argument
  | Op.bcmd_goto buffer argument => bcmd_goto z buffer argument
  | Op.add_marker id => add_marker z id
  | Op.eval_marker id => eval_marker z id

/-- A sequence of operations, first to last. -/
def run (z : Session) (ops : List Op) : Session := ops.foldl step z

/-- The ids that the add_marker calls of a sequence bring in the accepted
range 0x30..0x7A, one entry per call. -/
def accepted_marker_ids : List Op → List Int
  | [] => []
  | Op.add_marker id :: rest =>
    if 0x30 ≤ id ∧ id ≤ 0x7A then id :: accepted_marker_ids rest else accepted_marker_ids rest
  | _ :: rest => accepted_marker_ids rest

/-! ## Sample sessions -/

/-- A completion with the candidates open and close in the group grp1 and
quit in the group grp2. -/
def sample_completion : Completion :=
  { groups :=
      [{ value := some "grp1".toList,
         elements := [{ value := some "open".toList }, { value := some "close".toList }] },
       { value := some "grp2".toList,
         elements := [{ value := some "quit".toList }] }] }

/-- A completion with the candidates open and close in the one group grp1. -/
def sample_single_group : Completion :=
  { groups :=
      [{ value := some "grp1".toList,
         elements := [{ value := some "open".toList }, { value := some "close".toList }] }] }

/-- A command table with the one command set (abbreviation s), whose
completion gives the groups of its argument and which itself does nothing. -/
def sample_commands (completion : Completion) : List Command :=
  [{ command := "set".toList, abbr := some ['s'],
     function := fun z _ => (z, true),
     completion := some (fun z _ => (z, some completion)) }]

/-- The session in which the inputbar holds the command set, completed from
its first letter with Next, followed by a typed space: the next completion
call builds the list of its parameters with an empty filter. -/
def sample_parameter_session (completion : Completion) : Session :=
  entry_set_text
    (isc_completion (sample_commands completion) (entry_set_text {} ":s".toList) { n := NEXT })
    ":set ".toList


/-- A page of 612 by 792 points on which the text ab is found once when
hit is set, and nothing else is ever found. -/
def sample_page (hit : Bool) : PopplerPage :=
  { width := 612, height := 792,
    find_text := fun t =>
      if hit ∧ t = ['a', 'b'] then [{ x1 := 10, y1 := 20, x2 := 30, y2 := 40 }] else [] }

/-- A document with one sample page per entry of hits. -/
def sample_document (hits : List Bool) : PopplerDocument := { pages := hits.map sample_page }

/-- The decimal label of the page with the given id, for ids below 100. -/
def sample_label (id : Nat) : List Char :=
  if id < 10 then [Nat.digitChar id] else [Nat.digitChar (id / 10), Nat.digitChar (id % 10)]

/-- The session as open_file leaves it on a document with one page per entry
of hits, opened on its first page: scale 100, rotation 0, ids from 1. -/
def sample_session (hits : List Bool) : Session :=
  { PDF :=
      { document := some (sample_document hits),
        pages := hits.enum.map (fun e =>
          { page := sample_page e.2, id := (e.1 : Int) + 1, label := sample_label (e.1 + 1) }),
        page_number := 0,
        number_of_pages := hits.length,
        scale := 100,
        rotate := 0,
        surface := some { width := 612, height := 792 } } }

/-- The sample session at the moment sc_search has set the running flag. -/
def sample_running (hits : List Bool) : Session :=
  { sample_session hits with Thread := { search_thread_running := true } }

/-! ## The transform of draw -/

/-- A cairo_matrix_t, the current transformation matrix of a cairo context:
the affine map that takes the user-space point (x, y) to the device point
(xx x + xy y + x0, yx x + yy y + y0).  A new context holds the identity. -/
structure cairo_matrix_t where
  xx : ℚ := 1
  yx : ℚ := 0
  xy : ℚ := 0
  yy : ℚ := 1
  x0 : ℚ := 0
  y0 : ℚ := 0
  deriving DecidableEq, Repr

/-- The library function cairo_matrix_transform_point. -/
def cairo_matrix_transform_point (m : cairo_matrix_t) (p : ℚ × ℚ) : ℚ × ℚ :=
  (m.xx * p.1 + m.xy * p.2 + m.x0, m.yx * p.1 + m.yy * p.2 + m.y0)

/-- The library function cairo_translate on the current matrix: the user-space
origin moves by (tx, ty), so the translation acts on a point before the
matrix in place does. -/
def cairo_translate (m : cairo_matrix_t) (tx ty : ℚ) : cairo_matrix_t :=
  { m with x0 := m.xx * tx + m.xy * ty + m.x0, y0 := m.yx * tx + m.yy * ty + m.y0 }

/-- The library function cairo_scale on the current matrix. -/
def cairo_scale (m : cairo_matrix_t) (sx sy : ℚ) : cairo_matrix_t :=
  { m with xx := m.xx * sx, yx := m.yx * sx, xy := m.xy * sy, yy := m.yy * sy }

/-- The library function cairo_rotate on the current matrix, for an angle with
cosine c and sine s: the rotation takes (x, y) to (c x - s y, s x + c y) and
acts on a point before the matrix in place does. -/
def cairo_rotate (m : cairo_matrix_t) (c s : ℚ) : cairo_matrix_t :=
  { m with xx := m.xx * c + m.xy * s, yx := m.yx * c + m.yy * s,
           xy := m.xy * c - m.xx * s, yy := m.yy * c - m.yx * s }

/-- The exact cosine and sine of rotate degrees for the quarter turns, the
only values Zathura.PDF.rotate takes (open_file and cmd_close store 0 and
sc_rotate adds 90 modulo 360); none for any other angle. -/
def quarter_turn (rotate : Int) : Option (ℚ × ℚ) :=
  if rotate = 0 then some (1, 0)
  else if rotate = 90 then some (0, 1)
  else if rotate = 180 then some (-1, 0)
  else if rotate = 270 then some (0, -1)
  else none

/-- The matrix of the cairo context of draw at the call of
poppler_page_render: the switch on rotate translates, cairo_scale is called
when the scale is not 1 and cairo_rotate when rotate is not 0. -/
def draw_matrix (rotate : Int) (scale width height : ℚ) : Option cairo_matrix_t :=
  let cairo : cairo_matrix_t := {}
  let cairo :=
    if rotate = 90 then cairo_translate cairo width 0
    else if rotate = 180 then cairo_translate cairo width height
    else if rotate = 270 then cairo_translate cairo 0 height
    else cairo_translate cairo 0 0
  let cairo := if scale ≠ 1 then cairo_scale cairo scale scale else cairo
  if rotate ≠ 0 then (quarter_turn rotate).map (fun cs => cairo_rotate cairo cs.1 cs.2)
  else some cairo

/-- Where draw paints the point p of the page (page space has its origin at
the top left corner): the device point under the matrix of draw built for the
page size (page_width, page_height). -/
def draw_point (rotate : Int) (scale page_width page_height : ℚ) (p : ℚ × ℚ) :
    Option (ℚ × ℚ) :=
  let dims := draw_size rotate scale page_width page_height
  (draw_matrix rotate scale dims.1 dims.2).map (fun m => cairo_matrix_transform_point m p)

/-- A point (x, y) of document space, whose origin is the bottom left corner
of the page, as a point of page space. -/
def page_point (page_height : ℚ) (p : ℚ × ℚ) : ℚ × ℚ := (p.1, page_height - p.2)

/-- The region between two opposite corners (x1, y1) and (x2, y2), whichever
way round they are given. -/
def in_region (x1 y1 x2 y2 : ℚ) (q : ℚ × ℚ) : Prop :=
  min x1 x2 ≤ q.1 ∧ q.1 ≤ max x1 x2 ∧ min y1 y2 ≤ q.2 ∧ q.2 ≤ max y1 y2

/-! ## The key file of the bookmarks (glib) -/

/-- The entries of the first group with the given name; none without one. -/
def g_key_file_group (key_file : GKeyFile) (group_name : List Char) :
    List (List Char × Int) :=
  match key_file.find? (fun g => g.1 = group_name) with
  | some g => g.2
  | none => []

/-- The glib function g_key_file_has_group. -/
def g_key_file_has_group (key_file : GKeyFile) (group_name : List Char) : Bool :=
  key_file.any (fun g => g.1 = group_name)

/-- The glib function g_key_file_has_key. -/
def g_key_file_has_key (key_file : GKeyFile) (group_name key : List Char) : Bool :=
  (g_key_file_group key_file group_name).any (fun e => e.1 = key)

/-- The glib function g_key_file_get_integer with no error pointer: 0 when the
key is not there. -/
def g_key_file_get_integer (key_file : GKeyFile) (group_name key : List Char) : Int :=
  match (g_key_file_group key_file group_name).find? (fun e => e.1 = key) with
  | some e => e.2
  | none => 0

/-- The glib function g_key_file_get_keys. -/
def g_key_file_get_keys (key_file : GKeyFile) (group_name : List Char) : List (List Char) :=
  (g_key_file_group key_file group_name).map Prod.fst

/-- Setting a key among the entries of a group: the value of a key that is
there is replaced, a new key goes to the end. -/
def g_key_file_set_entry (entries : List (List Char × Int)) (key : List Char) (value : Int) :
    List (List Char × Int) :=
  if entries.any (fun e => e.1 = key) then
    entries.map (fun e => if e.1 = key then (key, value) else e)
  else entries ++ [(key, value)]

/-- The glib function g_key_file_set_integer: the group and the key are
created when they are not there. -/
def g_key_file_set_integer (key_file : GKeyFile) (group_name key : List Char) (value : Int) :
    GKeyFile :=
  if g_key_file_has_group key_file group_name then
    key_file.map (fun g =>
      if g.1 = group_name then (g.1, g_key_file_set_entry g.2 key value) else g)
  else key_file ++ [(group_name, [(key, value)])]

/-- The glib function g_key_file_remove_key. -/
def g_key_file_remove_key (key_file : GKeyFile) (group_name key : List Char) : GKeyFile :=
  key_file.map (fun g =>
    if g.1 = group_name then (g.1, g.2.filter (fun e => e.1 ≠ key)) else g)

/-! ## The bookmark commands -/

/-- The id loop of the bookmark commands from index i on: a space goes before
every argument but the one of index 0. -/
def bookmark_id_loop : Nat → List (List Char) → List Char → List Char
  | _, [], id => id
  | i, arg :: rest, id =>
    bookmark_id_loop (i + 1) rest ((if i ≠ 0 then id ++ [' '] else id) ++ arg)

/-- The id that cmd_bookmark, cmd_open_bookmark and cmd_delete_bookmark build
from their arguments. -/
def bookmark_id (argv : List (List Char)) : List Char := bookmark_id_loop 0 argv []

/-- The overwrite loop of cmd_bookmark: the first entry with the id gets the
page; none when no entry has the id. -/
def bookmarks_update : List Bookmark → List Char → Int → Option (List Bookmark)
  | [], _, _ => none
  | b :: bs, id, page_number =>
    if id = b.id then some ({ b with page := page_number } :: bs)
    else (bookmarks_update bs id page_number).map (fun r => b :: r)

/-- The function cmd_bookmark, with its return value; argc is the length of
argv. -/
def cmd_bookmark (z : Session) (argv : List (List Char)) : Session × Bool :=
  if z.PDF.document.isNone ∨ argv.length < 1 then (z, true)
  else
    let id := bookmark_id argv
    match bookmarks_update z.Bookmarks.bookmarks id z.PDF.page_number with
    | some bookmarks => ({ z with Bookmarks := { z.Bookmarks with bookmarks := bookmarks } }, true)
    | none =>
      ({ z with Bookmarks :=
          { z.Bookmarks with
            bookmarks := z.Bookmarks.bookmarks ++ [{ id := id, page := z.PDF.page_number }] } },
        true)

/-- The function cmd_open_bookmark, with its return value. -/
def cmd_open_bookmark (z : Session) (argv : List (List Char)) : Session × Bool :=
  if z.PDF.document.isNone ∨ argv.length < 1 then (z, true)
  else
    let id := bookmark_id argv
    match z.Bookmarks.bookmarks.find? (fun b => id = b.id) with
    | some b => (set_page z b.page, true)
    | none => (notify z WARNING (some "No matching bookmark found".toList), false)

/-- The search loop of cmd_delete_bookmark: the index of the first entry with
the id. -/
def bookmarks_index : List Bookmark → List Char → Option Nat
  | [], _ => none
  | b :: bs, id => if id = b.id then some 0 else (bookmarks_index bs id).map (· + 1)

/-- The function cmd_delete_bookmark, with its return value: the entry found
takes the id and the page of the last entry and the count goes down by one.
The key removed from the key file is the id of the entry found, which is the
id built from the arguments. -/
def cmd_delete_bookmark (z : Session) (argv : List (List Char)) : Session × Bool :=
  if z.PDF.document.isNone ∨ argv.length < 1 then (z, true)
  else
    let id := bookmark_id argv
    let bookmarks := z.Bookmarks.bookmarks
    match bookmarks_index bookmarks id, bookmarks.getLast? with
    | some i, some last =>
      let data := z.Bookmarks.data.map (fun key_file =>
        g_key_file_remove_key key_file z.PDF.file id)
      ({ z with Bookmarks := { bookmarks := (bookmarks.set i last).dropLast, data := data } },
        true)
    | _, _ => (z, true)

/-- The sample document of 3 pages with the bookmarks a on page 1, my mark on
page 2 and c on page 0. -/
def sample_bookmarked : Session :=
  { sample_session [false, false, false] with
    Bookmarks :=
      { bookmarks :=
          [{ id := "a".toList, page := 1 }, { id := "my mark".toList, page := 2 },
           { id := "c".toList, page := 0 }] } }

/-! ## Opening and closing a document, zoom -/

/-- The constants of config.h that the functions below read. -/
structure Config where
  ZOOM_MIN : Int
  ZOOM_MAX : Int
  ZOOM_STEP : Int
  GOTO_MODE : Int
  BM_PAGE_ENTRY : List Char
  BM_PAGE_OFFSET : List Char

/-- A GError: its code and its message. -/
structure GError where
  code : Int := 0
  message : List Char := []
  deriving DecidableEq, Repr

/-- What open_file asks of the environment, the file system and the document
library: getenv of HOME, realpath (NULL is none), g_file_test with
G_FILE_TEST_IS_REGULAR, g_filename_to_uri and
poppler_document_new_from_file, the last two with the error they set when
they give NULL. -/
structure Files where
  HOME : List Char := []
  realpath : List Char → Option (List Char) := fun path => some path
  g_file_test : List Char → Bool := fun _ => false
  g_filename_to_uri : List Char → Except GError (List Char) :=
    fun file => Except.ok ("file://".toList ++ file)
  poppler_document_new_from_file : List Char → Option (List Char) →
    Except GError PopplerDocument := fun _ _ => Except.error {}

/-- The function cmd_close, with its return value.  The bookmark file on disk
(g_file_set_contents), the inotify watch, the index and information widgets
and the status line are left out; the freed arrays pages and markers are the
empty list. -/
def cmd_close (config : Config) (z : Session) (argc : Int) : Session × Bool :=
  if z.PDF.document.isNone then
    ((if argc ≠ -1 then notify z ERROR (some "No file has been opened".toList) else z), false)
  else
    let fault := z.fault || decide (z.PDF.number_of_pages > z.PDF.pages.length)
    let data := z.Bookmarks.data.map (fun key_file =>
      let key_file := g_key_file_set_integer key_file z.PDF.file config.BM_PAGE_ENTRY
        z.PDF.page_number
      let key_file := g_key_file_set_integer key_file z.PDF.file config.BM_PAGE_OFFSET
        z.PDF.page_offset
      z.Bookmarks.bookmarks.foldl
        (fun key_file b => g_key_file_set_integer key_file z.PDF.file b.id b.page) key_file)
    ({ z with
        fault := fault,
        Bookmarks := { z.Bookmarks with data := data },
        PDF :=
          { z.PDF with
            pages := [],
            document := none,
            file := [],
            password := some [],
            page_number := 0,
            number_of_pages := 0,
            scale := 0,
            rotate := 0,
            page_offset := 0 },
        Marker := { markers := [], last := -1 } }, true)

/-- The file name open_file works with: realpath of the path, or, for a path
that starts with a tilde, what snprintf writes into a buffer of
strlen(HOME) + strlen(path) - 1 bytes, the terminating NUL included. -/
def open_file_name (files : Files) (path : List Char) : Option (List Char) :=
  if path.head? = some '~' then
    some ((files.HOME ++ path.drop 1).take (files.HOME.length + path.length - 1 - 1))
  else files.realpath path

/-- The password open_file hands to the document library: its argument, or
the saved password when the argument is NULL and the saved one is not empty. -/
def open_file_password (z : Session) (password : Option (List Char)) : Option (List Char) :=
  match password with
  | some p => some p
  | none =>
    match z.PDF.password with
    | some saved => if saved.length ≠ 0 then some saved else none
    | none => none

/-- The message of open_file for a document the library did not open; the
character of code 34 is the double quote. -/
def open_file_message (error : GError) : List Char :=
  "Can not open file: ".toList ++ error.message ++ [' '] ++
    (if error.code = 1 then
      "(Use ".toList ++ [Char.ofNat 34] ++ ":set password".toList ++ [Char.ofNat 34] ++
        " to set the password)".toList
    else [])

/-- The pages array open_file builds: ids from 1 and the label of each page. -/
def open_file_pages (document : PopplerDocument) : List Page :=
  document.pages.enum.map (fun e => { page := e.2, id := (e.1 : Int) + 1, label := e.2.label })

/-- The function open_file, with its return value.  The inotify watch and the
status line are left out. -/
def open_file (config : Config) (files : Files) (z : Session) (path : List Char)
    (password : Option (List Char)) : Session × Bool :=
  match (open_file_name files path).filter files.g_file_test with
  | none => (notify z ERROR (some "File does not exist".toList), false)
  | some file =>
    let z := (cmd_close config z (-1)).1
    let password := open_file_password z password
    match files.g_filename_to_uri file with
    | Except.error error =>
      (notify z ERROR (some ("Can not open file: ".toList ++ error.message)), false)
    | Except.ok file_uri =>
      match files.poppler_document_new_from_file file_uri password with
      | Except.error error =>
        (notify { z with PDF := { z.PDF with document := none } } ERROR
          (some (open_file_message error)), false)
      | Except.ok document =>
        let pages := open_file_pages document
        let enable_labelmode :=
          pages.any (fun p => decide (atoi p.label = 0 ∨ atoi p.label ≠ p.id))
        let goto_mode :=
          if ¬ enable_labelmode ∧ config.GOTO_MODE = GOTO_LABELS then GOTO_DEFAULT
          else z.Global.goto_mode
        let start_page : Int := 0
        let page_offset : Int := 0
        let bookmarks := z.Bookmarks.bookmarks
        let saved : Int × Int × List Bookmark :=
          match z.Bookmarks.data with
          | none => (start_page, page_offset, bookmarks)
          | some data =>
            if g_key_file_has_group data file then
              let start_page :=
                if g_key_file_has_key data file config.BM_PAGE_ENTRY then
                  g_key_file_get_integer data file config.BM_PAGE_ENTRY
                else start_page
              let page_offset :=
                if g_key_file_has_key data file config.BM_PAGE_OFFSET then
                  g_key_file_get_integer data file config.BM_PAGE_OFFSET
                else page_offset
              let page_offset :=
                if page_offset ≠ 0 ∧ page_offset ≠ GOTO_OFFSET then GOTO_OFFSET
                else page_offset
              let keys := (g_key_file_get_keys data file).filter
                (fun key => decide (key ≠ config.BM_PAGE_ENTRY ∧ key ≠ config.BM_PAGE_OFFSET))
              (start_page, page_offset,
                bookmarks ++ keys.map (fun key =>
                  { id := key, page := g_key_file_get_integer data file key }))
            else (start_page, page_offset, bookmarks)
        let z :=
          { z with
            Global := { z.Global with enable_labelmode := enable_labelmode, goto_mode := goto_mode },
            Bookmarks := { z.Bookmarks with bookmarks := saved.2.2 },
            PDF :=
              { z.PDF with
                document := some document,
                number_of_pages := document.pages.length,
                file := file,
                scale := 100,
                rotate := 0,
                pages := pages,
                page_offset := saved.2.1 } }
        (set_page z saved.1, true)

/-- The function bcmd_zoom. -/
def bcmd_zoom (config : Config) (z : Session) (buffer : List Char) (argument : Argument) :
    Session :=
  let z := { z with Global := { z.Global with adjust_mode := ADJUST_NONE } }
  if argument.n = ZOOM_IN then
    let scale :=
      if z.PDF.scale + config.ZOOM_STEP ≤ config.ZOOM_MAX then z.PDF.scale + config.ZOOM_STEP
      else config.ZOOM_MAX
    draw { z with PDF := { z.PDF with scale := scale } } z.PDF.page_number
  else if argument.n = ZOOM_OUT then
    let scale :=
      if z.PDF.scale - config.ZOOM_STEP ≥ config.ZOOM_MIN then z.PDF.scale - config.ZOOM_STEP
      else config.ZOOM_MIN
    draw { z with PDF := { z.PDF with scale := scale } } z.PDF.page_number
  else if argument.n = ZOOM_SPECIFIC then
    let b_length := buffer.length
    if b_length < 1 then z
    else
      let value := atoi (g_strndup buffer (b_length - 1))
      let scale :=
        if value ≤ config.ZOOM_MIN then config.ZOOM_MIN
        else if value ≥ config.ZOOM_MAX then config.ZOOM_MAX
        else value
      draw { z with PDF := { z.PDF with scale := scale } } z.PDF.page_number
  else draw { z with PDF := { z.PDF with scale := 100 } } z.PDF.page_number

/-- The function sc_adjust_window; view_v and view_h are the page sizes of the
vertical and the horizontal adjustment of the view.  Reading a page that is
not in the pages array and dividing by a page size of 0 (the conversion of the
quotient to int is then undefined) are recorded in fault. -/
def sc_adjust_window (view_v view_h : ℚ) (z : Session) (argument : Argument) : Session :=
  if z.PDF.document.isNone then z
  else
    let z := { z with Global := { z.Global with adjust_mode := argument.n } }
    if argument.n ≠ ADJUST_BESTFIT ∧ argument.n ≠ ADJUST_WIDTH then z
    else
      let view_size := if argument.n = ADJUST_BESTFIT then view_v else view_h
      match array_at z.PDF.pages z.PDF.page_number with
      | none => { z with fault := true }
      | some current_page =>
        let size := poppler_page_get_size current_page.page
        let size := if z.PDF.rotate = 90 ∨ z.PDF.rotate = 270 then (size.2, size.1) else size
        let page_width := size.1
        let page_height := size.2
        let divisor := if argument.n = ADJUST_BESTFIT then page_height else page_width
        if divisor = 0 then { z with fault := true }
        else
          let scale := trunc ((view_size / divisor) * 100)
          draw { z with PDF := { z.PDF with scale := scale } } z.PDF.page_number

/-- Constants as a config.h may give them. -/
def sample_config : Config :=
  { ZOOM_MIN := 10, ZOOM_MAX := 400, ZOOM_STEP := 10, GOTO_MODE := GOTO_DEFAULT,
    BM_PAGE_ENTRY := "page".toList, BM_PAGE_OFFSET := "offset".toList }

/-- A file system with the one regular file /doc.pdf; the document library
opens it as the sample document of 8 pages when good is set and reports an
error otherwise. -/
def sample_files (good : Bool) : Files :=
  { HOME := "/home/u".toList,
    g_file_test := fun file => decide (file = "/doc.pdf".toList),
    poppler_document_new_from_file := fun file_uri _ =>
      if good ∧ file_uri = "file:///doc.pdf".toList then
        Except.ok (sample_document (List.replicate 8 false))
      else Except.error { code := 0, message := "broken".toList } }

/-- A session without a document whose key file holds, for /doc.pdf, the last
page and the page offset given. -/
def sample_saved (page offset : Int) : Session :=
  { Bookmarks :=
      { data := some [("/doc.pdf".toList,
          [("page".toList, page), ("offset".toList, offset)])] } }

/-! ## The threads of a search: sc_search on the main thread and the workers

The interleavings of the main thread, which runs sc_search, with the threads
that run search.  A thread moves from one statement that touches
Zathura.Lock.search_lock, Zathura.Thread.search_thread_running or
Zathura.Thread.search_thread to the next in one step; the positions carry the
line of zathura.c at which the thread stands.  The gdk lock, pdflib_lock and
document_lock are left out, except that a worker which takes document_lock a
second time in the first branch of search stops there for good. -/

/-- Where the main thread stands: outside sc_search, or before the statement
of sc_search at the given line. -/
inductive MainPc where
  /-- not in sc_search -/
  | idle
  /-- g_static_mutex_lock of search_lock -/
  | l1465
  /-- the test of search_thread_running -/
  | l1466
  /-- search_thread_running = FALSE -/
  | l1468
  /-- g_static_mutex_unlock, then gdk_threads_leave -/
  | l1469
  /-- g_thread_join of search_thread -/
  | l1471
  /-- gdk_threads_enter, then g_static_mutex_lock -/
  | l1473
  /-- search_thread_running = TRUE -/
  | l1476
  /-- search_thread = g_thread_create of search -/
  | l1477
  /-- g_static_mutex_unlock -/
  | l1478
  deriving DecidableEq, Repr

/-- Where a worker stands in search. -/
inductive WorkerPc where
  /-- at the start of search, before the test of the document and the text -/
  | entry
  /-- in the first branch, at the second lock of document_lock, for good -/
  | stuck
  /-- at the top of the loop: g_static_mutex_lock of search_lock -/
  | l1163
  /-- the test of search_thread_running -/
  | l1164
  /-- the flag was FALSE: g_static_mutex_unlock -/
  | l1166
  /-- g_thread_exit after the flag was found FALSE -/
  | l1167
  /-- the flag was TRUE: g_static_mutex_unlock -/
  | l1169
  /-- from the computation of next_page to the test of results: the page is
  fetched and searched -/
  | l1171
  /-- results were found: set_page and highlight_result under the gdk lock -/
  | l1190
  /-- after the loop and the drawing: g_static_mutex_lock of search_lock -/
  | l1202
  /-- search_thread_running = FALSE -/
  | l1203
  /-- g_static_mutex_unlock -/
  | l1204
  /-- g_thread_exit at the end -/
  | l1206
  /-- the thread has ended -/
  | exited
  deriving DecidableEq, Repr

/-- Who holds a mutex: the main thread or the worker of the given number. -/
inductive Owner where
  | main
  | worker (i : Nat)
  deriving DecidableEq, Repr

/-- What the data decide where search branches on them. -/
inductive Choice where
  /-- no document or no search text: the first branch -/
  | blocked
  /-- the document has no pages: the loop is not entered -/
  | no_pages
  /-- poppler_document_get_page gave NULL -/
  | no_page
  /-- poppler_page_find_text gave results -/
  | results
  /-- no results, and page_counter has not reached the page count -/
  | next
  /-- no results on the last round of the loop -/
  | last
  deriving DecidableEq, Repr

/-- The state the threads share, and where each of them stands.  Workers are
numbered in the order of their creation; search_thread is the number of the
worker whose handle Zathura.Thread.search_thread holds. -/
structure Threads where
  search_thread_running : Bool := false
  search_lock : Option Owner := none
  search_thread : Option Nat := none
  main : MainPc := MainPc.idle
  workers : List WorkerPc := []
  deriving DecidableEq, Repr

/-- One step of a thread. -/
inductive Event where
  /-- the main thread takes its next step (from idle: sc_search is called) -/
  | main
  /-- worker i takes its next step, with what the data decide -/
  | worker (i : Nat) (choice : Choice)
  deriving DecidableEq, Repr

/-- The next step of the main thread through sc_search; none when it has to
wait (for the mutex, or in g_thread_join for the end of the worker). -/
def sc_search_step (s : Threads) : Option Threads :=
  match s.main with
  | MainPc.idle => some { s with main := MainPc.l1465 }
  | MainPc.l1465 =>
    if s.search_lock = none then
      some { s with search_lock := some Owner.main, main := MainPc.l1466 }
    else none
  | MainPc.l1466 =>
    some { s with main := if s.search_thread_running then MainPc.l1468 else MainPc.l1476 }
  | MainPc.l1468 => some { s with search_thread_running := false, main := MainPc.l1469 }
  | MainPc.l1469 => some { s with search_lock := none, main := MainPc.l1471 }
  | MainPc.l1471 =>
    match s.search_thread with
    | some i => if s.workers[i]? = some WorkerPc.exited then some { s with main := MainPc.l1473 }
      else none
    | none => none
  | MainPc.l1473 =>
    if s.search_lock = none then
      some { s with search_lock := some Owner.main, main := MainPc.l1476 }
    else none
  | MainPc.l1476 => some { s with search_thread_running := true, main := MainPc.l1477 }
  | MainPc.l1477 =>
    some { s with workers := s.workers ++ [WorkerPc.entry],
                  search_thread := some s.workers.length, main := MainPc.l1478 }
  | MainPc.l1478 => some { s with search_lock := none, main := MainPc.idle }

/-- The next step of worker i through search; none when there is no such
worker, when it has to wait for the mutex, or when it has ended or is stuck. -/
def search_step (s : Threads) (i : Nat) (choice : Choice) : Option Threads :=
  match s.workers[i]? with
  | none => none
  | some pc =>
    match pc with
    | WorkerPc.entry =>
      let pc :=
        if choice = Choice.blocked then WorkerPc.stuck
        else if choice = Choice.no_pages then WorkerPc.l1202
        else WorkerPc.l1163
      some { s with workers := s.workers.set i pc }
    | WorkerPc.stuck => none
    | WorkerPc.l1163 =>
      if s.search_lock = none then
        some { s with search_lock := some (Owner.worker i),
                      workers := s.workers.set i WorkerPc.l1164 }
      else none
    | WorkerPc.l1164 =>
      let pc := if s.search_thread_running = false then WorkerPc.l1166 else WorkerPc.l1169
      some { s with workers := s.workers.set i pc }
    | WorkerPc.l1166 =>
      some { s with search_lock := none, workers := s.workers.set i WorkerPc.l1167 }
    | WorkerPc.l1167 => some { s with workers := s.workers.set i WorkerPc.exited }
    | WorkerPc.l1169 =>
      some { s with search_lock := none, workers := s.workers.set i WorkerPc.l1171 }
    | WorkerPc.l1171 =>
      let pc :=
        if choice = Choice.no_page then WorkerPc.exited
        else if choice = Choice.results then WorkerPc.l1190
        else if choice = Choice.last then WorkerPc.l1202
        else WorkerPc.l1163
      some { s with workers := s.workers.set i pc }
    | WorkerPc.l1190 => some { s with workers := s.workers.set i WorkerPc.l1202 }
    | WorkerPc.l1202 =>
      if s.search_lock = none then
        some { s with search_lock := some (Owner.worker i),
                      workers := s.workers.set i WorkerPc.l1203 }
      else none
    | WorkerPc.l1203 =>
      some { s with search_thread_running := false, workers := s.workers.set i WorkerPc.l1204 }
    | WorkerPc.l1204 =>
      some { s with search_lock := none, workers := s.workers.set i WorkerPc.l1206 }
    | WorkerPc.l1206 => some { s with workers := s.workers.set i WorkerPc.exited }
    | WorkerPc.exited => none

/-- One step of the threads. -/
def threads_step (s : Threads) : Event → Option Threads
  | Event.main => sc_search_step s
  | Event.worker i choice => search_step s i choice

/-- A schedule, step by step; none when one of its steps cannot be taken. -/
def threads_run (s : Threads) : List Event → Option Threads
  | [] => some s
  | e :: rest =>
    match threads_step s e with
    | some t => threads_run t rest
    | none => none

/-- A worker that has left the loop, the drawing and its last write of the
running flag behind: it stands at its g_thread_exit or has ended. -/
def WorkerPc.finished (pc : WorkerPc) : Bool :=
  pc = WorkerPc.l1206 ∨ pc = WorkerPc.exited

/-- A worker that scans a page or draws the results. -/
def WorkerPc.working (pc : WorkerPc) : Bool :=
  pc = WorkerPc.l1171 ∨ pc = WorkerPc.l1190

/-- The positions at which the main thread holds search_lock. -/
def MainPc.holds (pc : MainPc) : Bool :=
  pc = MainPc.l1466 ∨ pc = MainPc.l1468 ∨ pc = MainPc.l1469 ∨ pc = MainPc.l1476 ∨
    pc = MainPc.l1477 ∨ pc = MainPc.l1478

/-- The positions at which a worker holds search_lock. -/
def WorkerPc.holds (pc : WorkerPc) : Bool :=
  pc = WorkerPc.l1164 ∨ pc = WorkerPc.l1166 ∨ pc = WorkerPc.l1169 ∨ pc = WorkerPc.l1203 ∨
    pc = WorkerPc.l1204

/-- What holds of the threads after every schedule: the mutex is held by the
thread that stands between its lock and its unlock; every worker but the one
of the handle search_thread is finished; while the flag is FALSE and the main
thread is not between clearing it and the return of g_thread_join, every
worker is at its last unlock or finished; from the return of g_thread_join, or
from a flag found FALSE, to the creation of the next worker every worker is
finished; and the flag is FALSE from its clearing to line 1476 and TRUE from
there to the unlock. -/
structure ThreadsInv (s : Threads) : Prop where
  lock_main : s.search_lock = some Owner.main ↔ s.main.holds = true
  lock_worker : ∀ (j : Nat) (pc : WorkerPc), s.workers[j]? = some pc →
    (pc.holds = true ↔ s.search_lock = some (Owner.worker j))
  others : ∀ (j : Nat) (pc : WorkerPc), s.workers[j]? = some pc → s.search_thread ≠ some j → pc.finished = true
  cleared : s.search_thread_running = false → s.main ≠ MainPc.l1469 → s.main ≠ MainPc.l1471 →
    ∀ (j : Nat) (pc : WorkerPc), s.workers[j]? = some pc → pc = WorkerPc.l1204 ∨ pc.finished = true
  joined : (s.main = MainPc.l1473 ∨ s.main = MainPc.l1476 ∨ s.main = MainPc.l1477) →
    ∀ (j : Nat) (pc : WorkerPc), s.workers[j]? = some pc → pc.finished = true
  flag_false : (s.main = MainPc.l1469 ∨ s.main = MainPc.l1471 ∨ s.main = MainPc.l1473 ∨
    s.main = MainPc.l1476) → s.search_thread_running = false
  flag_true : (s.main = MainPc.l1477 ∨ s.main = MainPc.l1478) → s.search_thread_running = true

/-- A schedule: search A is started and scans a page; sc_search is called
again while the flag is set, clears it and waits in g_thread_join; A finds the
flag FALSE at the top of its loop and ends; the main thread goes on and
creates B, which comes to scan a page. -/
def sample_schedule : List Event :=
  List.replicate 6 Event.main ++
  List.replicate 4 (Event.worker 0 Choice.next) ++
  List.replicate 5 Event.main ++
  List.replicate 5 (Event.worker 0 Choice.next) ++
  List.replicate 5 Event.main ++
  List.replicate 4 (Event.worker 1 Choice.next)

/-- A session with one page of 3 by 1 points open at scale 100, on which the
library paints a white, a black and a grey pixel, with recolouring on, the
dark colour 0x1111 0x2222 0x3333 and the light colour 0xEEEE 0xDDDD 0xCCCC. -/
def sample_recolor_session : Session :=
  { Style :=
      { recolor_darkcolor := { red := 0x1111, green := 0x2222, blue := 0x3333 },
        recolor_lightcolor := { red := 0xEEEE, green := 0xDDDD, blue := 0xCCCC } },
    Global := { recolor := true },
    PDF :=
      { document := some { pages := [{ width := 3, height := 1 }] },
        pages :=
          [{ page :=
               { width := 3, height := 1,
                 render := fun _ _ _ _ =>
                   [[{ blue := 255, green := 255, red := 255 },
                     { blue := 0, green := 0, red := 0 },
                     { blue := 10, green := 20, red := 30 }]] },
             id := 1, label := ['1'] }],
        page_number := 0,
        number_of_pages := 1,
        scale := 100,
        rotate := 0 } }

/-! ## The completion functions -/

end Zathura

namespace Zathura

/-! ## The current page and the guard of draw -/

/-- C1 (the code breaks the claim): on an open document of 5 pages, the goto
buffer 6G reaches set_page with page 5; its guard rejects only pages above
the page count, so the current page index becomes 5, which is not below the
number of pages, and draw then reads the pages array past its end. -/
theorem set_page_accepts_page_count :
    (bcmd_goto (sample_session (List.replicate 5 false)) ['6', 'G'] {}).PDF.number_of_pages = 5 ∧
    (bcmd_goto (sample_session (List.replicate 5 false)) ['6', 'G'] {}).PDF.page_number = 5 ∧
    (set_page (sample_session (List.replicate 5 false)) 5).PDF.page_number = 5 ∧
    (bcmd_goto (sample_session (List.replicate 5 false)) ['6', 'G'] {}).fault = true := by
  decide

/-- C2 (the code breaks the claim): with a document of 3 pages open, draw
called with page_id 3 passes the guard and reads entry 3 of the pages array,
which has the entries 0, 1 and 2 only; the call is not a no-op, the surface
that was there is gone. -/
theorem draw_reads_past_pages :
    (sample_session [false, false, false]).PDF.number_of_pages = 3 ∧
    (sample_session [false, false, false]).PDF.pages.length = 3 ∧
    draw_lookup (sample_session [false, false, false]) 3 = some 3 ∧
    (draw (sample_session [false, false, false]) 3).fault = true ∧
    (sample_session [false, false, false]).PDF.surface.isSome = true ∧
    (draw (sample_session [false, false, false]) 3).PDF.surface.isSome = false := by
  decide

/-! ## Geometry -/

/-- C3: recalcRectangle rewrites the rectangle as the remap rule says, for
each of the four rotations, with s the scale percentage over 100 and (W, H)
the size of the page; at rotation 0 and scale 100 the result is exactly
(x1, H - y1, x2, H - y2). -/
theorem recalcRectangle_remap (z : Session) (page_id : Int) (current_page : Page)
    (r : PopplerRectangle) (hp : array_at z.PDF.pages page_id = some current_page) :
    (z.PDF.rotate = 0 → recalcRectangle z page_id r = some
      { x1 := r.x1 * ((z.PDF.scale : ℚ) / 100),
        y1 := (current_page.page.height - r.y1) * ((z.PDF.scale : ℚ) / 100),
        x2 := r.x2 * ((z.PDF.scale : ℚ) / 100),
        y2 := (current_page.page.height - r.y2) * ((z.PDF.scale : ℚ) / 100) }) ∧
    (z.PDF.rotate = 90 → recalcRectangle z page_id r = some
      { x1 := r.y2 * ((z.PDF.scale : ℚ) / 100),
        y1 := r.x1 * ((z.PDF.scale : ℚ) / 100),
        x2 := r.y1 * ((z.PDF.scale : ℚ) / 100),
        y2 := r.x2 * ((z.PDF.scale : ℚ) / 100) }) ∧
    (z.PDF.rotate = 180 → recalcRectangle z page_id r = some
      { x1 := (current_page.page.width - r.x2) * ((z.PDF.scale : ℚ) / 100),
        y1 := r.y2 * ((z.PDF.scale : ℚ) / 100),
        x2 := (current_page.page.width - r.x1) * ((z.PDF.scale : ℚ) / 100),
        y2 := r.y1 * ((z.PDF.scale : ℚ) / 100) }) ∧
    (z.PDF.rotate = 270 → recalcRectangle z page_id r = some
      { x1 := (current_page.page.height - r.y1) * ((z.PDF.scale : ℚ) / 100),
        y1 := (current_page.page.width - r.x2) * ((z.PDF.scale : ℚ) / 100),
        x2 := (current_page.page.height - r.y2) * ((z.PDF.scale : ℚ) / 100),
        y2 := (current_page.page.width - r.x1) * ((z.PDF.scale : ℚ) / 100) }) ∧
    (z.PDF.rotate = 0 → z.PDF.scale = 100 → recalcRectangle z page_id r = some
      { x1 := r.x1, y1 := current_page.page.height - r.y1,
        x2 := r.x2, y2 := current_page.page.height - r.y2 }) := by
  refine ⟨?_, ?_, ?_, ?_, ?_⟩
  · intro h
    simp [recalcRectangle, hp, recalc, poppler_page_get_size, h]
  · intro h
    simp [recalcRectangle, hp, recalc, poppler_page_get_size, h]
  · intro h
    simp [recalcRectangle, hp, recalc, poppler_page_get_size, h]
  · intro h
    simp [recalcRectangle, hp, recalc, poppler_page_get_size, h]
  · intro h hs
    simp [recalcRectangle, hp, recalc, poppler_page_get_size, h, hs]

/-- Witness of C3: page 0 of a one-page session, a sample rectangle. -/
theorem recalcRectangle_remap_witness :
    recalcRectangle (sample_session [false]) 0 { x1 := 10, y1 := 20, x2 := 30, y2 := 40 } =
      some { x1 := 10, y1 := 792 - 20, x2 := 30, y2 := 792 - 40 } :=
  (recalcRectangle_remap (sample_session [false]) 0
    { page := sample_page false, id := 1, label := sample_label 1 }
    { x1 := 10, y1 := 20, x2 := 30, y2 := 40 } (by rfl)).2.2.2.2 (by rfl) (by rfl)

/-- C4: for a rotation among 0, 90, 180, 270 and a positive scale percentage,
the display size computed by draw from the page size (W, H) is (W s, H s) at
0 and 180 and (H s, W s) at 90 and 270, with s the percentage over 100; on a
page that is not square it is the swapped pair exactly at 90 and 270.  The
surface draw creates has these two numbers, converted to int, as its size. -/
theorem draw_size_rotation (z : Session) (page_id : Int) (current_page : Page)
    (hdoc : z.PDF.document.isSome = true)
    (hid : 0 ≤ page_id ∧ page_id < z.PDF.number_of_pages)
    (hp : array_at z.PDF.pages page_id = some current_page)
    (hR : z.PDF.rotate = 0 ∨ z.PDF.rotate = 90 ∨ z.PDF.rotate = 180 ∨ z.PDF.rotate = 270)
    (hs : 0 < z.PDF.scale) :
    ((z.PDF.rotate = 0 ∨ z.PDF.rotate = 180) →
      draw_size z.PDF.rotate ((z.PDF.scale : ℚ) / 100)
          current_page.page.width current_page.page.height =
        (current_page.page.width * ((z.PDF.scale : ℚ) / 100),
         current_page.page.height * ((z.PDF.scale : ℚ) / 100))) ∧
    ((z.PDF.rotate = 90 ∨ z.PDF.rotate = 270) →
      draw_size z.PDF.rotate ((z.PDF.scale : ℚ) / 100)
          current_page.page.width current_page.page.height =
        (current_page.page.height * ((z.PDF.scale : ℚ) / 100),
         current_page.page.width * ((z.PDF.scale : ℚ) / 100))) ∧
    (current_page.page.width ≠ current_page.page.height →
      (draw_size z.PDF.rotate ((z.PDF.scale : ℚ) / 100)
          current_page.page.width current_page.page.height =
        (current_page.page.height * ((z.PDF.scale : ℚ) / 100),
         current_page.page.width * ((z.PDF.scale : ℚ) / 100)) ↔
        (z.PDF.rotate = 90 ∨ z.PDF.rotate = 270))) ∧
    (∃ sf, (draw z page_id).PDF.surface = some sf ∧
      sf.width = trunc (draw_size z.PDF.rotate ((z.PDF.scale : ℚ) / 100)
          current_page.page.width current_page.page.height).1 ∧
      sf.height = trunc (draw_size z.PDF.rotate ((z.PDF.scale : ℚ) / 100)
          current_page.page.width current_page.page.height).2) := by
  have hs0 : ((z.PDF.scale : ℚ) / 100) ≠ 0 := by
    have : (0 : ℚ) < (z.PDF.scale : ℚ) := by exact_mod_cast hs
    positivity
  refine ⟨?_, ?_, ?_, ?_⟩
  · intro h
    simp [draw_size, h]
  · intro h
    rcases h with h | h <;> simp [draw_size, h]
  · intro hne
    rcases hR with h | h | h | h
    · simp [draw_size, h, hs0, hne]
    · simp [draw_size, h]
    · simp [draw_size, h, hs0, hne]
    · simp [draw_size, h]
  · have hl : draw_lookup z page_id = some page_id := by
      have h1 : ¬ page_id < 0 := not_lt.mpr hid.1
      have h2 : ¬ page_id > z.PDF.number_of_pages := not_lt.mpr (le_of_lt hid.2)
      have h3 : ¬ z.PDF.document = none := by
        intro h
        simp [h] at hdoc
      simp [draw_lookup, h1, h2, h3]
    simp [draw, hl, hp, poppler_page_get_size]

/-- Witness of C4: page 0 of a one-page session at scale 100, rotation 0. -/
theorem draw_size_rotation_witness :
    draw_size 0 ((100 : ℚ) / 100) 612 792 = (612 * ((100 : ℚ) / 100), 792 * ((100 : ℚ) / 100)) :=
  (draw_size_rotation (sample_session [false]) 0
    { page := sample_page false, id := 1, label := sample_label 1 }
    (by rfl) (by decide) (by rfl) (Or.inl (by rfl)) (by decide)).1 (Or.inl (by rfl))

/-! ## Recolouring -/

/-- A value within a quarter of c + 1/2, for c not negative, converts to c. -/
lemma trunc_of_near (v : ℚ) (c : Int) (hc : 0 ≤ c)
    (h : |v - ((c : ℚ) + 1 / 2)| ≤ 1 / 4) : trunc v = c := by
  have hc' : (0 : ℚ) ≤ (c : ℚ) := by exact_mod_cast hc
  obtain ⟨h1, h2⟩ := abs_le.mp h
  have hv : 0 ≤ v := by linarith
  unfold trunc
  rw [if_pos hv, Int.floor_eq_iff]
  constructor <;> linarith

/-- A white pixel (mean 255) takes the light channel. -/
lemma recolor_channel_white (rndF rndD : ℚ → ℚ) (hF : rounds_within rndF)
    (hD : rounds_within rndD) (c1 c2 : Int) (h1 : 0 ≤ c1 ∧ c1 ≤ 255)
    (h2 : 0 ≤ c2 ∧ c2 ≤ 255) : recolor_channel rndF rndD c1 c2 255 = c2 := by
  have a1 : (0 : ℚ) ≤ (c1 : ℚ) := by exact_mod_cast h1.1
  have a2 : (c1 : ℚ) ≤ 255 := by exact_mod_cast h1.2
  have b1 : (0 : ℚ) ≤ (c2 : ℚ) := by exact_mod_cast h2.1
  have b2 : (c2 : ℚ) ≤ 255 := by exact_mod_cast h2.2
  obtain ⟨e1, e1'⟩ := abs_le.mp (hF ((c2 : ℚ) - (c1 : ℚ))
    (abs_le.mpr ⟨by linarith, by linarith⟩))
  obtain ⟨e2, e2'⟩ := abs_le.mp (hF (rndF ((c2 : ℚ) - (c1 : ℚ)) / 255)
    (abs_le.mpr ⟨by linarith, by linarith⟩))
  obtain ⟨e3, e3'⟩ := abs_le.mp (hF (rndF (rndF ((c2 : ℚ) - (c1 : ℚ)) / 255) * 255)
    (abs_le.mpr ⟨by linarith, by linarith⟩))
  obtain ⟨e4, e4'⟩ := abs_le.mp
    (hF (rndF (rndF (rndF ((c2 : ℚ) - (c1 : ℚ)) / 255) * 255) + (c1 : ℚ))
      (abs_le.mpr ⟨by linarith, by linarith⟩))
  obtain ⟨e5, e5'⟩ := abs_le.mp
    (hD (rndF (rndF (rndF (rndF ((c2 : ℚ) - (c1 : ℚ)) / 255) * 255) + (c1 : ℚ)) + 1 / 2)
      (abs_le.mpr ⟨by linarith, by linarith⟩))
  have hv : trunc (rndD (rndF (rndF (rndF (rndF ((c2 : ℚ) - (c1 : ℚ)) / 255) * 255)
      + (c1 : ℚ)) + 1 / 2)) = c2 := by
    apply trunc_of_near _ _ h2.1
    rw [abs_le]
    constructor <;> linarith
  have hcast : (((255 : Int) - (0 : Int) : Int) : ℚ) = 255 := by norm_num
  simp only [recolor_channel, hcast, hv]
  omega

/-- A black pixel (mean 0) takes the dark channel. -/
lemma recolor_channel_black (rndF rndD : ℚ → ℚ) (hF : rounds_within rndF)
    (hD : rounds_within rndD) (c1 c2 : Int) (h1 : 0 ≤ c1 ∧ c1 ≤ 255) :
    recolor_channel rndF rndD c1 c2 0 = c1 := by
  have a1 : (0 : ℚ) ≤ (c1 : ℚ) := by exact_mod_cast h1.1
  have a2 : (c1 : ℚ) ≤ 255 := by exact_mod_cast h1.2
  obtain ⟨e3, e3'⟩ := abs_le.mp (hF 0 (by norm_num))
  obtain ⟨e4, e4'⟩ := abs_le.mp (hF (rndF 0 + (c1 : ℚ))
    (abs_le.mpr ⟨by linarith, by linarith⟩))
  obtain ⟨e5, e5'⟩ := abs_le.mp (hD (rndF (rndF 0 + (c1 : ℚ)) + 1 / 2)
    (abs_le.mpr ⟨by linarith, by linarith⟩))
  have hv : trunc (rndD (rndF (rndF 0 + (c1 : ℚ)) + 1 / 2)) = c1 := by
    apply trunc_of_near _ _ h1.1
    rw [abs_le]
    constructor <;> linarith
  have hcast : (((0 : Int) - (0 : Int) : Int) : ℚ) = 0 := by norm_num
  simp only [recolor_channel, hcast, mul_zero, hv]
  omega

/-- A 16-bit channel divided by 257 is an 8-bit channel. -/
lemma channel_div (c : Nat) (h : c < 65536) :
    (0 : Int) ≤ ((c / 257 : Nat) : Int) ∧ ((c / 257 : Nat) : Int) ≤ 255 := by
  omega

/-- The body of the recolour loop on the two end points: with roundings that
stay within the precision of single precision numbers, the white pixel
(255, 255, 255) becomes the light colour and the black pixel (0, 0, 0) the
dark colour, each channel being the 16-bit channel divided by 257. -/
lemma recolor_pixel_endpoints (rndF rndD : ℚ → ℚ) (hF : rounds_within rndF)
    (hD : rounds_within rndD) (dark light : GdkColor)
    (hd : dark.red < 65536 ∧ dark.green < 65536 ∧ dark.blue < 65536)
    (hl : light.red < 65536 ∧ light.green < 65536 ∧ light.blue < 65536) :
    recolor_pixel rndF rndD dark light { blue := 255, green := 255, red := 255 } =
      { blue := light.blue / 257, green := light.green / 257, red := light.red / 257 } ∧
    recolor_pixel rndF rndD dark light { blue := 0, green := 0, red := 0 } =
      { blue := dark.blue / 257, green := dark.green / 257, red := dark.red / 257 } := by
  have w1 := recolor_channel_white rndF rndD hF hD _ _
    (channel_div dark.red hd.1) (channel_div light.red hl.1)
  have w2 := recolor_channel_white rndF rndD hF hD _ _
    (channel_div dark.green hd.2.1) (channel_div light.green hl.2.1)
  have w3 := recolor_channel_white rndF rndD hF hD _ _
    (channel_div dark.blue hd.2.2) (channel_div light.blue hl.2.2)
  have k1 := recolor_channel_black rndF rndD hF hD _ ((light.red / 257 : Nat) : Int)
    (channel_div dark.red hd.1)
  have k2 := recolor_channel_black rndF rndD hF hD _ ((light.green / 257 : Nat) : Int)
    (channel_div dark.green hd.2.1)
  have k3 := recolor_channel_black rndF rndD hF hD _ ((light.blue / 257 : Nat) : Int)
    (channel_div dark.blue hd.2.2)
  have hwhite : (((255 + 255 + 255) / 3 : Nat) : Int) = 255 := by decide
  have hblack : (((0 + 0 + 0) / 3 : Nat) : Int) = 0 := by decide
  constructor
  · simp only [recolor_pixel, hwhite, w1, w2, w3, Int.toNat_ofNat]
  · simp only [recolor_pixel, hblack, k1, k2, k3, Int.toNat_ofNat]

/-- The recolour loop at a position inside the width and the height. -/
lemma recolor_image_at (rndF rndD : ℚ → ℚ) (dark light : GdkColor) (width height : Int)
    (image : List (List Pixel)) (y x : Nat) (row : List Pixel) (p : Pixel)
    (hy : image[y]? = some row) (hx : row[x]? = some p)
    (hyh : (y : Int) < height) (hxw : (x : Int) < width) :
    (recolor_image rndF rndD dark light width height image)[y]? =
      some (recolor_row rndF rndD dark light width row) ∧
    (recolor_row rndF rndD dark light width row)[x]? =
      some (recolor_pixel rndF rndD dark light p) := by
  constructor
  · simp only [recolor_image, List.getElem?_map, List.getElem?_enum, hy, Option.map_some',
      if_pos hyh]
  · simp only [recolor_row, List.getElem?_map, List.getElem?_enum, hx, Option.map_some',
      if_pos hxw]

/-- C5: with Zathura.Global.recolor set and roundings that stay within the
precision of single precision numbers, draw leaves a surface whose pixel rows
are those the library painted, put through the recolour loop: as many rows,
rows as long, and at every position inside the width and the height of the
surface the recoloured pixel; a white pixel (255, 255, 255) has become the
light colour and a black pixel (0, 0, 0) the dark colour, each channel being
the 16-bit channel of the configured colour divided by 257. -/
theorem recolor_endpoints (z : Session) (page_id : Int) (current_page : Page)
    (hdoc : z.PDF.document.isSome = true)
    (hid : 0 ≤ page_id ∧ page_id ≤ z.PDF.number_of_pages)
    (hp : array_at z.PDF.pages page_id = some current_page)
    (hrecolor : z.Global.recolor = true)
    (hF : rounds_within z.Float.single) (hD : rounds_within z.Float.double)
    (hd : z.Style.recolor_darkcolor.red < 65536 ∧ z.Style.recolor_darkcolor.green < 65536 ∧
      z.Style.recolor_darkcolor.blue < 65536)
    (hl : z.Style.recolor_lightcolor.red < 65536 ∧ z.Style.recolor_lightcolor.green < 65536 ∧
      z.Style.recolor_lightcolor.blue < 65536) :
    recolor_pixel z.Float.single z.Float.double z.Style.recolor_darkcolor
        z.Style.recolor_lightcolor { blue := 255, green := 255, red := 255 } =
      { blue := z.Style.recolor_lightcolor.blue / 257,
        green := z.Style.recolor_lightcolor.green / 257,
        red := z.Style.recolor_lightcolor.red / 257 } ∧
    recolor_pixel z.Float.single z.Float.double z.Style.recolor_darkcolor
        z.Style.recolor_lightcolor { blue := 0, green := 0, red := 0 } =
      { blue := z.Style.recolor_darkcolor.blue / 257,
        green := z.Style.recolor_darkcolor.green / 257,
        red := z.Style.recolor_darkcolor.red / 257 } ∧
    ∃ sf, (draw z page_id).PDF.surface = some sf ∧
      sf.recolored = true ∧
      sf.width = trunc (draw_size z.PDF.rotate ((z.PDF.scale : ℚ) / 100)
        current_page.page.width current_page.page.height).1 ∧
      sf.height = trunc (draw_size z.PDF.rotate ((z.PDF.scale : ℚ) / 100)
        current_page.page.width current_page.page.height).2 ∧
      sf.image.length =
        (current_page.page.render z.PDF.rotate ((z.PDF.scale : ℚ) / 100)
          sf.width sf.height).length ∧
      ∀ (y x : Nat) (row : List Pixel) (p : Pixel),
        (current_page.page.render z.PDF.rotate ((z.PDF.scale : ℚ) / 100)
          sf.width sf.height)[y]? = some row →
        row[x]? = some p → (y : Int) < sf.height → (x : Int) < sf.width →
        ∃ out, sf.image[y]? = some out ∧ out.length = row.length ∧
          out[x]? = some (recolor_pixel z.Float.single z.Float.double
            z.Style.recolor_darkcolor z.Style.recolor_lightcolor p) ∧
          (p = { blue := 255, green := 255, red := 255 } →
            out[x]? = some
              { blue := z.Style.recolor_lightcolor.blue / 257,
                green := z.Style.recolor_lightcolor.green / 257,
                red := z.Style.recolor_lightcolor.red / 257 }) ∧
          (p = { blue := 0, green := 0, red := 0 } →
            out[x]? = some
              { blue := z.Style.recolor_darkcolor.blue / 257,
                green := z.Style.recolor_darkcolor.green / 257,
                red := z.Style.recolor_darkcolor.red / 257 }) := by
  obtain ⟨hw, hb⟩ := recolor_pixel_endpoints z.Float.single z.Float.double hF hD
    z.Style.recolor_darkcolor z.Style.recolor_lightcolor hd hl
  refine ⟨hw, hb, ?_⟩
  have hlook : draw_lookup z page_id = some page_id := by
    have h1 : ¬ page_id < 0 := not_lt.mpr hid.1
    have h2 : ¬ page_id > z.PDF.number_of_pages := not_lt.mpr hid.2
    have h3 : ¬ z.PDF.document = none := by
      intro h
      simp [h] at hdoc
    simp [draw_lookup, h1, h2, h3]
  have hdraw : (draw z page_id).PDF.surface = some
      { width := trunc (draw_size z.PDF.rotate ((z.PDF.scale : ℚ) / 100)
          current_page.page.width current_page.page.height).1,
        height := trunc (draw_size z.PDF.rotate ((z.PDF.scale : ℚ) / 100)
          current_page.page.width current_page.page.height).2,
        recolored := true, highlights := [],
        image := recolor_image z.Float.single z.Float.double z.Style.recolor_darkcolor
          z.Style.recolor_lightcolor
          (trunc (draw_size z.PDF.rotate ((z.PDF.scale : ℚ) / 100)
            current_page.page.width current_page.page.height).1)
          (trunc (draw_size z.PDF.rotate ((z.PDF.scale : ℚ) / 100)
            current_page.page.width current_page.page.height).2)
          (current_page.page.render z.PDF.rotate ((z.PDF.scale : ℚ) / 100)
            (trunc (draw_size z.PDF.rotate ((z.PDF.scale : ℚ) / 100)
              current_page.page.width current_page.page.height).1)
            (trunc (draw_size z.PDF.rotate ((z.PDF.scale : ℚ) / 100)
              current_page.page.width current_page.page.height).2)) } := by
    simp [draw, hlook, hp, poppler_page_get_size, hrecolor]
  refine ⟨_, hdraw, rfl, rfl, rfl, ?_, ?_⟩
  · simp [recolor_image]
  · intro y x row p hy hx hyh hxw
    have hat := recolor_image_at z.Float.single z.Float.double z.Style.recolor_darkcolor
      z.Style.recolor_lightcolor _ _ _ y x row p hy hx hyh hxw
    refine ⟨_, hat.1, ?_, hat.2, ?_, ?_⟩
    · simp [recolor_row]
    · intro e
      subst e
      rw [hat.2, hw]
    · intro e
      subst e
      rw [hat.2, hb]

/-- Witness of C5: the sample page of 3 by 1 pixels, a white, a black and a
grey one, with exact arithmetic: in the surface that draw leaves the first
pixel is the light colour and the second the dark colour. -/
theorem recolor_endpoints_witness :
    ∃ sf, (draw sample_recolor_session 0).PDF.surface = some sf ∧
      ∃ out, sf.image[0]? = some out ∧
        out[0]? = some { blue := 0xCCCC / 257, green := 0xDDDD / 257, red := 0xEEEE / 257 } ∧
        out[1]? = some { blue := 0x3333 / 257, green := 0x2222 / 257, red := 0x1111 / 257 } := by
  obtain ⟨sf, h1, _, hwidth, hheight, _, h4⟩ := (recolor_endpoints sample_recolor_session 0
    { page :=
        { width := 3, height := 1,
          render := fun _ _ _ _ =>
            [[{ blue := 255, green := 255, red := 255 },
              { blue := 0, green := 0, red := 0 },
              { blue := 10, green := 20, red := 30 }]] },
      id := 1, label := ['1'] }
    (by rfl) (by decide) (by rfl) (by rfl)
    (by intro x _; simp [sample_recolor_session])
    (by intro x _; simp [sample_recolor_session])
    (by decide) (by decide)).2.2
  have hw : sf.width = 3 := by
    rw [hwidth]
    simp [sample_recolor_session, draw_size, trunc]
  have hh : sf.height = 1 := by
    rw [hheight]
    simp [sample_recolor_session, draw_size, trunc]
  obtain ⟨out, ho, _, _, hwhite, _⟩ := h4 0 0
    [{ blue := 255, green := 255, red := 255 }, { blue := 0, green := 0, red := 0 },
      { blue := 10, green := 20, red := 30 }]
    { blue := 255, green := 255, red := 255 } rfl rfl
    (by rw [hh]; decide) (by rw [hw]; decide)
  obtain ⟨out1, ho1, _, _, _, hblack⟩ := h4 0 1
    [{ blue := 255, green := 255, red := 255 }, { blue := 0, green := 0, red := 0 },
      { blue := 10, green := 20, red := 30 }]
    { blue := 0, green := 0, red := 0 } rfl rfl
    (by rw [hh]; decide) (by rw [hw]; decide)
  have e : out1 = out := Option.some.inj (ho1.symm.trans ho)
  rw [e] at hblack
  exact ⟨sf, h1, out, ho, hwhite rfl, hblack rfl⟩

/-! ## What draw and set_page leave alone -/

lemma draw_page_number (z : Session) (page_id : Int) :
    (draw z page_id).PDF.page_number = z.PDF.page_number := by
  unfold draw
  split
  · rfl
  · split <;> rfl

lemma draw_number_of_pages (z : Session) (page_id : Int) :
    (draw z page_id).PDF.number_of_pages = z.PDF.number_of_pages := by
  unfold draw
  split
  · rfl
  · split <;> rfl

lemma draw_Marker (z : Session) (page_id : Int) : (draw z page_id).Marker = z.Marker := by
  unfold draw
  split
  · rfl
  · split <;> rfl

lemma draw_Thread (z : Session) (page_id : Int) : (draw z page_id).Thread = z.Thread := by
  unfold draw
  split
  · rfl
  · split <;> rfl

lemma draw_pages (z : Session) (page_id : Int) : (draw z page_id).PDF.pages = z.PDF.pages := by
  unfold draw
  split
  · rfl
  · split <;> rfl

lemma set_page_number_of_pages (z : Session) (page : Int) :
    (set_page z page).PDF.number_of_pages = z.PDF.number_of_pages := by
  unfold set_page
  split
  · rfl
  · rw [draw_number_of_pages]

lemma set_page_Marker (z : Session) (page : Int) : (set_page z page).Marker = z.Marker := by
  unfold set_page
  split
  · rfl
  · rw [draw_Marker]

lemma set_page_Thread (z : Session) (page : Int) : (set_page z page).Thread = z.Thread := by
  unfold set_page
  split
  · rfl
  · rw [draw_Thread]

lemma set_page_pages (z : Session) (page : Int) : (set_page z page).PDF.pages = z.PDF.pages := by
  unfold set_page
  split
  · rfl
  · rw [draw_pages]

/-- A page from 0 to the page count is accepted by set_page. -/
lemma set_page_accepted (z : Session) (page : Int)
    (h : 0 ≤ page ∧ page ≤ z.PDF.number_of_pages) :
    (set_page z page).PDF.page_number = page := by
  unfold set_page
  rw [if_neg (by omega), draw_page_number]

/-- Any other page only brings the warning. -/
lemma set_page_rejected (z : Session) (page : Int)
    (h : page > z.PDF.number_of_pages ∨ page < 0) :
    set_page z page = notify z WARNING (some "Could not open page".toList) := by
  unfold set_page
  rw [if_pos h]

/-! ## The goto buffer -/

lemma digitChar_spec (d : Nat) (h : d < 10) :
    isdigit (Nat.digitChar d) = true ∧ (Nat.digitChar d).toNat - 48 = d ∧
    isspace (Nat.digitChar d) = false ∧ Nat.digitChar d ≠ '-' ∧ Nat.digitChar d ≠ '+' ∧
    Nat.digitChar d ≠ 'g' ∧ Nat.digitChar d ≠ 'G' := by
  interval_cases d <;> decide

lemma atoi_digits_digitChar (ds : List Nat) (hd : ∀ d ∈ ds, d < 10) (acc : Nat) :
    atoi_digits (ds.map Nat.digitChar) acc = acc * 10 ^ ds.length + Nat.ofDigits 10 ds.reverse := by
  induction ds generalizing acc with
  | nil => simp [atoi_digits]
  | cons d ds ih =>
    have hd0 := digitChar_spec d (hd d (List.mem_cons_self _ _))
    have ih' := ih (fun x hx => hd x (List.mem_cons_of_mem _ hx)) (acc * 10 + d)
    simp only [List.map_cons, atoi_digits, hd0.1, hd0.2.1, if_true, ih', List.reverse_cons,
      Nat.ofDigits_append, Nat.ofDigits_singleton, List.length_reverse, List.length_cons]
    ring

lemma wrap32_small (n : Nat) (h : (n : Int) < 2 ^ 31) :
    wrap32 (max (-(2 ^ 63)) (min (n : Int) (2 ^ 63 - 1))) = n := by
  have h0 : (0 : Int) ≤ n := Int.natCast_nonneg n
  rw [min_eq_left (by omega), max_eq_right (by omega)]
  unfold wrap32
  omega

/-- The value atoi gives for a string of decimal digits below 2^31. -/
lemma atoi_digit_string (ds : List Nat) (hds : ds ≠ []) (hd : ∀ d ∈ ds, d < 10)
    (h : ((Nat.ofDigits 10 ds.reverse : Nat) : Int) < 2 ^ 31) :
    atoi (ds.map Nat.digitChar) = ((Nat.ofDigits 10 ds.reverse : Nat) : Int) := by
  cases ds with
  | nil => exact absurd rfl hds
  | cons d ds =>
    have hd0 := digitChar_spec d (hd d (List.mem_cons_self _ _))
    have hval := atoi_digits_digitChar (d :: ds) hd 0
    simp only [List.map_cons, zero_mul, zero_add] at hval
    unfold atoi
    simp only [List.map_cons, List.dropWhile, hd0.2.2.1]
    split
    · rename_i heq
      exact absurd (List.cons.inj heq).1 hd0.2.2.2.1
    · rename_i heq
      exact absurd (List.cons.inj heq).1 hd0.2.2.2.2.1
    · rw [hval]
      exact wrap32_small _ h

/-- C6: in the goto mode GOTO_DEFAULT, on a document with N pages (1 ≤ N),
a buffer made of the decimal digits of a number n and one more character makes
n - 1 the current page index whenever n - 1 is a page index; the buffer gg
gives page index 0 and the buffer G gives page index N - 1. -/
theorem bcmd_goto_resolves (z : Session) (argument : Argument) (ds : List Nat) (t : Char)
    (hN : 1 ≤ z.PDF.number_of_pages) (hint : z.PDF.number_of_pages < 2 ^ 31)
    (hmode : z.Global.goto_mode = GOTO_DEFAULT)
    (hds : ds ≠ []) (hd : ∀ d ∈ ds, d < 10)
    (hn : 0 ≤ ((Nat.ofDigits 10 ds.reverse : Nat) : Int) - 1 ∧
      ((Nat.ofDigits 10 ds.reverse : Nat) : Int) - 1 < z.PDF.number_of_pages) :
    (bcmd_goto z (ds.map Nat.digitChar ++ [t]) argument).PDF.page_number =
      ((Nat.ofDigits 10 ds.reverse : Nat) : Int) - 1 ∧
    (bcmd_goto z ['g', 'g'] argument).PDF.page_number = 0 ∧
    (bcmd_goto z ['G'] argument).PDF.page_number = z.PDF.number_of_pages - 1 := by
  refine ⟨?_, ?_, ?_⟩
  · have hat := atoi_digit_string ds hds hd (by omega)
    cases ds with
    | nil => exact absurd rfl hds
    | cons d ds =>
      have hd0 := digitChar_spec d (hd d (List.mem_cons_self _ _))
      have hgg : ¬ (List.map Nat.digitChar (d :: ds) ++ [t] = ['g', 'g']) := by
        intro heq
        exact hd0.2.2.2.2.2.1 (List.cons.inj heq).1
      have hG : ¬ (List.map Nat.digitChar (d :: ds) ++ [t] = ['G']) := by
        intro heq
        exact hd0.2.2.2.2.2.2 (List.cons.inj heq).1
      have hlen : ¬ ((List.map Nat.digitChar (d :: ds) ++ [t]).length < 1) := by simp
      have htake : g_strndup (List.map Nat.digitChar (d :: ds) ++ [t])
          ((List.map Nat.digitChar (d :: ds) ++ [t]).length - 1) =
          List.map Nat.digitChar (d :: ds) := by
        simp [g_strndup, List.take_append_eq_append_take]
      have hm1 : ¬ (z.Global.goto_mode = GOTO_LABELS) := by rw [hmode]; decide
      have hm2 : ¬ (z.Global.goto_mode = GOTO_OFFSET) := by rw [hmode]; decide
      unfold bcmd_goto
      simp only [if_neg hlen, if_neg hgg, if_neg hG, htake, hat, if_neg hm1, if_neg hm2]
      exact set_page_accepted z _ ⟨hn.1, le_of_lt hn.2⟩
  · have : bcmd_goto z ['g', 'g'] argument = set_page z 0 := by
      simp [bcmd_goto]
    rw [this]
    exact set_page_accepted z 0 ⟨le_refl _, by omega⟩
  · have : bcmd_goto z ['G'] argument = set_page z (z.PDF.number_of_pages - 1) := by
      simp [bcmd_goto]
    rw [this]
    exact set_page_accepted z _ ⟨by omega, by omega⟩

/-- Witness of C6: the buffer 12G on a document of 12 pages gives page
index 11. -/
theorem bcmd_goto_resolves_witness :
    (bcmd_goto (sample_session (List.replicate 12 false)) ['1', '2', 'G'] {}).PDF.page_number
      = 11 :=
  (bcmd_goto_resolves (sample_session (List.replicate 12 false)) {} [1, 2] 'G'
    (by decide) (by decide) (by rfl) (by decide) (by decide) (by decide)).1

/-! ## The search worker -/

lemma array_at_some {α : Type} (xs : List α) (i : Int) (h0 : 0 ≤ i)
    (h1 : i < (xs.length : Int)) : ∃ x, array_at xs i = some x := by
  have hlt : i.toNat < xs.length := by omega
  refine ⟨xs[i.toNat], ?_⟩
  unfold array_at
  rw [if_neg (by omega)]
  exact List.getElem?_eq_getElem hlt

/-- The page examined at page_counter = c is p + c d modulo N. -/
lemma scan_page_emod (N p d : Int) (c : Nat) (hN : 0 < N) (hp : 0 ≤ p)
    (hd : d = 1 ∨ d = -1) (hc : (c : Int) ≤ N) :
    scan_page N p d c = (p + (c : Int) * d) % N := by
  unfold scan_page
  have hnn : 0 ≤ N + p + (c : Int) * d := by
    rcases hd with h | h <;> subst h <;> omega
  rw [Int.tmod_eq_emod hnn (le_of_lt hN), add_assoc, Int.add_emod_self_left]

lemma scan_page_range (N p d : Int) (c : Nat) (hN : 0 < N) (hp : 0 ≤ p)
    (hd : d = 1 ∨ d = -1) (hc : (c : Int) ≤ N) :
    0 ≤ scan_page N p d c ∧ scan_page N p d c < N := by
  rw [scan_page_emod N p d c hN hp hd hc]
  exact ⟨Int.emod_nonneg _ (ne_of_gt hN), Int.emod_lt_of_pos _ hN⟩

/-- Two values of page_counter from 1 to N never give the same page. -/
lemma scan_page_inj (N p d : Int) (c c' : Nat) (hN : 0 < N) (hp : 0 ≤ p)
    (hd : d = 1 ∨ d = -1) (hc : 1 ≤ c ∧ (c : Int) ≤ N) (hc' : 1 ≤ c' ∧ (c' : Int) ≤ N)
    (h : scan_page N p d c = scan_page N p d c') : c = c' := by
  rw [scan_page_emod N p d c hN hp hd hc.2, scan_page_emod N p d c' hN hp hd hc'.2,
    Int.emod_eq_emod_iff_emod_sub_eq_zero] at h
  have hdvd : N ∣ (p + (c : Int) * d - (p + (c' : Int) * d)) := Int.dvd_of_emod_eq_zero h
  have hdvd' : N ∣ ((c : Int) - (c' : Int)) := by
    rcases hd with h1 | h1 <;> subst h1
    · have e : (p + (c : Int) * 1 - (p + (c' : Int) * 1)) = (c : Int) - c' := by ring
      rwa [e] at hdvd
    · have e : (p + (c : Int) * (-1) - (p + (c' : Int) * (-1))) = -((c : Int) - c') := by ring
      rw [e] at hdvd
      exact (Int.dvd_neg).mp hdvd
  have hz : (c : Int) - (c' : Int) = 0 := by
    apply Int.eq_zero_of_abs_lt_dvd hdvd'
    rw [abs_lt]
    constructor <;> omega
  omega

/-- The current page is the last one of the order. -/
lemma scan_page_last (N p d : Int) (hN : 0 < N) (hp : 0 ≤ p ∧ p < N) (hd : d = 1 ∨ d = -1) :
    scan_page N p d N.toNat = p := by
  have hc : ((N.toNat : Nat) : Int) = N := Int.toNat_of_nonneg (le_of_lt hN)
  rw [scan_page_emod N p d N.toNat hN hp.1 hd (by omega), hc, Int.add_mul_emod_self_left]
  exact Int.emod_eq_of_lt hp.1 hp.2

/-- The order of the scan holds every page index once. -/
lemma scan_order_pages (N p d : Int) (hN : 0 < N) (hp : 0 ≤ p) (hd : d = 1 ∨ d = -1) :
    (scan_order N p d).Nodup ∧ ∀ i : Int, i ∈ scan_order N p d ↔ (0 ≤ i ∧ i < N) := by
  have hmem : ∀ c : Nat, c ∈ List.range' 1 N.toNat → 1 ≤ c ∧ (c : Int) ≤ N := by
    intro c hc
    rw [List.mem_range'_1] at hc
    omega
  have hnd : (scan_order N p d).Nodup := by
    unfold scan_order
    apply List.Nodup.map_on _ (List.nodup_range' 1 N.toNat)
    intro x hx y hy hxy
    exact scan_page_inj N p d x y hN hp hd (hmem x hx) (hmem y hy) hxy
  have hsub : scan_order N p d ⊆ (List.range N.toNat).map (fun k : Nat => (k : Int)) := by
    intro i hi
    unfold scan_order at hi
    rw [List.mem_map] at hi
    obtain ⟨c, hc, rfl⟩ := hi
    have hr := scan_page_range N p d c hN hp hd (hmem c hc).2
    rw [List.mem_map]
    refine ⟨(scan_page N p d c).toNat, ?_, ?_⟩
    · rw [List.mem_range]
      omega
    · omega
  have hperm := (List.subperm_of_subset hnd hsub).perm_of_length_le (by simp [scan_order])
  refine ⟨hnd, ?_⟩
  intro i
  rw [hperm.mem_iff, List.mem_map]
  constructor
  · rintro ⟨k, hk, rfl⟩
    rw [List.mem_range] at hk
    omega
  · intro hi
    refine ⟨i.toNat, ?_, ?_⟩
    · rw [List.mem_range]
      omega
    · omega

/-- The loop ends at the first value of page_counter whose page has a match,
when the flag is never found cleared and every index is a page. -/
lemma search_scan_first (doc : PopplerDocument) (item : List Char) (running : Nat → Bool)
    (N p d : Int) (cs : List Nat) (c : Nat)
    (hrun : ∀ x ∈ cs, running x = true)
    (hpage : ∀ x ∈ cs, ∃ pg, poppler_document_get_page doc (scan_page N p d x) = some pg)
    (hsorted : cs.Pairwise (fun a b => a < b)) (hc : c ∈ cs)
    (hhit : has_match doc item (scan_page N p d c))
    (hfirst : ∀ x ∈ cs, x < c → ¬ has_match doc item (scan_page N p d x)) :
    search_scan doc item running N p d cs =
      ScanResult.hit (scan_page N p d c) (page_results doc item (scan_page N p d c)) := by
  induction cs with
  | nil => exact absurd hc (List.not_mem_nil _)
  | cons a rest ih =>
    obtain ⟨pg, hpg⟩ := hpage a (List.mem_cons_self _ _)
    have hra := hrun a (List.mem_cons_self _ _)
    rcases List.mem_cons.mp hc with hca | hca
    · subst hca
      have hres : pg.find_text item ≠ [] := by
        have := hhit
        simpa [has_match, page_results, hpg] using this
      simp [search_scan, hra, hpg, hres, page_results]
    · have hlt : a < c := (List.pairwise_cons.mp hsorted).1 c hca
      have hno : pg.find_text item = [] := by
        have := hfirst a (List.mem_cons_self _ _) hlt
        simpa [has_match, page_results, hpg] using this
      have ih' := ih (fun x hx => hrun x (List.mem_cons_of_mem _ hx))
        (fun x hx => hpage x (List.mem_cons_of_mem _ hx))
        (List.pairwise_cons.mp hsorted).2 hca
        (fun x hx => hfirst x (List.mem_cons_of_mem _ hx))
      simp [search_scan, hra, hpg, hno, ih']

/-- The loop runs to its end when no examined page has a match. -/
lemma search_scan_none (doc : PopplerDocument) (item : List Char) (running : Nat → Bool)
    (N p d : Int) (cs : List Nat)
    (hrun : ∀ x ∈ cs, running x = true)
    (hpage : ∀ x ∈ cs, ∃ pg, poppler_document_get_page doc (scan_page N p d x) = some pg)
    (hno : ∀ x ∈ cs, ¬ has_match doc item (scan_page N p d x)) :
    search_scan doc item running N p d cs = ScanResult.done := by
  induction cs with
  | nil => rfl
  | cons a rest ih =>
    obtain ⟨pg, hpg⟩ := hpage a (List.mem_cons_self _ _)
    have hra := hrun a (List.mem_cons_self _ _)
    have hna : pg.find_text item = [] := by
      have := hno a (List.mem_cons_self _ _)
      simpa [has_match, page_results, hpg] using this
    have ih' := ih (fun x hx => hrun x (List.mem_cons_of_mem _ hx))
      (fun x hx => hpage x (List.mem_cons_of_mem _ hx))
      (fun x hx => hno x (List.mem_cons_of_mem _ hx))
    simp [search_scan, hra, hpg, hna, ih']

lemma search_scan_congr (doc : PopplerDocument) (item : List Char) (r1 r2 : Nat → Bool)
    (N p d : Int) (cs : List Nat) (h : ∀ x ∈ cs, r1 x = r2 x) :
    search_scan doc item r1 N p d cs = search_scan doc item r2 N p d cs := by
  induction cs with
  | nil => rfl
  | cons a rest ih =>
    have ha := h a (List.mem_cons_self _ _)
    have ih' := ih (fun x hx => h x (List.mem_cons_of_mem _ hx))
    simp only [search_scan, ha, ih']

lemma highlight_result_page_number (z : Session) (i : Int) (r : PopplerRectangle) :
    (highlight_result z i r).PDF.page_number = z.PDF.page_number := by
  unfold highlight_result
  split
  · rfl
  · split <;> rfl

lemma highlights_page_number (rs : List PopplerRectangle) (z : Session) (i : Int) :
    (rs.foldl (fun s r => highlight_result s i r) z).PDF.page_number = z.PDF.page_number := by
  induction rs generalizing z with
  | nil => rfl
  | cons r rest ih =>
    rw [List.foldl_cons, ih, highlight_result_page_number]

/-- What search does once the result of its page loop is known: the worker
runs on an open document with a text that is not empty, in the direction
given by the argument, and the running flag stays set. -/
lemma search_outcome (z : Session) (doc : PopplerDocument) (item : List Char)
    (argument : Argument) (cleared : Nat → Bool) (d : Int)
    (hdoc : z.PDF.document = some doc)
    (hitem : search_item_of z argument = some item) (hne : item ≠ [])
    (hdir : search_direction_of z argument = d)
    (hrun : z.Thread.search_thread_running = true) (hclr : ∀ c, cleared c = false) :
    (∀ q rs, search_scan doc item (fun _ => true) z.PDF.number_of_pages z.PDF.page_number d
        (List.range' 1 z.PDF.number_of_pages.toNat) = ScanResult.hit q rs →
      (search z argument cleared).2 = SearchExit.found q rs ∧
      (search z argument cleared).1.Thread.search_thread_running = false ∧
      (0 ≤ q ∧ q ≤ z.PDF.number_of_pages →
        (search z argument cleared).1.PDF.page_number = q)) ∧
    (search_scan doc item (fun _ => true) z.PDF.number_of_pages z.PDF.page_number d
        (List.range' 1 z.PDF.number_of_pages.toNat) = ScanResult.done →
      (search z argument cleared).2 = SearchExit.not_found ∧
      (search z argument cleared).1.Thread.search_thread_running = false ∧
      (search z argument cleared).1.PDF.page_number = z.PDF.page_number) := by
  have hlen : ¬ (item.length = 0) := by
    intro h
    exact hne (List.length_eq_zero.mp h)
  have hcongr : ∀ cs : List Nat,
      search_scan doc item (fun c => z.Thread.search_thread_running && !cleared c)
        z.PDF.number_of_pages z.PDF.page_number d cs =
      search_scan doc item (fun _ => true) z.PDF.number_of_pages z.PDF.page_number d cs := by
    intro cs
    apply search_scan_congr
    intro x _
    simp [hrun, hclr x]
  constructor
  · intro q rs hscan
    unfold search
    simp only [hitem, hdoc, if_neg hlen, hdir, hcongr, hscan]
    refine ⟨trivial, trivial, ?_⟩
    intro hq
    simp only [highlights_page_number]
    exact set_page_accepted _ q hq
  · intro hscan
    unfold search
    simp only [hitem, hdoc, if_neg hlen, hdir, hcongr, hscan]
    exact ⟨trivial, trivial, trivial⟩

/-- The loop ends with a match as soon as some examined page has one. -/
lemma search_scan_some (doc : PopplerDocument) (item : List Char) (running : Nat → Bool)
    (N p d : Int) (cs : List Nat)
    (hrun : ∀ x ∈ cs, running x = true)
    (hpage : ∀ x ∈ cs, ∃ pg, poppler_document_get_page doc (scan_page N p d x) = some pg)
    (hex : ∃ x ∈ cs, has_match doc item (scan_page N p d x)) :
    ∃ c ∈ cs, has_match doc item (scan_page N p d c) ∧
      search_scan doc item running N p d cs =
        ScanResult.hit (scan_page N p d c) (page_results doc item (scan_page N p d c)) := by
  induction cs with
  | nil =>
    obtain ⟨x, hx, _⟩ := hex
    exact absurd hx (List.not_mem_nil _)
  | cons a rest ih =>
    obtain ⟨pg, hpg⟩ := hpage a (List.mem_cons_self _ _)
    have hra := hrun a (List.mem_cons_self _ _)
    by_cases ha : has_match doc item (scan_page N p d a)
    · refine ⟨a, List.mem_cons_self _ _, ha, ?_⟩
      have hres : pg.find_text item ≠ [] := by
        simpa [has_match, page_results, hpg] using ha
      simp [search_scan, hra, hpg, hres, page_results]
    · have hno : pg.find_text item = [] := by
        simpa [has_match, page_results, hpg] using ha
      have hex' : ∃ x ∈ rest, has_match doc item (scan_page N p d x) := by
        obtain ⟨x, hx, hm⟩ := hex
        rcases List.mem_cons.mp hx with h | h
        · subst h
          exact absurd hm ha
        · exact ⟨x, h, hm⟩
      obtain ⟨c, hc, hm, hs⟩ := ih (fun x hx => hrun x (List.mem_cons_of_mem _ hx))
        (fun x hx => hpage x (List.mem_cons_of_mem _ hx)) hex'
      refine ⟨c, List.mem_cons_of_mem _ hc, hm, ?_⟩
      simp [search_scan, hra, hpg, hno, hs]

/-- Every value of page_counter from 1 to N names a page of a document with
N pages. -/
lemma scan_page_is_page (doc : PopplerDocument) (N p d : Int)
    (hpages : (doc.pages.length : Int) = N) (hp : 0 ≤ p ∧ p < N) (hd : d = 1 ∨ d = -1) :
    ∀ x ∈ List.range' 1 N.toNat,
      ∃ pg, poppler_document_get_page doc (scan_page N p d x) = some pg := by
  intro x hx
  rw [List.mem_range'_1] at hx
  have hr := scan_page_range N p d x (by omega) hp.1 hd (by omega)
  exact array_at_some doc.pages _ hr.1 (by omega)

/-- C7 (fails on the code as stated): on a document of 3 pages whose pages 0
and 1 both hold the text, a forward search started on page 0 reports page 1 as
found, not the current page 0, which holds a match too. -/
theorem search_skips_current_page :
    (sample_session [true, true, false]).PDF.page_number = 0 ∧
    has_match (sample_document [true, true, false]) ['a', 'b'] 0 ∧
    (sc_search (sample_session [true, true, false])
      { n := FORWARD, data := some ['a', 'b'] } (fun _ => false)).2 =
      SearchExit.found 1 [{ x1 := 10, y1 := 20, x2 := 30, y2 := 40 }] ∧
    (sc_search (sample_session [true, true, false])
      { n := FORWARD, data := some ['a', 'b'] } (fun _ => false)).1.PDF.page_number = 1 := by
  decide

/-- C7 (amended): with N pages, current page p and direction d (+1 forward,
-1 backward), the worker examines at page_counter = 1, 2, ..., N the pages
p + d, p + 2d, ..., p + N d taken modulo N, so it starts with the page next to
the current one and ends with the current page; it reports as found the
first page in that order that has a match; in particular it reports the
current page when that is the only page with a match. -/
theorem search_scan_order (z : Session) (doc : PopplerDocument) (item : List Char)
    (argument : Argument) (cleared : Nat → Bool) (d : Int)
    (hdoc : z.PDF.document = some doc)
    (hpages : (doc.pages.length : Int) = z.PDF.number_of_pages)
    (hp : 0 ≤ z.PDF.page_number ∧ z.PDF.page_number < z.PDF.number_of_pages)
    (hitem : search_item_of z argument = some item) (hne : item ≠ [])
    (hdir : search_direction_of z argument = d) (hd : d = 1 ∨ d = -1)
    (hrun : z.Thread.search_thread_running = true) (hclr : ∀ c, cleared c = false) :
    (∀ c : Nat, 1 ≤ c → (c : Int) ≤ z.PDF.number_of_pages →
      scan_page z.PDF.number_of_pages z.PDF.page_number d c =
        (z.PDF.page_number + (c : Int) * d) % z.PDF.number_of_pages) ∧
    scan_page z.PDF.number_of_pages z.PDF.page_number d z.PDF.number_of_pages.toNat =
      z.PDF.page_number ∧
    (∀ c : Nat, 1 ≤ c → (c : Int) ≤ z.PDF.number_of_pages →
      has_match doc item (scan_page z.PDF.number_of_pages z.PDF.page_number d c) →
      (∀ x : Nat, 1 ≤ x → x < c →
        ¬ has_match doc item (scan_page z.PDF.number_of_pages z.PDF.page_number d x)) →
      (search z argument cleared).2 =
        SearchExit.found (scan_page z.PDF.number_of_pages z.PDF.page_number d c)
          (page_results doc item (scan_page z.PDF.number_of_pages z.PDF.page_number d c))) ∧
    (has_match doc item z.PDF.page_number →
      (∀ i : Int, 0 ≤ i → i < z.PDF.number_of_pages → i ≠ z.PDF.page_number →
        ¬ has_match doc item i) →
      (search z argument cleared).2 =
        SearchExit.found z.PDF.page_number (page_results doc item z.PDF.page_number)) := by
  have hN : 0 < z.PDF.number_of_pages := by omega
  have hout := search_outcome z doc item argument cleared d hdoc hitem hne hdir hrun hclr
  have hpage := scan_page_is_page doc _ _ d hpages hp hd
  have hlast := scan_page_last _ _ d hN hp hd
  have hfirst : ∀ c : Nat, 1 ≤ c → (c : Int) ≤ z.PDF.number_of_pages →
      has_match doc item (scan_page z.PDF.number_of_pages z.PDF.page_number d c) →
      (∀ x : Nat, 1 ≤ x → x < c →
        ¬ has_match doc item (scan_page z.PDF.number_of_pages z.PDF.page_number d x)) →
      (search z argument cleared).2 =
        SearchExit.found (scan_page z.PDF.number_of_pages z.PDF.page_number d c)
          (page_results doc item (scan_page z.PDF.number_of_pages z.PDF.page_number d c)) := by
    intro c hc1 hc2 hhit hbefore
    have hscan := search_scan_first doc item (fun _ => true) _ _ d
      (List.range' 1 z.PDF.number_of_pages.toNat) c (fun _ _ => rfl) hpage
      (List.pairwise_lt_range' 1 _) (by rw [List.mem_range'_1]; omega) hhit
      (fun x hx hlt => hbefore x (by rw [List.mem_range'_1] at hx; omega) hlt)
    exact (hout.1 _ _ hscan).1
  refine ⟨?_, hlast, hfirst, ?_⟩
  · intro c _ hc
    exact scan_page_emod _ _ d c hN hp.1 hd hc
  · intro hcur hother
    have h := hfirst z.PDF.number_of_pages.toNat (by omega) (by omega) (by rw [hlast]; exact hcur)
      (by
        intro x hx1 hx2
        have hr := scan_page_range z.PDF.number_of_pages z.PDF.page_number d x hN hp.1 hd
          (by omega)
        apply hother _ hr.1 hr.2
        intro heq
        have := scan_page_inj z.PDF.number_of_pages z.PDF.page_number d x
          z.PDF.number_of_pages.toNat hN hp.1 hd ⟨hx1, by omega⟩ ⟨by omega, by omega⟩
          (by rw [heq, hlast])
        omega)
    rw [hlast] at h
    exact h

/-- Witness of C7 (amended): only page 0, the current page, of 3 pages holds
the text; the forward search reports page 0. -/
theorem search_scan_order_witness :
    (search (sample_running [true, false, false])
      { n := FORWARD, data := some ['a', 'b'] } (fun _ => false)).2 =
      SearchExit.found 0 (page_results (sample_document [true, false, false]) ['a', 'b'] 0) :=
  (search_scan_order (sample_running [true, false, false])
    (sample_document [true, false, false]) ['a', 'b']
    { n := FORWARD, data := some ['a', 'b'] } (fun _ => false) 1
    (by rfl) (by decide) (by decide) (by rfl) (by decide) (by rfl) (Or.inl (by rfl))
    (by rfl) (fun _ => rfl)).2.2.2 (by decide) (by
      intro i h0 h3 hne
      have h3' : i < 3 := h3
      have hne' : i ≠ 0 := hne
      interval_cases i
      · exact absurd rfl hne'
      · decide
      · decide)

/-- The pages the loop examines are always a first part of the scan order. -/
lemma scan_visited_prefix (doc : PopplerDocument) (item : List Char) (running : Nat → Bool)
    (N p d : Int) (cs : List Nat) :
    scan_visited doc item running N p d cs <+: cs.map (scan_page N p d) := by
  induction cs with
  | nil => exact List.prefix_refl _
  | cons a rest ih =>
    simp only [scan_visited, List.map_cons]
    split
    · exact List.nil_prefix
    · split
      · exact List.nil_prefix
      · split
        · exact List.prefix_cons_inj _ |>.mpr List.nil_prefix
        · exact List.prefix_cons_inj _ |>.mpr ih

/-- Without a match, the loop examines the whole scan order. -/
lemma scan_visited_none (doc : PopplerDocument) (item : List Char) (running : Nat → Bool)
    (N p d : Int) (cs : List Nat)
    (hrun : ∀ x ∈ cs, running x = true)
    (hpage : ∀ x ∈ cs, ∃ pg, poppler_document_get_page doc (scan_page N p d x) = some pg)
    (hno : ∀ x ∈ cs, ¬ has_match doc item (scan_page N p d x)) :
    scan_visited doc item running N p d cs = cs.map (scan_page N p d) := by
  induction cs with
  | nil => rfl
  | cons a rest ih =>
    obtain ⟨pg, hpg⟩ := hpage a (List.mem_cons_self _ _)
    have hra := hrun a (List.mem_cons_self _ _)
    have hna : pg.find_text item = [] := by
      have := hno a (List.mem_cons_self _ _)
      simpa [has_match, page_results, hpg] using this
    have ih' := ih (fun x hx => hrun x (List.mem_cons_of_mem _ hx))
      (fun x hx => hpage x (List.mem_cons_of_mem _ hx))
      (fun x hx => hno x (List.mem_cons_of_mem _ hx))
    simp [scan_visited, hra, hpg, hna, ih']

/-- C8: on a document with N pages (1 ≤ N), a valid current page, a search
text that is not empty, either direction and a running flag that is never
cleared, the range of the scan loop holds every page index from 0 to N - 1
exactly once, the pages the loop examines are a first part of that range (it
leaves at the first match) and the whole of it when no page has a match;
when some page has a match the worker ends with found on a page index of the
document that has a match and the current page becomes that page; when no page
has a match the worker ends with not_found and the current page is as before;
in both cases the running flag is FALSE at the end. -/
theorem search_complete_sound (z : Session) (doc : PopplerDocument) (item : List Char)
    (argument : Argument) (cleared : Nat → Bool) (d : Int)
    (hdoc : z.PDF.document = some doc)
    (hpages : (doc.pages.length : Int) = z.PDF.number_of_pages)
    (hp : 0 ≤ z.PDF.page_number ∧ z.PDF.page_number < z.PDF.number_of_pages)
    (hitem : search_item_of z argument = some item) (hne : item ≠ [])
    (hdir : search_direction_of z argument = d) (hd : d = 1 ∨ d = -1)
    (hrun : z.Thread.search_thread_running = true) (hclr : ∀ c, cleared c = false) :
    (scan_order z.PDF.number_of_pages z.PDF.page_number d).Nodup ∧
    (∀ i : Int, i ∈ scan_order z.PDF.number_of_pages z.PDF.page_number d ↔
      (0 ≤ i ∧ i < z.PDF.number_of_pages)) ∧
    (scan_visited doc item (fun c => z.Thread.search_thread_running && !cleared c)
        z.PDF.number_of_pages z.PDF.page_number d
        (List.range' 1 z.PDF.number_of_pages.toNat) <+:
      scan_order z.PDF.number_of_pages z.PDF.page_number d) ∧
    ((∃ i : Int, 0 ≤ i ∧ i < z.PDF.number_of_pages ∧ has_match doc item i) →
      ∃ q : Int, 0 ≤ q ∧ q < z.PDF.number_of_pages ∧ has_match doc item q ∧
        (search z argument cleared).2 = SearchExit.found q (page_results doc item q) ∧
        (search z argument cleared).1.PDF.page_number = q) ∧
    ((∀ i : Int, 0 ≤ i → i < z.PDF.number_of_pages → ¬ has_match doc item i) →
      scan_visited doc item (fun c => z.Thread.search_thread_running && !cleared c)
        z.PDF.number_of_pages z.PDF.page_number d
        (List.range' 1 z.PDF.number_of_pages.toNat) =
        scan_order z.PDF.number_of_pages z.PDF.page_number d ∧
      (search z argument cleared).2 = SearchExit.not_found ∧
      (search z argument cleared).1.PDF.page_number = z.PDF.page_number) ∧
    (search z argument cleared).1.Thread.search_thread_running = false := by
  have hN : 0 < z.PDF.number_of_pages := by omega
  have hout := search_outcome z doc item argument cleared d hdoc hitem hne hdir hrun hclr
  have hpage := scan_page_is_page doc _ _ d hpages hp hd
  have hord := scan_order_pages z.PDF.number_of_pages z.PDF.page_number d hN hp.1 hd
  have hrange : ∀ x ∈ List.range' 1 z.PDF.number_of_pages.toNat,
      0 ≤ scan_page z.PDF.number_of_pages z.PDF.page_number d x ∧
      scan_page z.PDF.number_of_pages z.PDF.page_number d x < z.PDF.number_of_pages := by
    intro x hx
    rw [List.mem_range'_1] at hx
    exact scan_page_range _ _ d x hN hp.1 hd (by omega)
  have hsome : (∃ i : Int, 0 ≤ i ∧ i < z.PDF.number_of_pages ∧ has_match doc item i) →
      ∃ q : Int, 0 ≤ q ∧ q < z.PDF.number_of_pages ∧ has_match doc item q ∧
        (search z argument cleared).2 = SearchExit.found q (page_results doc item q) ∧
        (search z argument cleared).1.PDF.page_number = q ∧
        (search z argument cleared).1.Thread.search_thread_running = false := by
    rintro ⟨i, hi0, hi1, him⟩
    have himem : i ∈ scan_order z.PDF.number_of_pages z.PDF.page_number d :=
      (hord.2 i).mpr ⟨hi0, hi1⟩
    unfold scan_order at himem
    rw [List.mem_map] at himem
    obtain ⟨x, hx, hxi⟩ := himem
    obtain ⟨c, hc, hcm, hscan⟩ := search_scan_some doc item (fun _ => true) _ _ d
      (List.range' 1 z.PDF.number_of_pages.toNat) (fun _ _ => rfl) hpage
      ⟨x, hx, by rw [hxi]; exact him⟩
    have hr := hrange c hc
    have ho := hout.1 _ _ hscan
    exact ⟨_, hr.1, hr.2, hcm, ho.1, ho.2.2 ⟨hr.1, le_of_lt hr.2⟩, ho.2.1⟩
  have hnone : (∀ i : Int, 0 ≤ i → i < z.PDF.number_of_pages → ¬ has_match doc item i) →
      (search z argument cleared).2 = SearchExit.not_found ∧
      (search z argument cleared).1.PDF.page_number = z.PDF.page_number ∧
      (search z argument cleared).1.Thread.search_thread_running = false := by
    intro hno
    have hscan := search_scan_none doc item (fun _ => true) _ _ d
      (List.range' 1 z.PDF.number_of_pages.toNat) (fun _ _ => rfl) hpage
      (fun x hx => hno _ (hrange x hx).1 (hrange x hx).2)
    have ho := hout.2 hscan
    exact ⟨ho.1, ho.2.2, ho.2.1⟩
  refine ⟨hord.1, hord.2, scan_visited_prefix _ _ _ _ _ _ _, ?_, ?_, ?_⟩
  · intro hex
    obtain ⟨q, h1, h2, h3, h4, h5, _⟩ := hsome hex
    exact ⟨q, h1, h2, h3, h4, h5⟩
  · intro hno
    refine ⟨?_, (hnone hno).1, (hnone hno).2.1⟩
    exact scan_visited_none doc item _ _ _ d _ (fun x _ => by simp [hrun, hclr x]) hpage
      (fun x hx => hno _ (hrange x hx).1 (hrange x hx).2)
  · by_cases hex : ∃ i : Int, 0 ≤ i ∧ i < z.PDF.number_of_pages ∧ has_match doc item i
    · obtain ⟨q, _, _, _, _, _, h6⟩ := hsome hex
      exact h6
    · have hno : ∀ i : Int, 0 ≤ i → i < z.PDF.number_of_pages → ¬ has_match doc item i := by
        intro i h0 h1 hm
        exact hex ⟨i, h0, h1, hm⟩
      exact (hnone hno).2.2

/-- Witness of C8: a backward search on 3 pages of which pages 0 and 2 hold
the text, started on page 0 with the flag set. -/
theorem search_complete_sound_witness :
    (search (sample_running [true, false, true])
      { n := BACKWARD, data := some ['a', 'b'] } (fun _ => false)).1.Thread.search_thread_running
      = false :=
  (search_complete_sound (sample_running [true, false, true])
    (sample_document [true, false, true]) ['a', 'b']
    { n := BACKWARD, data := some ['a', 'b'] } (fun _ => false) (-1)
    (by rfl) (by decide) (by decide) (by rfl) (by decide) (by rfl) (Or.inr (by rfl))
    (by rfl) (fun _ => rfl)).2.2.2.2.2

/-! ## Markers -/

lemma markers_find_update_same (ms ms' : List Marker) (id page : Int)
    (h : markers_update ms id page = some ms') :
    ∃ m, markers_find ms' id = some m ∧ m.page = page := by
  induction ms generalizing ms' with
  | nil => simp [markers_update] at h
  | cons a rest ih =>
    by_cases ha : a.id = id
    · simp only [markers_update, if_pos ha, Option.some.injEq] at h
      subst h
      exact ⟨{ a with page := page }, by simp [markers_find, ha], rfl⟩
    · simp only [markers_update, if_neg ha, Option.map_eq_some'] at h
      obtain ⟨r, hr, rfl⟩ := h
      obtain ⟨m, hm, hmp⟩ := ih r hr
      exact ⟨m, by simp [markers_find, ha, hm], hmp⟩

lemma markers_find_update_none (ms : List Marker) (id page : Int)
    (h : markers_update ms id page = none) :
    markers_find (ms ++ [{ id := id, page := page }]) id = some { id := id, page := page } := by
  induction ms with
  | nil => simp [markers_find]
  | cons a rest ih =>
    by_cases ha : a.id = id
    · simp [markers_update, ha] at h
    · simp only [markers_update, if_neg ha, Option.map_eq_none'] at h
      simp [markers_find, ha, ih h]

lemma markers_find_update_other (ms ms' : List Marker) (id id' page : Int) (hne : id' ≠ id)
    (h : markers_update ms id' page = some ms') : markers_find ms' id = markers_find ms id := by
  induction ms generalizing ms' with
  | nil => simp [markers_update] at h
  | cons a rest ih =>
    by_cases ha : a.id = id'
    · simp only [markers_update, if_pos ha, Option.some.injEq] at h
      subst h
      have hai : ¬ a.id = id := by rw [ha]; exact hne
      simp [markers_find, hai]
    · simp only [markers_update, if_neg ha, Option.map_eq_some'] at h
      obtain ⟨r, hr, rfl⟩ := h
      by_cases hai : a.id = id
      · simp [markers_find, hai]
      · simp [markers_find, hai, ih r hr]

lemma markers_find_append_other (ms : List Marker) (id id' page : Int) (hne : id' ≠ id) :
    markers_find (ms ++ [{ id := id', page := page }]) id = markers_find ms id := by
  induction ms with
  | nil => simp [markers_find, hne]
  | cons a rest ih =>
    by_cases hai : a.id = id
    · simp [markers_find, hai]
    · simp [markers_find, hai, ih]

/-- After add_marker with an accepted id, the marker with that id holds the
current page. -/
lemma add_marker_find (z : Session) (id : Int) (hid : 0x30 ≤ id ∧ id ≤ 0x7A) :
    ∃ m, markers_find (add_marker z id).Marker.markers id = some m ∧
      m.page = z.PDF.page_number := by
  unfold add_marker
  rw [if_neg (by omega)]
  dsimp only
  split
  · rename_i ms h
    exact markers_find_update_same _ _ _ _ h
  · rename_i h
    exact ⟨_, markers_find_update_none _ _ _ h, rfl⟩

lemma add_marker_number_of_pages (z : Session) (id : Int) :
    (add_marker z id).PDF.number_of_pages = z.PDF.number_of_pages := by
  unfold add_marker
  split
  · rfl
  · dsimp only
    split <;> rfl

lemma add_marker_find_other (z : Session) (id id' : Int) (hne : id' ≠ id) :
    markers_find (add_marker z id').Marker.markers id = markers_find z.Marker.markers id := by
  unfold add_marker
  split
  · rfl
  · dsimp only
    split
    · rename_i ms h
      exact markers_find_update_other _ _ _ _ _ hne h
    · exact markers_find_append_other _ _ _ _ hne

lemma eval_marker_markers (z : Session) (id : Int) :
    (eval_marker z id).Marker.markers = z.Marker.markers := by
  unfold eval_marker
  split
  · simp [set_page_Marker]
  · split
    · rw [set_page_Marker]
    · rfl

lemma eval_marker_number_of_pages (z : Session) (id : Int) :
    (eval_marker z id).PDF.number_of_pages = z.PDF.number_of_pages := by
  unfold eval_marker
  split
  · simp [set_page_number_of_pages]
  · split
    · rw [set_page_number_of_pages]
    · rfl

lemma sc_navigate_frame (z : Session) (argument : Argument) :
    (sc_navigate z argument).Marker = z.Marker ∧
    (sc_navigate z argument).PDF.number_of_pages = z.PDF.number_of_pages := by
  unfold sc_navigate
  split
  · exact ⟨rfl, rfl⟩
  · exact ⟨set_page_Marker _ _, set_page_number_of_pages _ _⟩

/-- bcmd_goto either does nothing or ends in one call of set_page. -/
lemma bcmd_goto_cases (z : Session) (buffer : List Char) (argument : Argument) :
    bcmd_goto z buffer argument = z ∨
    ∃ page, bcmd_goto z buffer argument = set_page z page := by
  unfold bcmd_goto
  dsimp only
  by_cases h1 : buffer.length < 1
  · left
    rw [if_pos h1]
  · right
    rw [if_neg h1]
    by_cases h2 : buffer = ['g', 'g']
    · rw [if_pos h2]
      exact ⟨_, rfl⟩
    · rw [if_neg h2]
      by_cases h3 : buffer = ['G']
      · rw [if_pos h3]
        exact ⟨_, rfl⟩
      · rw [if_neg h3]
        exact ⟨_, rfl⟩

lemma bcmd_goto_frame (z : Session) (buffer : List Char) (argument : Argument) :
    (bcmd_goto z buffer argument).Marker = z.Marker ∧
    (bcmd_goto z buffer argument).PDF.number_of_pages = z.PDF.number_of_pages := by
  rcases bcmd_goto_cases z buffer argument with h | ⟨page, h⟩
  · rw [h]
    exact ⟨rfl, rfl⟩
  · rw [h]
    exact ⟨set_page_Marker _ _, set_page_number_of_pages _ _⟩

/-- No operation changes the page count, and only add_marker with the same
id changes what the marker search finds for an id. -/
lemma step_frame (z : Session) (op : Op) (id : Int) (hop : op ≠ Op.add_marker id) :
    (step z op).PDF.number_of_pages = z.PDF.number_of_pages ∧
    markers_find (step z op).Marker.markers id = markers_find z.Marker.markers id := by
  cases op with
  | set_page page => exact ⟨set_page_number_of_pages _ _, by simp [step, set_page_Marker]⟩
  | sc_navigate argument =>
    exact ⟨(sc_navigate_frame z argument).2, by simp [step, (sc_navigate_frame z argument).1]⟩
  | bcmd_goto buffer argument =>
    exact ⟨(bcmd_goto_frame z buffer argument).2,
      by simp [step, (bcmd_goto_frame z buffer argument).1]⟩
  | add_marker id' =>
    have hne : id' ≠ id := by
      intro h
      exact hop (by rw [h])
    exact ⟨add_marker_number_of_pages _ _, add_marker_find_other _ _ _ hne⟩
  | eval_marker id' =>
    exact ⟨eval_marker_number_of_pages _ _, by simp [step, eval_marker_markers]⟩

lemma run_frame (ops : List Op) (z : Session) (id : Int)
    (hops : ∀ op ∈ ops, op ≠ Op.add_marker id) :
    (run z ops).PDF.number_of_pages = z.PDF.number_of_pages ∧
    markers_find (run z ops).Marker.markers id = markers_find z.Marker.markers id := by
  induction ops generalizing z with
  | nil => exact ⟨rfl, rfl⟩
  | cons op rest ih =>
    have h1 := step_frame z op id (hops op (List.mem_cons_self _ _))
    have h2 := ih (step z op) (fun o ho => hops o (List.mem_cons_of_mem _ ho))
    have hrun : run z (op :: rest) = run (step z op) rest := rfl
    rw [hrun]
    exact ⟨h2.1.trans h1.1, h2.2.trans h1.2⟩

/-- C9: after add_marker(id) with an accepted id on a valid page p, then any
sequence of set_page, sc_navigate, bcmd_goto, eval_marker and add_marker with
other ids, eval_marker(id) makes p the current page again. -/
theorem marker_round_trip (z : Session) (id : Int) (ops : List Op)
    (hid : 0x30 ≤ id ∧ id ≤ 0x7A)
    (hp : 0 ≤ z.PDF.page_number ∧ z.PDF.page_number < z.PDF.number_of_pages)
    (hops : ∀ op ∈ ops, op ≠ Op.add_marker id) :
    (eval_marker (run (add_marker z id) ops) id).PDF.page_number = z.PDF.page_number := by
  obtain ⟨m, hm, hmp⟩ := add_marker_find z id hid
  have hf := run_frame ops (add_marker z id) id hops
  rw [hm] at hf
  have hN : (run (add_marker z id) ops).PDF.number_of_pages = z.PDF.number_of_pages := by
    rw [hf.1, add_marker_number_of_pages]
  unfold eval_marker
  rw [if_neg (by omega)]
  simp only [hf.2]
  rw [hmp]
  apply set_page_accepted
  rw [hN]
  omega

/-- Witness of C9: marker a set on page 0 of 5 pages, then a goto, another
marker, a toggle and a step back, then eval_marker(a). -/
theorem marker_round_trip_witness :
    (eval_marker (run (add_marker (sample_session (List.replicate 5 false)) 0x61)
      [Op.bcmd_goto ['3', 'G'] {}, Op.add_marker 0x62, Op.eval_marker 0x27,
       Op.sc_navigate { n := PREVIOUS }]) 0x61).PDF.page_number = 0 :=
  marker_round_trip (sample_session (List.replicate 5 false)) 0x61
    [Op.bcmd_goto ['3', 'G'] {}, Op.add_marker 0x62, Op.eval_marker 0x27,
     Op.sc_navigate { n := PREVIOUS }]
    (by decide) (by decide) (by decide)

/-- C10 (fails on the code as stated): on 10 pages, marker a is set on page 2
and the view then moves to page 5; eval_marker(a) jumps to page 2 and
Marker.last is 2, the page of the marker, not 5, the page that was current
before the jump. -/
theorem eval_marker_last_not_recorded :
    (run (sample_session (List.replicate 10 false))
      [Op.set_page 2, Op.add_marker 0x61, Op.set_page 5]).PDF.page_number = 5 ∧
    (eval_marker (run (sample_session (List.replicate 10 false))
      [Op.set_page 2, Op.add_marker 0x61, Op.set_page 5]) 0x61).PDF.page_number = 2 ∧
    (eval_marker (run (sample_session (List.replicate 10 false))
      [Op.set_page 2, Op.add_marker 0x61, Op.set_page 5]) 0x61).Marker.last = 2 := by
  decide

/-- C10 (amended): eval_marker with the id of an existing regular marker
jumps to the page of the marker and leaves Marker.last as it was; Marker.last
is written by add_marker, which stores the page that is current when the
marker is set. -/
theorem eval_marker_keeps_last (z : Session) (id : Int) (m : Marker)
    (hid : id ≠ 0x27) (hm : markers_find z.Marker.markers id = some m) :
    (eval_marker z id).Marker.last = z.Marker.last ∧
    (0 ≤ m.page ∧ m.page < z.PDF.number_of_pages →
      (eval_marker z id).PDF.page_number = m.page) ∧
    (∀ id' : Int, 0x30 ≤ id' ∧ id' ≤ 0x7A →
      (add_marker z id').Marker.last = z.PDF.page_number) := by
  refine ⟨?_, ?_, ?_⟩
  · unfold eval_marker
    rw [if_neg hid]
    simp only [hm, set_page_Marker]
  · intro hpage
    unfold eval_marker
    rw [if_neg hid]
    simp only [hm]
    exact set_page_accepted z m.page ⟨hpage.1, le_of_lt hpage.2⟩
  · intro id' hid'
    unfold add_marker
    rw [if_neg (by omega)]
    dsimp only
    split <;> rfl

/-- Witness of C10 (amended): the session of the counterexample. -/
theorem eval_marker_keeps_last_witness :
    (eval_marker (run (sample_session (List.replicate 10 false))
      [Op.set_page 2, Op.add_marker 0x61, Op.set_page 5]) 0x61).Marker.last =
    (run (sample_session (List.replicate 10 false))
      [Op.set_page 2, Op.add_marker 0x61, Op.set_page 5]).Marker.last :=
  (eval_marker_keeps_last (run (sample_session (List.replicate 10 false))
      [Op.set_page 2, Op.add_marker 0x61, Op.set_page 5]) 0x61 { id := 0x61, page := 2 }
    (by decide) (by decide)).1

/-- C11: when the current page c and Marker.last = l are both valid page
indices, eval_marker(0x27) makes l the current page and c the value of
Marker.last, and a second eval_marker(0x27) gives back the first current page
and the first Marker.last. -/
theorem eval_marker_toggle (z : Session)
    (hc : 0 ≤ z.PDF.page_number ∧ z.PDF.page_number < z.PDF.number_of_pages)
    (hl : 0 ≤ z.Marker.last ∧ z.Marker.last < z.PDF.number_of_pages) :
    (eval_marker z 0x27).PDF.page_number = z.Marker.last ∧
    (eval_marker z 0x27).Marker.last = z.PDF.page_number ∧
    (eval_marker (eval_marker z 0x27) 0x27).PDF.page_number = z.PDF.page_number ∧
    (eval_marker (eval_marker z 0x27) 0x27).Marker.last = z.Marker.last := by
  have h1 : (eval_marker z 0x27).PDF.page_number = z.Marker.last := by
    unfold eval_marker
    rw [if_pos rfl]
    exact set_page_accepted z _ ⟨hl.1, le_of_lt hl.2⟩
  have h2 : (eval_marker z 0x27).Marker.last = z.PDF.page_number := by
    unfold eval_marker
    rw [if_pos rfl]
  have hN := eval_marker_number_of_pages z 0x27
  have h3 : (eval_marker (eval_marker z 0x27) 0x27).PDF.page_number = z.PDF.page_number := by
    have : (eval_marker (eval_marker z 0x27) 0x27).PDF.page_number =
        (eval_marker z 0x27).Marker.last := by
      unfold eval_marker
      rw [if_pos rfl, if_pos rfl]
      apply set_page_accepted
      have hN' := set_page_number_of_pages z z.Marker.last
      constructor
      · exact hc.1
      · show z.PDF.page_number ≤ (set_page z z.Marker.last).PDF.number_of_pages
        rw [hN']
        exact le_of_lt hc.2
    rw [this, h2]
  have h4 : (eval_marker (eval_marker z 0x27) 0x27).Marker.last = z.Marker.last := by
    have : (eval_marker (eval_marker z 0x27) 0x27).Marker.last =
        (eval_marker z 0x27).PDF.page_number := by
      unfold eval_marker
      rw [if_pos rfl, if_pos rfl]
    rw [this, h1]
  exact ⟨h1, h2, h3, h4⟩

/-- Witness of C11: page 3 of 5 pages with Marker.last = 1. -/
theorem eval_marker_toggle_witness :
    (eval_marker (run (sample_session (List.replicate 5 false))
      [Op.set_page 1, Op.add_marker 0x61, Op.set_page 3]) 0x27).PDF.page_number = 1 :=
  (eval_marker_toggle (run (sample_session (List.replicate 5 false))
      [Op.set_page 1, Op.add_marker 0x61, Op.set_page 3]) (by decide) (by decide)).1

lemma markers_update_ids (ms ms' : List Marker) (id page : Int)
    (h : markers_update ms id page = some ms') :
    ms'.map (fun m => m.id) = ms.map (fun m => m.id) ∧ id ∈ ms.map (fun m => m.id) := by
  induction ms generalizing ms' with
  | nil => simp [markers_update] at h
  | cons a rest ih =>
    by_cases ha : a.id = id
    · simp only [markers_update, if_pos ha, Option.some.injEq] at h
      subst h
      simp [ha]
    · simp only [markers_update, if_neg ha, Option.map_eq_some'] at h
      obtain ⟨r, hr, rfl⟩ := h
      obtain ⟨h1, h2⟩ := ih r hr
      simp [h1, h2]

lemma markers_update_none_ids (ms : List Marker) (id page : Int)
    (h : markers_update ms id page = none) : id ∉ ms.map (fun m => m.id) := by
  induction ms with
  | nil => simp
  | cons a rest ih =>
    by_cases ha : a.id = id
    · simp [markers_update, ha] at h
    · simp only [markers_update, if_neg ha, Option.map_eq_none'] at h
      have := ih h
      simp only [List.map_cons, List.mem_cons, not_or]
      exact ⟨fun e => ha e.symm, this⟩

/-- An id outside 0x30..0x7A leaves the whole session as it is. -/
lemma add_marker_rejected (z : Session) (id : Int) (h : id < 0x30 ∨ id > 0x7A) :
    add_marker z id = z := by
  unfold add_marker
  rw [if_pos h]

/-- The ids of the marker array after add_marker with an accepted id. -/
lemma add_marker_ids (z : Session) (id : Int) (hid : 0x30 ≤ id ∧ id ≤ 0x7A) :
    (id ∈ z.Marker.markers.map (fun m => m.id) ∧
      (add_marker z id).Marker.markers.map (fun m => m.id) =
        z.Marker.markers.map (fun m => m.id)) ∨
    (id ∉ z.Marker.markers.map (fun m => m.id) ∧
      (add_marker z id).Marker.markers.map (fun m => m.id) =
        z.Marker.markers.map (fun m => m.id) ++ [id]) := by
  unfold add_marker
  rw [if_neg (by omega)]
  dsimp only
  split
  · rename_i ms h
    left
    exact ⟨(markers_update_ids _ _ _ _ h).2, (markers_update_ids _ _ _ _ h).1⟩
  · rename_i h
    right
    exact ⟨markers_update_none_ids _ _ _ h, by simp⟩

/-- The marker array after one operation that is not add_marker. -/
lemma step_markers (z : Session) (op : Op) (hop : ∀ id, op ≠ Op.add_marker id) :
    (step z op).Marker.markers = z.Marker.markers := by
  cases op with
  | set_page page => simp [step, set_page_Marker]
  | sc_navigate argument => simp [step, (sc_navigate_frame z argument).1]
  | bcmd_goto buffer argument => simp [step, (bcmd_goto_frame z buffer argument).1]
  | add_marker id => exact absurd rfl (hop id)
  | eval_marker id => simp [step, eval_marker_markers]

/-- The ids of the marker array stay pairwise distinct, and they are the ids
that were there together with the accepted ids added. -/
lemma run_marker_ids (ops : List Op) (z : Session)
    (hnd : (z.Marker.markers.map (fun m => m.id)).Nodup) :
    ((run z ops).Marker.markers.map (fun m => m.id)).Nodup ∧
    ∀ i, i ∈ (run z ops).Marker.markers.map (fun m => m.id) ↔
      (i ∈ z.Marker.markers.map (fun m => m.id) ∨ i ∈ accepted_marker_ids ops) := by
  induction ops generalizing z with
  | nil => simp [run, accepted_marker_ids, hnd]
  | cons op rest ih =>
    have hrun : run z (op :: rest) = run (step z op) rest := rfl
    rw [hrun]
    cases op with
    | add_marker id =>
      by_cases hid : 0x30 ≤ id ∧ id ≤ 0x7A
      · rcases add_marker_ids z id hid with ⟨hmem, heq⟩ | ⟨hmem, heq⟩
        · have hnd' : ((step z (Op.add_marker id)).Marker.markers.map (fun m => m.id)).Nodup := by
            show ((add_marker z id).Marker.markers.map (fun m => m.id)).Nodup
            rw [heq]
            exact hnd
          obtain ⟨h1, h2⟩ := ih (step z (Op.add_marker id)) hnd'
          refine ⟨h1, ?_⟩
          intro i
          rw [h2 i]
          show (i ∈ (add_marker z id).Marker.markers.map (fun m => m.id) ∨ _) ↔ _
          rw [heq]
          simp only [accepted_marker_ids, if_pos hid, List.mem_cons]
          constructor
          · rintro (h | h)
            · exact Or.inl h
            · exact Or.inr (Or.inr h)
          · rintro (h | h | h)
            · exact Or.inl h
            · subst h
              exact Or.inl hmem
            · exact Or.inr h
        · have hnd' : ((step z (Op.add_marker id)).Marker.markers.map (fun m => m.id)).Nodup := by
            show ((add_marker z id).Marker.markers.map (fun m => m.id)).Nodup
            rw [heq]
            exact List.Nodup.append hnd (List.nodup_singleton id)
              (by simpa [List.Disjoint] using hmem)
          obtain ⟨h1, h2⟩ := ih (step z (Op.add_marker id)) hnd'
          refine ⟨h1, ?_⟩
          intro i
          rw [h2 i]
          show (i ∈ (add_marker z id).Marker.markers.map (fun m => m.id) ∨ _) ↔ _
          rw [heq]
          simp only [accepted_marker_ids, if_pos hid, List.mem_cons, List.mem_append,
            List.mem_singleton]
          tauto
      · have hrej : step z (Op.add_marker id) = z :=
          add_marker_rejected z id (by omega)
        rw [hrej]
        obtain ⟨h1, h2⟩ := ih z hnd
        refine ⟨h1, ?_⟩
        intro i
        rw [h2 i]
        simp only [accepted_marker_ids, if_neg hid]
    | set_page page =>
      have hm := step_markers z (Op.set_page page) (fun id h => by cases h)
      obtain ⟨h1, h2⟩ := ih (step z (Op.set_page page)) (by rw [hm]; exact hnd)
      refine ⟨h1, ?_⟩
      intro i
      rw [h2 i, hm]
      simp only [accepted_marker_ids]
    | sc_navigate argument =>
      have hm := step_markers z (Op.sc_navigate argument) (fun id h => by cases h)
      obtain ⟨h1, h2⟩ := ih (step z (Op.sc_navigate argument)) (by rw [hm]; exact hnd)
      refine ⟨h1, ?_⟩
      intro i
      rw [h2 i, hm]
      simp only [accepted_marker_ids]
    | bcmd_goto buffer argument =>
      have hm := step_markers z (Op.bcmd_goto buffer argument) (fun id h => by cases h)
      obtain ⟨h1, h2⟩ := ih (step z (Op.bcmd_goto buffer argument)) (by rw [hm]; exact hnd)
      refine ⟨h1, ?_⟩
      intro i
      rw [h2 i, hm]
      simp only [accepted_marker_ids]
    | eval_marker id =>
      have hm := step_markers z (Op.eval_marker id) (fun id' h => by cases h)
      obtain ⟨h1, h2⟩ := ih (step z (Op.eval_marker id)) (by rw [hm]; exact hnd)
      refine ⟨h1, ?_⟩
      intro i
      rw [h2 i, hm]
      simp only [accepted_marker_ids]

/-- C12: from the empty marker set, after any sequence of add_marker calls
with any ids, mixed with any page changes, no two entries of the marker array
have the same id and number_of_markers is the number of distinct accepted ids
added; add_marker with an id outside 0x30..0x7A leaves the marker array, the
count and Marker.last (the whole session) as they are. -/
theorem markers_unique (z : Session) (ops : List Op) (hempty : z.Marker.markers = []) :
    ((run z ops).Marker.markers.map (fun m => m.id)).Nodup ∧
    number_of_markers (run z ops) = ((accepted_marker_ids ops).toFinset.card : Int) ∧
    (∀ (s : Session) (id : Int), (id < 0x30 ∨ id > 0x7A) →
      (add_marker s id).Marker.markers = s.Marker.markers ∧
      number_of_markers (add_marker s id) = number_of_markers s ∧
      (add_marker s id).Marker.last = s.Marker.last) := by
  obtain ⟨h1, h2⟩ := run_marker_ids ops z (by rw [hempty]; exact List.nodup_nil)
  refine ⟨h1, ?_, ?_⟩
  · have hset : ((run z ops).Marker.markers.map (fun m => m.id)).toFinset =
        (accepted_marker_ids ops).toFinset := by
      ext i
      rw [List.mem_toFinset, List.mem_toFinset, h2 i, hempty]
      simp
    have hcard := List.toFinset_card_of_nodup h1
    rw [hset] at hcard
    unfold number_of_markers
    rw [hcard, List.length_map]
  · intro s id hid
    rw [add_marker_rejected s id hid]
    exact ⟨rfl, rfl, rfl⟩

/-- Witness of C12: markers a, b, a again and an id out of range, on
different pages of a fresh session: two markers. -/
theorem markers_unique_witness :
    number_of_markers (run (sample_session (List.replicate 5 false))
      [Op.add_marker 0x61, Op.set_page 2, Op.add_marker 0x62, Op.set_page 3,
       Op.add_marker 0x61, Op.add_marker 0x20]) =
    ((accepted_marker_ids
      [Op.add_marker 0x61, Op.set_page 2, Op.add_marker 0x62, Op.set_page 3,
       Op.add_marker 0x61, Op.add_marker 0x20]).toFinset.card : Int) :=
  (markers_unique (sample_session (List.replicate 5 false))
    [Op.add_marker 0x61, Op.set_page 2, Op.add_marker 0x62, Op.set_page 3,
     Op.add_marker 0x61, Op.add_marker 0x20] (by rfl)).2.1

/-! ## Modes and the pending keystroke buffer -/

/-- Past the shortcuts and the marker modes, cb_view_kb_pressed is the append
step followed by the matching of the buffer commands. -/
lemma kb_append_range_aux (shortcuts : List Shortcut) (buffer_commands : List BufferCommand)
    (regexec : List Char → List Char → Bool) (z : Session) (event : GdkEventKey)
    (hs : shortcuts.find? (shortcut_matches z event) = none)
    (hm : z.Global.mode ≠ ADD_MARKER ∧ z.Global.mode ≠ EVAL_MARKER) :
    cb_view_kb_pressed shortcuts buffer_commands regexec z event =
      (match (kb_append z event).Global.buffer with
       | none => (kb_append z event, false)
       | some buffer =>
         match buffer_commands.find? (fun bc => regexec bc.regex buffer) with
         | some bc =>
           ({ (bc.function (kb_append z event) buffer bc.argument) with
              Global := { (bc.function (kb_append z event) buffer bc.argument).Global with
                buffer := none } }, true)
         | none => (kb_append z event, false)) := by
  unfold cb_view_kb_pressed
  simp only [hs, if_neg hm.1, if_neg hm.2]

/-- C13: whatever the mode and whatever the pending keystroke buffer, after
sc_abort the mode is NORMAL and there is no buffer. -/
theorem sc_abort_normal (z : Session) (argument : Argument) :
    (sc_abort z argument).Global.mode = NORMAL ∧
    (sc_abort z argument).Global.buffer = none := by
  unfold sc_abort
  cases h : z.Global.buffer with
  | none => simp [change_mode, notify, h, NORMAL, INSERT, VISUAL, ADD_MARKER, EVAL_MARKER]
  | some b => simp [change_mode, notify, NORMAL, INSERT, VISUAL, ADD_MARKER, EVAL_MARKER]

/-- C14 (fails on the code as stated): in mode NORMAL, with no shortcut and
no buffer command, the printable keys 0x20 (space) and 0x7E (tilde) are not
appended to the buffer, while the key 0x7A (z) is. -/
theorem kb_printable_not_appended :
    (cb_view_kb_pressed [] [] (fun _ _ => false) {} { keyval := 0x20 }).1.Global.buffer = none ∧
    (cb_view_kb_pressed [] [] (fun _ _ => false) {} { keyval := 0x7E }).1.Global.buffer = none ∧
    (cb_view_kb_pressed [] [] (fun _ _ => false) {} { keyval := 0x7A }).1.Global.buffer =
      some ['z'] := by
  decide

/-- C14 (amended): for a keystroke that matches no shortcut while the mode is
neither ADD_MARKER nor EVAL_MARKER, the key is appended to the buffer exactly
when it lies from 0x21 to 0x7A: then the buffer that goes to the matching of
the buffer commands is the old one with the key at its end, otherwise the
session goes there unchanged; so no key outside the printable range 0x20..0x7E
is ever appended. -/
theorem kb_append_range (shortcuts : List Shortcut) (buffer_commands : List BufferCommand)
    (regexec : List Char → List Char → Bool) (z : Session) (event : GdkEventKey)
    (hs : shortcuts.find? (shortcut_matches z event) = none)
    (hm : z.Global.mode ≠ ADD_MARKER ∧ z.Global.mode ≠ EVAL_MARKER) :
    (0x21 ≤ event.keyval ∧ event.keyval ≤ 0x7A →
      (kb_append z event).Global.buffer =
        some (z.Global.buffer.getD [] ++ [Char.ofNat event.keyval])) ∧
    (¬ (0x21 ≤ event.keyval ∧ event.keyval ≤ 0x7A) → kb_append z event = z) ∧
    (¬ (0x20 ≤ event.keyval ∧ event.keyval ≤ 0x7E) → kb_append z event = z) ∧
    cb_view_kb_pressed shortcuts buffer_commands regexec z event =
      (match (kb_append z event).Global.buffer with
       | none => (kb_append z event, false)
       | some buffer =>
         match buffer_commands.find? (fun bc => regexec bc.regex buffer) with
         | some bc =>
           ({ (bc.function (kb_append z event) buffer bc.argument) with
              Global := { (bc.function (kb_append z event) buffer bc.argument).Global with
                buffer := none } }, true)
         | none => (kb_append z event, false)) := by
  refine ⟨?_, ?_, ?_, ?_⟩
  · intro h
    unfold kb_append
    rw [if_pos ⟨h.1, h.2⟩]
  · intro h
    unfold kb_append
    rw [if_neg (fun h' => h ⟨h'.1, h'.2⟩)]
  · intro h
    unfold kb_append
    rw [if_neg (fun h' => h ⟨by have := h'.1; omega, by have := h'.2; omega⟩)]
  · exact kb_append_range_aux shortcuts buffer_commands regexec z event hs hm

/-- Witness of C14 (amended): the key G in a fresh session. -/
theorem kb_append_range_witness :
    (kb_append {} { keyval := 0x47 }).Global.buffer = some ([] ++ [Char.ofNat 0x47]) :=
  (kb_append_range [] [] (fun _ _ => false) {} { keyval := 0x47 } (by rfl)
    (by decide)).1 (by decide)

/-- C15: when a keystroke reaches the matching of the buffer commands with the
buffer b (after the append), the first command of the table whose pattern
matches b is the one action run, it gets b, and there is no buffer afterwards;
when no pattern matches, no action is run and the buffer stays b. -/
theorem kb_buffer_command (shortcuts : List Shortcut) (buffer_commands : List BufferCommand)
    (regexec : List Char → List Char → Bool) (z : Session) (event : GdkEventKey)
    (b : List Char)
    (hs : shortcuts.find? (shortcut_matches z event) = none)
    (hm : z.Global.mode ≠ ADD_MARKER ∧ z.Global.mode ≠ EVAL_MARKER)
    (hb : (kb_append z event).Global.buffer = some b) :
    (∀ (before after : List BufferCommand) (bc : BufferCommand),
      buffer_commands = before ++ bc :: after →
      (∀ x ∈ before, regexec x.regex b = false) → regexec bc.regex b = true →
      cb_view_kb_pressed shortcuts buffer_commands regexec z event =
        ({ (bc.function (kb_append z event) b bc.argument) with
           Global := { (bc.function (kb_append z event) b bc.argument).Global with
             buffer := none } }, true) ∧
      (cb_view_kb_pressed shortcuts buffer_commands regexec z event).1.Global.buffer = none) ∧
    ((∀ x ∈ buffer_commands, regexec x.regex b = false) →
      cb_view_kb_pressed shortcuts buffer_commands regexec z event = (kb_append z event, false) ∧
      (cb_view_kb_pressed shortcuts buffer_commands regexec z event).1.Global.buffer =
        some b) := by
  have hcb := (kb_append_range_aux shortcuts buffer_commands regexec z event hs hm)
  constructor
  · intro before after bc hsplit hbefore hbc
    have hfind : buffer_commands.find? (fun x => regexec x.regex b) = some bc := by
      rw [hsplit, List.find?_append]
      have hnone : List.find? (fun x => regexec x.regex b) before = none := by
        rw [List.find?_eq_none]
        intro x hx
        simp [hbefore x hx]
      rw [hnone]
      simp [List.find?_cons, hbc]
    rw [hcb]
    simp only [hb, hfind]
    exact ⟨trivial, trivial⟩
  · intro hnone
    have hfind : buffer_commands.find? (fun x => regexec x.regex b) = none := by
      rw [List.find?_eq_none]
      intro x hx
      simp [hnone x hx]
    rw [hcb]
    simp only [hb, hfind]
    exact ⟨trivial, trivial⟩

/-- Witness of C15: the patterns gg and G of bcmd_goto, matched as whole
texts, and the key G on a document of 5 pages: the second command runs. -/
theorem kb_buffer_command_witness :
    (cb_view_kb_pressed []
      [{ regex := ['g', 'g'], function := bcmd_goto, argument := {} },
       { regex := ['G'], function := bcmd_goto, argument := {} }]
      (fun r b => r = b) (sample_session (List.replicate 5 false))
      { keyval := 0x47 }).1.Global.buffer = none :=
  ((kb_buffer_command []
      [{ regex := ['g', 'g'], function := bcmd_goto, argument := {} },
       { regex := ['G'], function := bcmd_goto, argument := {} }]
      (fun r b => r = b) (sample_session (List.replicate 5 false))
      { keyval := 0x47 } ['G'] (by rfl) (by decide) (by rfl)).1
    [{ regex := ['g', 'g'], function := bcmd_goto, argument := {} }] []
    { regex := ['G'], function := bcmd_goto, argument := {} } (by rfl)
    (by
      intro x hx
      rw [List.mem_singleton] at hx
      subst hx
      decide)
    (by decide)).2

/-! ## The inputbar -/

lemma notify_frame (z : Session) (level : Int) (message : Option (List Char)) :
    (notify z level message).Global = z.Global ∧
    (notify z level message).Static = z.Static := ⟨rfl, rfl⟩

/-- With the argument HIDE, isc_completion leaves the session or takes the
completion list away; the inputbar, the history and the history cursor stay. -/
lemma isc_completion_hide (commands : List Command) (z : Session) :
    (isc_completion commands z { n := HIDE }).UI = z.UI ∧
    (isc_completion commands z { n := HIDE }).Global = z.Global ∧
    (isc_completion commands z { n := HIDE }).Static.current = z.Static.current := by
  unfold isc_completion
  dsimp only
  split
  · exact ⟨rfl, rfl, rfl⟩
  · rw [if_neg (by simp)]
    simp only [true_or, decide_True, ite_true, and_self]

lemma isc_abort_frame (commands : List Command) (z : Session) :
    (isc_abort commands z).UI.inputbar = [] ∧
    (isc_abort commands z).UI.inputbar_level = DEFAULT ∧
    (isc_abort commands z).Global = z.Global ∧
    (isc_abort commands z).Static.current = z.Static.current := by
  have h := isc_completion_hide commands z
  unfold isc_abort
  refine ⟨rfl, ?_, h.2.1, h.2.2⟩
  simp [notify, DEFAULT, ERROR, WARNING]

/-- The test of the command loop, spelled out: the first token is the name of
the command or its abbreviation, character for character. -/
lemma command_matches_iff (command : List Char) (c : Command) :
    command_matches command c = true ↔ (command = c.command ∨ some command = c.abbr) := by
  simp [command_matches]

/-- C16: when the submitted text has at least one token after its first
character and that character is no special command: if the first token
equals, character for character, the name or the abbreviation of a command of
the table, the first such command in the order of the table is the one
command run, with the other tokens as its arguments (their number is the
number of tokens less one) and on the session with the text added to the
history, and the dispatcher writes no error: the inputbar is as the command
(and isc_abort after it, when the command returned TRUE) left it; if the first
token equals no name and no abbreviation, no command is run and the inputbar
shows the error Unknown command. -/
theorem inputbar_dispatch (commands : List Command) (special_commands : List SpecialCommand)
    (z : Session) (command : List Char) (arguments : List (List Char))
    (htokens : g_strsplit (z.UI.inputbar.drop 1) = command :: arguments)
    (hspecial : special_commands.find?
      (fun sc => z.UI.inputbar.headD (Char.ofNat 0) = sc.identifier) = none) :
    (∀ (before after : List Command) (c : Command),
      commands = before ++ c :: after →
      (∀ x ∈ before, command ≠ x.command ∧ some command ≠ x.abbr) →
      (command = c.command ∨ some command = c.abbr) →
      cb_inputbar_activate commands special_commands z =
        (isc_completion commands
          (if (c.function { z with Global := { z.Global with
                  history := z.Global.history ++ [z.UI.inputbar] } } arguments).2 then
            isc_abort commands (c.function { z with Global := { z.Global with
                  history := z.Global.history ++ [z.UI.inputbar] } } arguments).1
           else (c.function { z with Global := { z.Global with
                  history := z.Global.history ++ [z.UI.inputbar] } } arguments).1)
          { n := HIDE }, true) ∧
      (arguments.length : Int) = (g_strsplit (z.UI.inputbar.drop 1)).length - 1 ∧
      (cb_inputbar_activate commands special_commands z).1.UI =
        (if (c.function { z with Global := { z.Global with
                  history := z.Global.history ++ [z.UI.inputbar] } } arguments).2 then
            isc_abort commands (c.function { z with Global := { z.Global with
                  history := z.Global.history ++ [z.UI.inputbar] } } arguments).1
           else (c.function { z with Global := { z.Global with
                  history := z.Global.history ++ [z.UI.inputbar] } } arguments).1).UI) ∧
    ((∀ x ∈ commands, command ≠ x.command ∧ some command ≠ x.abbr) →
      cb_inputbar_activate commands special_commands z =
        (isc_completion commands
          (notify { z with Global := { z.Global with
              history := z.Global.history ++ [z.UI.inputbar] } } ERROR
            (some "Unknown command.".toList)) { n := HIDE }, true) ∧
      (cb_inputbar_activate commands special_commands z).1.UI.inputbar =
        "Unknown command.".toList ∧
      (cb_inputbar_activate commands special_commands z).1.UI.inputbar_level = ERROR) := by
  have hno : ∀ x : Command, (command ≠ x.command ∧ some command ≠ x.abbr) →
      command_matches command x = false := by
    intro x hx
    cases hm : command_matches command x with
    | false => rfl
    | true =>
      rcases (command_matches_iff command x).mp hm with e | e
      · exact absurd e hx.1
      · exact absurd e hx.2
  constructor
  · intro before after c hsplit hbefore hc
    have hc' : command_matches command c = true := (command_matches_iff command c).mpr hc
    have hfind : commands.find? (command_matches command) = some c := by
      rw [hsplit, List.find?_append]
      have hnone : List.find? (command_matches command) before = none := by
        rw [List.find?_eq_none]
        intro x hx
        simp [hno x (hbefore x hx)]
      rw [hnone]
      simp [List.find?_cons, hc']
    have heq : cb_inputbar_activate commands special_commands z =
        (isc_completion commands
          (if (c.function { z with Global := { z.Global with
                  history := z.Global.history ++ [z.UI.inputbar] } } arguments).2 then
            isc_abort commands (c.function { z with Global := { z.Global with
                  history := z.Global.history ++ [z.UI.inputbar] } } arguments).1
           else (c.function { z with Global := { z.Global with
                  history := z.Global.history ++ [z.UI.inputbar] } } arguments).1)
          { n := HIDE }, true) := by
      unfold cb_inputbar_activate
      simp only [htokens, hspecial, hfind]
    refine ⟨heq, ?_, ?_⟩
    · rw [htokens]
      simp
    · rw [heq]
      exact (isc_completion_hide commands _).1
  · intro hnone
    have hfind : commands.find? (command_matches command) = none := by
      rw [List.find?_eq_none]
      intro x hx
      simp [hno x (hnone x hx)]
    have heq : cb_inputbar_activate commands special_commands z =
        (isc_completion commands
          (notify { z with Global := { z.Global with
              history := z.Global.history ++ [z.UI.inputbar] } } ERROR
            (some "Unknown command.".toList)) { n := HIDE }, true) := by
      unfold cb_inputbar_activate
      simp only [htokens, hspecial, hfind]
    refine ⟨heq, ?_, ?_⟩
    · rw [heq]
      show (isc_completion commands _ { n := HIDE }).UI.inputbar = _
      rw [(isc_completion_hide commands _).1]
      rfl
    · rw [heq]
      show (isc_completion commands _ { n := HIDE }).UI.inputbar_level = _
      rw [(isc_completion_hide commands _).1]
      rfl

/-- Witness of C16 on the sample table, whose one command is set with the
abbreviation s: the text :set x runs the command, which leaves the inputbar
empty, and the text :SET x, which differs in case, gives the error. -/
theorem inputbar_dispatch_witness :
    (cb_inputbar_activate (sample_commands sample_completion) []
      (entry_set_text {} ":set x".toList)).1.UI.inputbar = [] ∧
    (cb_inputbar_activate (sample_commands sample_completion) []
      (entry_set_text {} ":SET x".toList)).1.UI.inputbar = "Unknown command.".toList :=
  ⟨(congrArg UIS.inputbar
      ((inputbar_dispatch (sample_commands sample_completion) []
        (entry_set_text {} ":set x".toList) "set".toList ["x".toList]
        (by decide) (by rfl)).1 [] []
        { command := "set".toList, abbr := some ['s'],
          function := fun z _ => (z, true),
          completion := some (fun z _ => (z, some sample_completion)) }
        (by rfl) (by intro x hx; cases hx) (Or.inl (by rfl))).2.2).trans (by decide),
    ((inputbar_dispatch (sample_commands sample_completion) []
      (entry_set_text {} ":SET x".toList) "SET".toList ["x".toList]
      (by decide) (by rfl)).2
      (by
        intro x hx
        simp only [sample_commands, List.mem_singleton] at hx
        subst hx
        exact ⟨by decide, by decide⟩)).2.1⟩

/-- One step back in the history, for a cursor inside the history. -/
lemma history_previous (z : Session)
    (hcur : 0 ≤ z.Static.current ∧ z.Static.current < z.Global.history.length) :
    isc_command_history z { n := PREVIOUS } =
      notify { z with Static := { z.Static with
          current := (z.Static.current - 1) % (z.Global.history.length : Int) } } DEFAULT
        (array_at z.Global.history
          ((z.Static.current - 1) % (z.Global.history.length : Int))) := by
  have hpos : (z.Global.history.length : Int) > 0 := by omega
  have hmod : Int.tmod ((z.Global.history.length : Int) + z.Static.current - 1)
      (z.Global.history.length : Int) =
      (z.Static.current - 1) % (z.Global.history.length : Int) := by
    rw [Int.tmod_eq_emod (by omega) (by omega)]
    have e : (z.Global.history.length : Int) + z.Static.current - 1 =
        (z.Global.history.length : Int) + (z.Static.current - 1) := by ring
    rw [e, Int.add_emod_self_left]
  have hne : ¬ ((PREVIOUS : Int) = NEXT) := by decide
  unfold isc_command_history
  simp only [if_pos hpos, if_neg hne, hmod]

/-- After k steps back the history is the same and the cursor is c - k
modulo the length. -/
lemma history_previous_iterate (z : Session)
    (hcur : 0 ≤ z.Static.current ∧ z.Static.current < z.Global.history.length) (k : Nat) :
    ((fun s => isc_command_history s { n := PREVIOUS })^[k] z).Global.history =
      z.Global.history ∧
    ((fun s => isc_command_history s { n := PREVIOUS })^[k] z).Static.current =
      (z.Static.current - (k : Int)) % (z.Global.history.length : Int) := by
  have hpos : (z.Global.history.length : Int) > 0 := by omega
  induction k with
  | zero =>
    refine ⟨rfl, ?_⟩
    simp only [Function.iterate_zero, id_eq, Nat.cast_zero, sub_zero]
    exact (Int.emod_eq_of_lt hcur.1 hcur.2).symm
  | succ k ih =>
    rw [Function.iterate_succ_apply']
    have hin : 0 ≤ ((fun s => isc_command_history s { n := PREVIOUS })^[k] z).Static.current ∧
        ((fun s => isc_command_history s { n := PREVIOUS })^[k] z).Static.current <
          (((fun s => isc_command_history s { n := PREVIOUS })^[k] z).Global.history.length
            : Int) := by
      rw [ih.1, ih.2]
      exact ⟨Int.emod_nonneg _ (ne_of_gt hpos), Int.emod_lt_of_pos _ hpos⟩
    rw [history_previous _ hin]
    refine ⟨ih.1, ?_⟩
    show (((fun s => isc_command_history s { n := PREVIOUS })^[k] z).Static.current - 1) %
      (((fun s => isc_command_history s { n := PREVIOUS })^[k] z).Global.history.length : Int)
      = _
    rw [ih.1, ih.2, Int.sub_emod, Int.emod_emod_of_dvd _ (dvd_refl _), ← Int.sub_emod]
    congr 1
    push_cast
    ring

/-- C17 (fails on the code as stated): the texts :a and :b are submitted,
previous shows :b, then :c is submitted; the first previous after that submit
shows :a, the oldest text, not :c, the one submitted last. -/
theorem history_previous_after_submit :
    (isc_command_history
      (cb_inputbar_activate [] []
        (entry_set_text
          (isc_command_history
            (cb_inputbar_activate [] []
              (entry_set_text
                (cb_inputbar_activate [] [] (entry_set_text {} [':', 'a'])).1
                [':', 'b'])).1
            { n := PREVIOUS })
          [':', 'c'])).1
      { n := PREVIOUS }).UI.inputbar = [':', 'a'] ∧
    (cb_inputbar_activate [] []
        (entry_set_text
          (isc_command_history
            (cb_inputbar_activate [] []
              (entry_set_text
                (cb_inputbar_activate [] [] (entry_set_text {} [':', 'a'])).1
                [':', 'b'])).1
            { n := PREVIOUS })
          [':', 'c'])).1.Global.history = [[':', 'a'], [':', 'b'], [':', 'c']] := by
  decide

/-- C17 (amended): the history holds the submitted texts, oldest first, and
its cursor starts at 0 and is kept by a submit, which adds its text at the end
(for commands that leave the history and the cursor alone).  For a cursor
inside the history, previous moves it to cursor - 1 modulo the number of
entries and shows that entry, so further steps show older and older entries
cyclically; with the cursor at 0 it shows the text submitted last; after as
many steps as there are entries the cursor is where it started. -/
theorem history_navigation (z : Session)
    (hcur : 0 ≤ z.Static.current ∧ z.Static.current < z.Global.history.length) :
    (isc_command_history z { n := PREVIOUS }).Static.current =
      (z.Static.current - 1) % (z.Global.history.length : Int) ∧
    array_at z.Global.history ((z.Static.current - 1) % (z.Global.history.length : Int)) =
      some (isc_command_history z { n := PREVIOUS }).UI.inputbar ∧
    (z.Static.current = 0 →
      z.Global.history.getLast? = some (isc_command_history z { n := PREVIOUS }).UI.inputbar) ∧
    ((fun s => isc_command_history s { n := PREVIOUS })^[z.Global.history.length] z).Static.current
      = z.Static.current ∧
    (∀ (commands : List Command) (special_commands : List SpecialCommand)
      (command : List Char) (arguments : List (List Char)),
      g_strsplit (z.UI.inputbar.drop 1) = command :: arguments →
      (∀ c ∈ commands, ∀ (s : Session) (a : List (List Char)),
        (c.function s a).1.Global.history = s.Global.history ∧
        (c.function s a).1.Static.current = s.Static.current) →
      (∀ sc ∈ special_commands, ∀ (s : Session) (i : List Char) (a : Argument),
        (sc.function s i a).1.Global.history = s.Global.history ∧
        (sc.function s i a).1.Static.current = s.Static.current) →
      (cb_inputbar_activate commands special_commands z).1.Global.history =
        z.Global.history ++ [z.UI.inputbar] ∧
      (cb_inputbar_activate commands special_commands z).1.Static.current =
        z.Static.current) := by
  have hpos : (z.Global.history.length : Int) > 0 := by omega
  have hstep := history_previous z hcur
  have hrange : 0 ≤ (z.Static.current - 1) % (z.Global.history.length : Int) ∧
      (z.Static.current - 1) % (z.Global.history.length : Int) <
        (z.Global.history.length : Int) :=
    ⟨Int.emod_nonneg _ (ne_of_gt hpos), Int.emod_lt_of_pos _ hpos⟩
  obtain ⟨entry, hentry⟩ := array_at_some z.Global.history _ hrange.1 hrange.2
  have hshown : (isc_command_history z { n := PREVIOUS }).UI.inputbar = entry := by
    rw [hstep, hentry]
    rfl
  refine ⟨?_, ?_, ?_, ?_, ?_⟩
  · rw [hstep]
    rfl
  · rw [hshown, hentry]
  · intro h0
    rw [hshown, ← hentry, h0]
    have hm : ((0 : Int) - 1) % (z.Global.history.length : Int) =
        (z.Global.history.length : Int) - 1 := by
      have e : ((0 : Int) - 1) = ((z.Global.history.length : Int) - 1) +
          (-1) * (z.Global.history.length : Int) := by ring
      rw [e, Int.add_mul_emod_self]
      exact Int.emod_eq_of_lt (by omega) (by omega)
    rw [hm, List.getLast?_eq_getElem?]
    unfold array_at
    rw [if_neg (by omega)]
    congr 1
    omega
  · have h := (history_previous_iterate z hcur z.Global.history.length).2
    rw [h]
    have e : z.Static.current - (z.Global.history.length : Int) =
        z.Static.current + (-1) * (z.Global.history.length : Int) := by ring
    rw [e, Int.add_mul_emod_self]
    exact Int.emod_eq_of_lt hcur.1 hcur.2
  · intro commands special_commands command arguments htokens hcmd hspecial
    unfold cb_inputbar_activate
    simp only [htokens]
    cases hsp : special_commands.find?
        (fun sc => z.UI.inputbar.headD (Char.ofNat 0) = sc.identifier) with
    | some sc =>
      have hmem := List.mem_of_find?_eq_some hsp
      dsimp only
      by_cases ha : sc.always = 1
      · rw [if_pos ha]
        exact ⟨by rw [(isc_abort_frame commands _).2.2.1], (isc_abort_frame commands _).2.2.2⟩
      · rw [if_neg ha]
        have hf := hspecial sc hmem { z with Global := { z.Global with
          history := z.Global.history ++ [z.UI.inputbar] } } (z.UI.inputbar.drop 1) sc.argument
        split
        · exact ⟨by rw [(isc_abort_frame commands _).2.2.1, hf.1],
            by rw [(isc_abort_frame commands _).2.2.2, hf.2]⟩
        · exact hf
    | none =>
      dsimp only
      cases hc : commands.find? (command_matches command) with
      | some c =>
        have hmem := List.mem_of_find?_eq_some hc
        have hf := hcmd c hmem { z with Global := { z.Global with
          history := z.Global.history ++ [z.UI.inputbar] } } arguments
        dsimp only
        rw [(isc_completion_hide commands _).2.1, (isc_completion_hide commands _).2.2]
        split
        · exact ⟨by rw [(isc_abort_frame commands _).2.2.1, hf.1],
            by rw [(isc_abort_frame commands _).2.2.2, hf.2]⟩
        · exact hf
      | none =>
        dsimp only
        rw [(isc_completion_hide commands _).2.1, (isc_completion_hide commands _).2.2]
        exact ⟨rfl, rfl⟩

/-- Witness of C17 (amended): two texts in the history, the cursor at 0. -/
theorem history_navigation_witness :
    (isc_command_history
      (cb_inputbar_activate [] []
        (entry_set_text (cb_inputbar_activate [] [] (entry_set_text {} [':', 'a'])).1
          [':', 'b'])).1
      { n := PREVIOUS }).Static.current = (0 - 1) % ((2 : Nat) : Int) :=
  (history_navigation
    (cb_inputbar_activate [] []
      (entry_set_text (cb_inputbar_activate [] [] (entry_set_text {} [':', 'a'])).1
        [':', 'b'])).1
    (by decide)).1

/-! ## The rows of a completion list -/

lemma seps_ok_append (l m : List CompletionRow) (hl : seps_ok l) (hm : seps_ok m) :
    seps_ok (l ++ m) := by
  induction l with
  | nil => exact hm
  | cons a rest ih =>
    cases rest with
    | nil =>
      cases m with
      | nil => exact hl
      | cons b t =>
        have ha : a.is_group = false := hl
        show (a.is_group = true → b.is_group = false) ∧ seps_ok (b :: t)
        exact ⟨fun h => absurd (ha.symm.trans h) (by decide), hm⟩
    | cons b t =>
      show (a.is_group = true → b.is_group = false) ∧ seps_ok (b :: (t ++ m))
      exact ⟨hl.1, ih hl.2⟩

lemma seps_ok_items (l : List CompletionRow) (h : ∀ x ∈ l, x.is_group = false) : seps_ok l := by
  induction l with
  | nil => trivial
  | cons a rest ih =>
    cases rest with
    | nil => exact h a (List.mem_cons_self _ _)
    | cons b t =>
      exact ⟨fun _ => h b (List.mem_cons_of_mem _ (List.mem_cons_self _ _)),
        ih (fun x hx => h x (List.mem_cons_of_mem _ hx))⟩

lemma group_matching_items (group : CompletionGroup) (parameter : List Char) (id : Int) :
    ∀ x ∈ group_matching group parameter id, x.is_group = false := by
  intro x hx
  unfold group_matching at hx
  rw [List.mem_filterMap] at hx
  obtain ⟨e, _, he⟩ := hx
  split at he
  · split at he
    · simp only [Option.some.injEq] at he
      rw [← he]
    · cases he
  · cases he

/-- The exchange at the end of a round puts the row of the group before its
elements and its first element after the others. -/
lemma rows_swap_group (rows rest : List CompletionRow) (e g : CompletionRow) :
    rows_swap ((rows ++ e :: rest) ++ [g]) ((rows ++ e :: rest).length - (e :: rest).length)
      (rows ++ e :: rest).length = rows ++ g :: (rest ++ [e]) := by
  have h1 : (rows ++ e :: rest).length - (e :: rest).length = rows.length := by simp
  have h2 : (rows ++ e :: rest).length = rows.length + (rest.length + 1) := by simp
  rw [h1, h2]
  unfold rows_swap
  have g1 : ((rows ++ e :: rest) ++ [g])[rows.length]? = some e := by
    rw [List.append_assoc, List.getElem?_append_right (le_refl _)]
    simp
  have g2 : ((rows ++ e :: rest) ++ [g])[rows.length + (rest.length + 1)]? = some g := by
    rw [List.getElem?_append_right (by simp)]
    simp
  rw [g1, g2]
  apply List.ext_getElem?
  intro k
  simp only [List.getElem?_set, List.length_set, List.length_append, List.length_cons,
    List.length_singleton, List.length_nil]
  by_cases hk1 : k < rows.length
  · rw [if_neg (by omega), if_neg (by omega)]
    rw [List.getElem?_append_left (by simp; omega), List.getElem?_append_left hk1,
      List.getElem?_append_left hk1]
  · by_cases hk2 : k = rows.length
    · subst hk2
      rw [if_neg (by omega), if_pos rfl, if_pos (by omega)]
      rw [List.getElem?_append_right (le_refl _)]
      simp
    · by_cases hk3 : k = rows.length + (rest.length + 1)
      · subst hk3
        rw [if_pos rfl, if_pos (by omega)]
        rw [List.getElem?_append_right (by omega)]
        simp only [add_tsub_cancel_left]
        rw [List.getElem?_cons_succ, List.getElem?_append_right (by omega)]
        simp
      · rw [if_neg (by omega), if_neg (by omega)]
        by_cases hk4 : k < rows.length + (rest.length + 1)
        · rw [List.getElem?_append_left (by simp; omega),
            List.getElem?_append_right (by omega), List.getElem?_append_right (by omega)]
          obtain ⟨m, hm⟩ : ∃ m, k - rows.length = m + 1 := ⟨k - rows.length - 1, by omega⟩
          rw [hm, List.getElem?_cons_succ, List.getElem?_cons_succ,
            List.getElem?_append_left (by omega)]
        · rw [List.getElem?_eq_none (by simp; omega), List.getElem?_eq_none (by simp; omega)]

lemma seps_ok_group_block (g : CompletionRow) (items : List CompletionRow)
    (hne : items ≠ []) (h : ∀ x ∈ items, x.is_group = false) : seps_ok (g :: items) := by
  cases items with
  | nil => exact absurd rfl hne
  | cons b t => exact ⟨fun _ => h b (List.mem_cons_self _ _), seps_ok_items _ h⟩

lemma completion_group_rows_ok (rows : List CompletionRow) (group : CompletionGroup)
    (parameter : List Char) (id : Int) (h : seps_ok rows) :
    seps_ok (completion_group_rows rows group parameter id) := by
  have hitems := group_matching_items group parameter id
  unfold completion_group_rows
  dsimp only
  cases hm : group_matching group parameter id with
  | nil =>
    rw [hm] at hitems
    cases group.value with
    | none => simpa using h
    | some v => simpa using h
  | cons e rest =>
    rw [hm] at hitems
    cases group.value with
    | none => exact seps_ok_append _ _ h (seps_ok_items _ hitems)
    | some v =>
      dsimp only
      rw [if_pos (by simp), rows_swap_group]
      apply seps_ok_append _ _ h
      apply seps_ok_group_block _ _ (by simp)
      intro x hx
      rw [List.mem_append, List.mem_singleton] at hx
      rcases hx with hx | hx
      · exact hitems x (List.mem_cons_of_mem _ hx)
      · rw [hx]
        exact hitems e (List.mem_cons_self _ _)

/-- In a list based on parameters every group row has a row of an element
directly after it. -/
lemma completion_parameter_rows_ok (groups : List CompletionGroup) (parameter : List Char)
    (id : Int) : seps_ok (completion_parameter_rows groups parameter id) := by
  unfold completion_parameter_rows
  have hgen : ∀ (gs : List CompletionGroup) (rows : List CompletionRow), seps_ok rows →
      seps_ok (gs.foldl (fun rows group =>
        completion_group_rows rows group parameter id) rows) := by
    intro gs
    induction gs with
    | nil => intro rows h; exact h
    | cons g rest ih =>
      intro rows h
      exact ih _ (completion_group_rows_ok rows g parameter id h)
  exact hgen groups [] trivial

lemma seps_ok_index (rows : List CompletionRow) (h : seps_ok rows) (i : Nat)
    (g : CompletionRow) (hg : rows[i]? = some g) (hgrp : g.is_group = true) :
    ∃ x, rows[i + 1]? = some x ∧ x.is_group = false := by
  induction rows generalizing i with
  | nil => simp at hg
  | cons a rest ih =>
    cases rest with
    | nil =>
      cases i with
      | zero =>
        simp only [List.getElem?_cons_zero, Option.some.injEq] at hg
        subst hg
        have ha : a.is_group = false := h
        rw [ha] at hgrp
        cases hgrp
      | succ k => simp at hg
    | cons b t =>
      cases i with
      | zero =>
        simp only [List.getElem?_cons_zero, Option.some.injEq] at hg
        subst hg
        exact ⟨b, by simp, h.1 hgrp⟩
      | succ k =>
        rw [List.getElem?_cons_succ] at hg
        obtain ⟨x, hx, hxi⟩ := ih h.2 k hg
        exact ⟨x, by rw [List.getElem?_cons_succ]; exact hx, hxi⟩

lemma array_at_range {α : Type} (xs : List α) (i : Int) (x : α) (h : array_at xs i = some x) :
    0 ≤ i ∧ i < (xs.length : Int) ∧ xs[i.toNat]? = some x := by
  unfold array_at at h
  by_cases hi : i < 0
  · rw [if_pos hi] at h
    cases h
  · rw [if_neg hi] at h
    have hlt := (List.getElem?_eq_some.mp h).1
    exact ⟨by omega, by omega, h⟩

/-- The row after a group row, by its index in the array. -/
lemma seps_ok_array_at (rows : List CompletionRow) (h : seps_ok rows) (i : Int)
    (g : CompletionRow) (hg : array_at rows i = some g) (hgrp : g.is_group = true) :
    ∃ x, array_at rows (i + 1) = some x ∧ x.is_group = false := by
  obtain ⟨h0, _, hget⟩ := array_at_range rows i g hg
  obtain ⟨x, hx, hxi⟩ := seps_ok_index rows h i.toNat g hget hgrp
  refine ⟨x, ?_, hxi⟩
  unfold array_at
  rw [if_neg (by omega)]
  have e : (i + 1).toNat = i.toNat + 1 := by omega
  rw [e]
  exact hx

/-! ## The cursor loop of the completion -/

lemma completion_step_forward (n x : Int) (hn : 0 < n) (hx : 0 ≤ x) :
    completion_step n NEXT_GROUP x = (x + 1) % n := by
  unfold completion_step
  rw [if_pos (Or.inr rfl), Int.tmod_eq_emod (by omega) (by omega)]
  have e : x + n + 1 = (x + 1) + 1 * n := by ring
  rw [e, Int.add_mul_emod_self]

/-- Once a group row is behind, the loop stops on the next row when that is
the row of an element. -/
lemma completion_loop_after_group (rows : List CompletionRow) (rounds : Nat) (cur : Int)
    (x : CompletionRow) (hn : 0 < (rows.length : Int)) (hcur : 0 ≤ cur)
    (hx : array_at rows ((cur + 1) % (rows.length : Int)) = some x)
    (hxi : x.is_group = false) :
    completion_loop rows false NEXT_GROUP (rounds + 1) cur true =
      (cur + 1) % (rows.length : Int) := by
  simp [completion_loop, completion_step_forward _ _ hn hcur, hx, hxi]

/-- With NEXT_GROUP on a list based on parameters the loop runs over rows of
elements to the first group row and stops on the row after it. -/
lemma completion_loop_to_group (rows : List CompletionRow) (hn : 0 < (rows.length : Int)) :
    ∀ (d rounds : Nat) (cur : Int), 0 ≤ cur → 1 ≤ d → d + 1 ≤ rounds →
      (∀ j : Nat, 1 ≤ j → j < d →
        ∃ x, array_at rows ((cur + (j : Int)) % (rows.length : Int)) = some x ∧
          x.is_group = false) →
      (∃ s, array_at rows ((cur + (d : Int)) % (rows.length : Int)) = some s ∧
        s.is_group = true) →
      (∃ x, array_at rows ((cur + (d : Int) + 1) % (rows.length : Int)) = some x ∧
        x.is_group = false) →
      completion_loop rows false NEXT_GROUP rounds cur false =
        (cur + (d : Int) + 1) % (rows.length : Int) := by
  intro d
  induction d with
  | zero =>
    intro rounds cur _ h1
    omega
  | succ d ih =>
    intro rounds cur hcur _ hrounds hitems hsep hafter
    obtain ⟨m, rfl⟩ : ∃ m, rounds = m + 1 := ⟨rounds - 1, by omega⟩
    have hnext : 0 ≤ (cur + 1) % (rows.length : Int) := Int.emod_nonneg _ (ne_of_gt hn)
    by_cases hd : d = 0
    · subst hd
      obtain ⟨s, hs, hsg⟩ := hsep
      obtain ⟨x, hx, hxi⟩ := hafter
      obtain ⟨m', rfl⟩ : ∃ m', m = m' + 1 := ⟨m - 1, by omega⟩
      have hs' : array_at rows ((cur + 1) % (rows.length : Int)) = some s := by
        simpa using hs
      have hx' : array_at rows (((cur + 1) % (rows.length : Int) + 1) % (rows.length : Int))
          = some x := by
        rw [Int.emod_add_emod]
        simpa using hx
      have hla := completion_loop_after_group rows m' _ x hn hnext hx' hxi
      have hres : ((cur + 1) % (rows.length : Int) + 1) % (rows.length : Int) =
          (cur + ((0 + 1 : Nat) : Int) + 1) % (rows.length : Int) := by
        rw [Int.emod_add_emod]
        simp
      rw [← hres, ← hla]
      conv_lhs => unfold completion_loop
      simp [completion_step_forward _ _ hn hcur, hs', hsg]
    · obtain ⟨x1, hx1, hx1i⟩ := hitems 1 (le_refl _) (by omega)
      have hx1' : array_at rows ((cur + 1) % (rows.length : Int)) = some x1 := by
        simpa using hx1
      have hshift : ∀ k : Int, ((cur + 1) % (rows.length : Int) + k) % (rows.length : Int) =
          (cur + (k + 1)) % (rows.length : Int) := by
        intro k
        rw [Int.emod_add_emod]
        congr 1
        ring
      have hrec := ih m ((cur + 1) % (rows.length : Int)) hnext (by omega) (by omega)
        (by
          intro j hj1 hj2
          obtain ⟨x, hx, hxi⟩ := hitems (j + 1) (by omega) (by omega)
          refine ⟨x, ?_, hxi⟩
          rw [hshift]
          simpa using hx)
        (by
          obtain ⟨s, hs, hsg⟩ := hsep
          refine ⟨s, ?_, hsg⟩
          rw [hshift]
          simpa using hs)
        (by
          obtain ⟨x, hx, hxi⟩ := hafter
          refine ⟨x, ?_, hxi⟩
          rw [add_assoc, hshift]
          have e : cur + (((d : Int) + 1) + 1) = cur + ((d + 1 : Nat) : Int) + 1 := by
            push_cast
            ring
          rw [e]
          exact hx)
      have hres : ((cur + 1) % (rows.length : Int) + (d : Int) + 1) % (rows.length : Int) =
          (cur + ((d + 1 : Nat) : Int) + 1) % (rows.length : Int) := by
        rw [add_assoc, hshift]
        congr 1
        push_cast
        ring
      rw [← hres, ← hrec]
      conv_lhs => unfold completion_loop
      simp [completion_step_forward _ _ hn hcur, hx1', hx1i]

/-- C18: in a list based on parameters that has a group row, NextGroup
issued with the cursor on the row r of an element runs over the rows r + 1,
r + 2, ... (modulo the number of rows), which are rows of elements up to the
first group row, at distance d, and stops on the row after that group row,
which is the row of an element; this is where the cursor block of isc_completion
leaves current_item.  With the candidates open and close in grp1 and
quit in grp2 and an empty filter, NextGroup from close and from open lands on
quit. -/
theorem next_group_lands (groups : List CompletionGroup) (parameter : List Char)
    (previous_id : Int) (rows : List CompletionRow)
    (hrows : rows = completion_parameter_rows groups parameter previous_id)
    (r i : Int) (row g : CompletionRow)
    (hr : array_at rows r = some row) (hitem : row.is_group = false)
    (hi : array_at rows i = some g) (hg : g.is_group = true) :
    (∃ d : Nat, 1 ≤ d ∧ (d : Int) < (rows.length : Int) ∧
      (∀ j : Nat, 1 ≤ j → j < d →
        ∃ x, array_at rows ((r + (j : Int)) % (rows.length : Int)) = some x ∧
          x.is_group = false) ∧
      (∃ s, array_at rows ((r + (d : Int)) % (rows.length : Int)) = some s ∧
        s.is_group = true) ∧
      (∃ x, array_at rows ((r + (d : Int) + 1) % (rows.length : Int)) = some x ∧
        x.is_group = false) ∧
      completion_loop rows false NEXT_GROUP rows.length r false =
        (r + (d : Int) + 1) % (rows.length : Int) ∧
      (∀ (z : Session) (length : Int) (current_command : List Char)
        (current_parameter : Option (List Char)),
        z.Static.rows = rows → z.Static.results = true → z.Static.command_mode = false →
        z.Static.current_item = r →
        (completion_update z { n := NEXT_GROUP } length current_command
          current_parameter).Static.current_item =
          (r + (d : Int) + 1) % (rows.length : Int))) ∧
    (isc_completion (sample_commands sample_completion)
      (isc_completion (sample_commands sample_completion)
        (sample_parameter_session sample_completion) { n := NEXT })
      { n := NEXT_GROUP }).UI.inputbar = ":set quit".toList ∧
    (isc_completion (sample_commands sample_completion)
      (isc_completion (sample_commands sample_completion)
        (isc_completion (sample_commands sample_completion)
          (sample_parameter_session sample_completion) { n := NEXT }) { n := NEXT })
      { n := NEXT_GROUP }).UI.inputbar = ":set quit".toList := by
  refine ⟨?_, by decide, by decide⟩
  have hok : seps_ok rows := by
    rw [hrows]
    exact completion_parameter_rows_ok groups parameter previous_id
  obtain ⟨hr0, hr1, _⟩ := array_at_range rows r row hr
  obtain ⟨hi0, hi1, _⟩ := array_at_range rows i g hi
  have hn : 0 < (rows.length : Int) := by omega
  have hne : i ≠ r := by
    intro h
    rw [h, hr] at hi
    simp only [Option.some.injEq] at hi
    rw [hi, hg] at hitem
    cases hitem
  -- the distance from the cursor to the known group row
  have hd0 : 0 ≤ (i - r) % (rows.length : Int) ∧
      (i - r) % (rows.length : Int) < (rows.length : Int) :=
    ⟨Int.emod_nonneg _ (ne_of_gt hn), Int.emod_lt_of_pos _ hn⟩
  have hd0ne : (i - r) % (rows.length : Int) ≠ 0 := by
    intro h
    have hdvd : (rows.length : Int) ∣ (i - r) := Int.dvd_of_emod_eq_zero h
    have : i - r = 0 := by
      apply Int.eq_zero_of_abs_lt_dvd hdvd
      rw [abs_lt]
      constructor <;> omega
    omega
  have hpos0 : (r + (((i - r) % (rows.length : Int)).toNat : Int)) % (rows.length : Int) = i := by
    rw [Int.toNat_of_nonneg hd0.1, Int.add_emod_emod]
    have e : r + (i - r) = i := by ring
    rw [e]
    exact Int.emod_eq_of_lt hi0 hi1
  have hex : ∃ d : Nat, 1 ≤ d ∧
      ∃ s, array_at rows ((r + (d : Int)) % (rows.length : Int)) = some s ∧
        s.is_group = true :=
    ⟨((i - r) % (rows.length : Int)).toNat, by omega, g, by rw [hpos0]; exact hi, hg⟩
  classical
  have hspec := Nat.find_spec hex
  have hle : Nat.find hex ≤ ((i - r) % (rows.length : Int)).toNat :=
    Nat.find_le ⟨by omega, g, by rw [hpos0]; exact hi, hg⟩
  have hlt : ((Nat.find hex : Nat) : Int) < (rows.length : Int) := by omega
  have hitems : ∀ j : Nat, 1 ≤ j → j < Nat.find hex →
      ∃ x, array_at rows ((r + (j : Int)) % (rows.length : Int)) = some x ∧
        x.is_group = false := by
    intro j hj1 hj2
    obtain ⟨x, hx⟩ := array_at_some rows ((r + (j : Int)) % (rows.length : Int))
      (Int.emod_nonneg _ (ne_of_gt hn)) (Int.emod_lt_of_pos _ hn)
    refine ⟨x, hx, ?_⟩
    by_contra hgx
    have hgx' : x.is_group = true := by
      cases hb : x.is_group with
      | true => rfl
      | false => exact absurd hb hgx
    exact Nat.find_min hex hj2 ⟨hj1, x, hx, hgx'⟩
  obtain ⟨_, s, hs, hsg⟩ := hspec
  obtain ⟨x, hx, hxi⟩ := seps_ok_array_at rows hok _ s hs hsg
  have hxr := array_at_range rows _ x hx
  have hafter : (r + ((Nat.find hex : Nat) : Int) + 1) % (rows.length : Int) =
      (r + ((Nat.find hex : Nat) : Int)) % (rows.length : Int) + 1 := by
    rw [← Int.emod_add_emod]
    exact Int.emod_eq_of_lt hxr.1 hxr.2.1
  have hx' : array_at rows ((r + ((Nat.find hex : Nat) : Int) + 1) % (rows.length : Int)) =
      some x := by
    rw [hafter]
    exact hx
  have hloop := completion_loop_to_group rows hn (Nat.find hex) rows.length r hr0
    (Nat.find_spec hex).1 (by omega) hitems ⟨s, hs, hsg⟩ ⟨x, hx', hxi⟩
  refine ⟨Nat.find hex, (Nat.find_spec hex).1, hlt, hitems, ⟨s, hs, hsg⟩, ⟨x, hx', hxi⟩,
    hloop, ?_⟩
  intro z length current_command current_parameter h1 h2 h3 h4
  unfold completion_update
  simp only [h1, h2, h3, h4, hloop, hx', hn, gt_iff_lt, and_self, if_true]

/-- Witness of C18: the rows of the sample completion, the cursor on the row
of close (row 1), the group row grp2 (row 3). -/
theorem next_group_lands_witness :
    (isc_completion (sample_commands sample_completion)
      (isc_completion (sample_commands sample_completion)
        (sample_parameter_session sample_completion) { n := NEXT })
      { n := NEXT_GROUP }).UI.inputbar = ":set quit".toList :=
  (next_group_lands sample_completion.groups [] 0
    (completion_parameter_rows sample_completion.groups [] 0) rfl 1 3
    { command := "close".toList, command_id := 0, is_group := false }
    { command := "grp2".toList, command_id := -1, is_group := true }
    (by decide) (by rfl) (by decide) (by rfl)).2.1

/-- C19 (fails on the code as stated): with the candidates open and close in
grp1 and quit in grp2 and an empty filter the rows are grp1, close, open,
grp2, quit; with the cursor on close (row 1), four times Next leaves the cursor
on open (row 2), not on the row it started from. -/
theorem next_four_times_moves :
    (isc_completion (sample_commands sample_completion)
      (sample_parameter_session sample_completion) { n := NEXT }).Static.rows.map
        (fun row => row.command) =
      ["grp1".toList, "close".toList, "open".toList, "grp2".toList, "quit".toList] ∧
    (isc_completion (sample_commands sample_completion)
      (sample_parameter_session sample_completion) { n := NEXT }).Static.current_item = 1 ∧
    ((fun s => isc_completion (sample_commands sample_completion) s { n := NEXT })^[4]
      (isc_completion (sample_commands sample_completion)
        (sample_parameter_session sample_completion) { n := NEXT })).Static.current_item = 2 ∧
    ((fun s => isc_completion (sample_commands sample_completion) s { n := NEXT })^[4]
      (isc_completion (sample_commands sample_completion)
        (sample_parameter_session sample_completion) { n := NEXT })).UI.inputbar =
      ":set open".toList := by
  decide

/-- C19 (amended): with the candidates open and close in grp1 and quit in
grp2 and an empty filter, Next goes round the three rows of elements and
passes over the group rows: from the cursor on any of close, open, quit, three
times Next leaves the cursor on the same row, and four times Next leaves it
on the next row of an element; on the list not yet built, four times Next
ends on close, the row the first Next chose. -/
theorem next_cycles_over_items :
    (((fun s => isc_completion (sample_commands sample_completion) s { n := NEXT })^[1]
        (sample_parameter_session sample_completion)).Static.current_item = 1 ∧
     ((fun s => isc_completion (sample_commands sample_completion) s { n := NEXT })^[2]
        (sample_parameter_session sample_completion)).Static.current_item = 2 ∧
     ((fun s => isc_completion (sample_commands sample_completion) s { n := NEXT })^[3]
        (sample_parameter_session sample_completion)).Static.current_item = 4) ∧
    (((fun s => isc_completion (sample_commands sample_completion) s { n := NEXT })^[1 + 3]
        (sample_parameter_session sample_completion)).Static.current_item = 1 ∧
     ((fun s => isc_completion (sample_commands sample_completion) s { n := NEXT })^[2 + 3]
        (sample_parameter_session sample_completion)).Static.current_item = 2 ∧
     ((fun s => isc_completion (sample_commands sample_completion) s { n := NEXT })^[3 + 3]
        (sample_parameter_session sample_completion)).Static.current_item = 4) ∧
    (((fun s => isc_completion (sample_commands sample_completion) s { n := NEXT })^[1 + 4]
        (sample_parameter_session sample_completion)).Static.current_item = 2 ∧
     ((fun s => isc_completion (sample_commands sample_completion) s { n := NEXT })^[2 + 4]
        (sample_parameter_session sample_completion)).Static.current_item = 4 ∧
     ((fun s => isc_completion (sample_commands sample_completion) s { n := NEXT })^[3 + 4]
        (sample_parameter_session sample_completion)).Static.current_item = 1) ∧
    ((fun s => isc_completion (sample_commands sample_completion) s { n := NEXT })^[4]
        (sample_parameter_session sample_completion)).UI.inputbar = ":set close".toList := by
  decide

/-- The cursor loop alone does not keep the cursor off a group row: for a
completion function that gives its one group the value grp1 (no completion
function of zathura.c gives a group a value), the list first built by
NEXT_GROUP or by PREVIOUS_GROUP has the cursor on the group row, and the value
of the group is written to the inputbar. -/
lemma labelled_group_row_selected :
    (isc_completion (sample_commands sample_single_group)
      (sample_parameter_session sample_single_group) { n := NEXT_GROUP }).Static.rows.map
        (fun row => (row.command, row.is_group)) =
      [("grp1".toList, true), ("close".toList, false), ("open".toList, false)] ∧
    (isc_completion (sample_commands sample_single_group)
      (sample_parameter_session sample_single_group) { n := NEXT_GROUP }).Static.current_item
      = 0 ∧
    (isc_completion (sample_commands sample_single_group)
      (sample_parameter_session sample_single_group) { n := NEXT_GROUP }).UI.inputbar =
      ":set grp1".toList ∧
    (isc_completion (sample_commands sample_single_group)
      (sample_parameter_session sample_single_group) { n := PREVIOUS_GROUP }).UI.inputbar =
      ":set grp1".toList := by
  decide

lemma draw_document (z : Session) (page_id : Int) :
    (draw z page_id).PDF.document = z.PDF.document := by
  unfold draw
  split
  · rfl
  · split <;> rfl

lemma set_page_document (z : Session) (page : Int) :
    (set_page z page).PDF.document = z.PDF.document := by
  unfold set_page
  split
  · rfl
  · rw [draw_document]

/-- One sc_navigate with NEXT or PREVIOUS on an open document whose current
page is a page of the document. -/
lemma sc_navigate_step (z : Session) (argument : Argument)
    (hdoc : z.PDF.document.isSome = true) (hN : 1 ≤ z.PDF.number_of_pages)
    (hp : 0 ≤ z.PDF.page_number ∧ z.PDF.page_number < z.PDF.number_of_pages) :
    (sc_navigate z argument).PDF.document = z.PDF.document ∧
    (sc_navigate z argument).PDF.number_of_pages = z.PDF.number_of_pages ∧
    (argument.n = NEXT → (sc_navigate z argument).PDF.page_number =
      (z.PDF.page_number + 1) % z.PDF.number_of_pages) ∧
    (argument.n = PREVIOUS → (sc_navigate z argument).PDF.page_number =
      (z.PDF.page_number - 1) % z.PDF.number_of_pages) := by
  have hnone : ¬ z.PDF.document.isNone = true := by
    cases h : z.PDF.document with
    | none => rw [h] at hdoc; cases hdoc
    | some d => simp
  have hpos : (0 : Int) < z.PDF.number_of_pages := by omega
  unfold sc_navigate
  rw [if_neg hnone]
  dsimp only
  refine ⟨set_page_document _ _, set_page_number_of_pages _ _, ?_, ?_⟩
  · intro hn
    rw [if_pos hn, Int.tmod_eq_emod (by omega) (by omega)]
    have e : (z.PDF.page_number + z.PDF.number_of_pages + 1) % z.PDF.number_of_pages =
        (z.PDF.page_number + 1) % z.PDF.number_of_pages := by
      have : z.PDF.page_number + z.PDF.number_of_pages + 1 =
          z.PDF.page_number + 1 + z.PDF.number_of_pages := by ring
      rw [this, Int.add_emod_self]
    rw [e]
    apply set_page_accepted
    have h1 := Int.emod_nonneg (z.PDF.page_number + 1) (ne_of_gt hpos)
    have h2 := Int.emod_lt_of_pos (z.PDF.page_number + 1) hpos
    omega
  · intro hn
    have hne : ¬ argument.n = NEXT := by
      rw [hn]; decide
    rw [if_neg hne, if_pos hn, Int.tmod_eq_emod (by omega) (by omega)]
    have e : (z.PDF.page_number + z.PDF.number_of_pages - 1) % z.PDF.number_of_pages =
        (z.PDF.page_number - 1) % z.PDF.number_of_pages := by
      have : z.PDF.page_number + z.PDF.number_of_pages - 1 =
          z.PDF.page_number - 1 + z.PDF.number_of_pages := by ring
      rw [this, Int.add_emod_self]
    rw [e]
    apply set_page_accepted
    have h1 := Int.emod_nonneg (z.PDF.page_number - 1) (ne_of_gt hpos)
    have h2 := Int.emod_lt_of_pos (z.PDF.page_number - 1) hpos
    omega

/-- After k calls of sc_navigate with NEXT the page is the start page plus k,
modulo the page count. -/
lemma sc_navigate_iterate (next : Argument) (hnext : next.n = NEXT) (k : Nat) (z : Session)
    (hdoc : z.PDF.document.isSome = true) (hN : 1 ≤ z.PDF.number_of_pages)
    (hp : 0 ≤ z.PDF.page_number ∧ z.PDF.page_number < z.PDF.number_of_pages) :
    ((fun s => sc_navigate s next)^[k] z).PDF.document = z.PDF.document ∧
    ((fun s => sc_navigate s next)^[k] z).PDF.number_of_pages = z.PDF.number_of_pages ∧
    ((fun s => sc_navigate s next)^[k] z).PDF.page_number =
      (z.PDF.page_number + (k : Int)) % z.PDF.number_of_pages := by
  induction k with
  | zero =>
    refine ⟨rfl, rfl, ?_⟩
    simp only [Function.iterate_zero, id_eq, Nat.cast_zero, add_zero]
    rw [Int.emod_eq_of_lt hp.1 hp.2]
  | succ k ih =>
    obtain ⟨h1, h2, h3⟩ := ih
    rw [Function.iterate_succ_apply']
    have hpos : (0 : Int) < z.PDF.number_of_pages := by omega
    have hd : ((fun s => sc_navigate s next)^[k] z).PDF.document.isSome = true := by rw [h1]; exact hdoc
    have hn : 1 ≤ ((fun s => sc_navigate s next)^[k] z).PDF.number_of_pages := by rw [h2]; exact hN
    have hr : 0 ≤ ((fun s => sc_navigate s next)^[k] z).PDF.page_number ∧
        ((fun s => sc_navigate s next)^[k] z).PDF.page_number <
          ((fun s => sc_navigate s next)^[k] z).PDF.number_of_pages := by
      rw [h2, h3]
      exact ⟨Int.emod_nonneg _ (ne_of_gt hpos), Int.emod_lt_of_pos _ hpos⟩
    obtain ⟨s1, s2, s3, _⟩ := sc_navigate_step _ next hd hn hr
    refine ⟨s1.trans h1, s2.trans h2, ?_⟩
    rw [s3 hnext, h2, h3, Int.emod_add_emod]
    congr 1
    push_cast
    ring

/-- C29: on an open document with N >= 1 pages and current page p, 0 <= p < N,
sc_navigate with NEXT sets the page to (p+1) mod N and with PREVIOUS to
(p-1) mod N; both lie in 0..N-1; NEXT then PREVIOUS and PREVIOUS then NEXT
come back to p; and N calls with NEXT come back to p. -/
theorem sc_navigate_wraps (z : Session) (next previous : Argument)
    (hnext : next.n = NEXT) (hprevious : previous.n = PREVIOUS)
    (hdoc : z.PDF.document.isSome = true) (hN : 1 ≤ z.PDF.number_of_pages)
    (hp : 0 ≤ z.PDF.page_number ∧ z.PDF.page_number < z.PDF.number_of_pages) :
    (sc_navigate z next).PDF.page_number = (z.PDF.page_number + 1) % z.PDF.number_of_pages ∧
    (sc_navigate z previous).PDF.page_number =
      (z.PDF.page_number - 1) % z.PDF.number_of_pages ∧
    (0 ≤ (sc_navigate z next).PDF.page_number ∧
      (sc_navigate z next).PDF.page_number < z.PDF.number_of_pages) ∧
    (0 ≤ (sc_navigate z previous).PDF.page_number ∧
      (sc_navigate z previous).PDF.page_number < z.PDF.number_of_pages) ∧
    (sc_navigate (sc_navigate z next) previous).PDF.page_number = z.PDF.page_number ∧
    (sc_navigate (sc_navigate z previous) next).PDF.page_number = z.PDF.page_number ∧
    ((fun s => sc_navigate s next)^[z.PDF.number_of_pages.toNat] z).PDF.page_number =
      z.PDF.page_number := by
  have hpos : (0 : Int) < z.PDF.number_of_pages := by omega
  obtain ⟨n1, n2, n3, _⟩ := sc_navigate_step z next hdoc hN hp
  obtain ⟨p1, p2, _, p4⟩ := sc_navigate_step z previous hdoc hN hp
  have hn3 := n3 hnext
  have hp4 := p4 hprevious
  have rn : 0 ≤ (sc_navigate z next).PDF.page_number ∧
      (sc_navigate z next).PDF.page_number < z.PDF.number_of_pages := by
    rw [hn3]
    exact ⟨Int.emod_nonneg _ (ne_of_gt hpos), Int.emod_lt_of_pos _ hpos⟩
  have rp : 0 ≤ (sc_navigate z previous).PDF.page_number ∧
      (sc_navigate z previous).PDF.page_number < z.PDF.number_of_pages := by
    rw [hp4]
    exact ⟨Int.emod_nonneg _ (ne_of_gt hpos), Int.emod_lt_of_pos _ hpos⟩
  refine ⟨hn3, hp4, rn, rp, ?_, ?_, ?_⟩
  · obtain ⟨_, _, _, q4⟩ := sc_navigate_step (sc_navigate z next) previous
      (by rw [n1]; exact hdoc) (by rw [n2]; exact hN) (by rw [n2]; exact rn)
    rw [q4 hprevious, n2, hn3, Int.sub_eq_add_neg, Int.emod_add_emod, ← Int.sub_eq_add_neg]
    rw [show z.PDF.page_number + 1 - 1 = z.PDF.page_number by ring]
    exact Int.emod_eq_of_lt hp.1 hp.2
  · obtain ⟨_, _, q3, _⟩ := sc_navigate_step (sc_navigate z previous) next
      (by rw [p1]; exact hdoc) (by rw [p2]; exact hN) (by rw [p2]; exact rp)
    rw [q3 hnext, p2, hp4, Int.emod_add_emod]
    rw [show z.PDF.page_number - 1 + 1 = z.PDF.page_number by ring]
    exact Int.emod_eq_of_lt hp.1 hp.2
  · rw [(sc_navigate_iterate next hnext _ z hdoc hN hp).2.2, Int.toNat_of_nonneg (by omega),
      Int.add_emod_self]
    exact Int.emod_eq_of_lt hp.1 hp.2

/-- C29 on the sample document of 3 pages, from its first page. -/
theorem sc_navigate_wraps_witness :
    (sc_navigate (sample_session [false, false, false]) { n := NEXT }).PDF.page_number =
      ((sample_session [false, false, false]).PDF.page_number + 1) %
        (sample_session [false, false, false]).PDF.number_of_pages ∧
    (sc_navigate (sample_session [false, false, false]) { n := PREVIOUS }).PDF.page_number = 2 :=
  have h := sc_navigate_wraps (sample_session [false, false, false]) { n := NEXT }
    { n := PREVIOUS } rfl rfl (by decide) (by decide) (by decide)
  ⟨h.1, h.2.1.trans (by decide)⟩

/-! ## The page transform -/

/-- The device point of a page point under the matrix of draw, for the four
rotations. -/
lemma draw_point_eq (rotate : Int) (s W H : ℚ) (p : ℚ × ℚ) :
    (rotate = 0 → draw_point rotate s W H p = some (s * p.1, s * p.2)) ∧
    (rotate = 90 → draw_point rotate s W H p = some (H * s - s * p.2, s * p.1)) ∧
    (rotate = 180 → draw_point rotate s W H p = some (W * s - s * p.1, H * s - s * p.2)) ∧
    (rotate = 270 → draw_point rotate s W H p = some (s * p.2, W * s - s * p.1)) := by
  refine ⟨?_, ?_, ?_, ?_⟩ <;> intro h <;> subst h <;> by_cases hs : s = 1 <;>
    simp [draw_point, draw_matrix, draw_size, quarter_turn, cairo_translate, cairo_scale,
      cairo_rotate, cairo_matrix_transform_point, hs] <;>
    first
      | ring1
      | exact ⟨by ring1, by ring1⟩

/-- C28: for a rotation among 0, 90, 180, 270, a positive scale s and a page of
size (W, H), the matrix draw builds (translation by (width, 0) at 90, by
(width, height) at 180, by (0, height) at 270, then the scaling, then the
quarter turn) takes the page rectangle [0, W] x [0, H] onto exactly the canvas
rectangle [0, width] x [0, height], with (width, height) the display size that
draw computes: every page point lands in the canvas and every canvas point is
the image of a page point. -/
theorem draw_page_onto_canvas (rotate : Int) (s W H : ℚ)
    (hR : rotate = 0 ∨ rotate = 90 ∨ rotate = 180 ∨ rotate = 270) (hs : 0 < s) :
    ∃ m, draw_matrix rotate s (draw_size rotate s W H).1 (draw_size rotate s W H).2 = some m ∧
      ∀ q : ℚ × ℚ,
        (0 ≤ q.1 ∧ q.1 ≤ (draw_size rotate s W H).1 ∧
          0 ≤ q.2 ∧ q.2 ≤ (draw_size rotate s W H).2) ↔
        ∃ p : ℚ × ℚ, (0 ≤ p.1 ∧ p.1 ≤ W ∧ 0 ≤ p.2 ∧ p.2 ≤ H) ∧
          cairo_matrix_transform_point m p = q := by
  have key : ∀ f : ℚ × ℚ → ℚ × ℚ,
      (∀ p, draw_point rotate s W H p = some (f p)) →
      ∃ m, draw_matrix rotate s (draw_size rotate s W H).1 (draw_size rotate s W H).2 = some m ∧
        ∀ p, cairo_matrix_transform_point m p = f p := by
    intro f hf
    cases hm : draw_matrix rotate s (draw_size rotate s W H).1 (draw_size rotate s W H).2 with
    | none =>
      have := hf (0, 0)
      simp [draw_point, hm] at this
    | some m =>
      refine ⟨m, rfl, fun p => ?_⟩
      have := hf p
      simpa [draw_point, hm] using this
  have hs' : s ≠ 0 := ne_of_gt hs
  rcases hR with h | h | h | h
  · obtain ⟨m, hm, hap⟩ := key (fun p => (s * p.1, s * p.2))
      (fun p => (draw_point_eq rotate s W H p).1 h)
    refine ⟨m, hm, fun q => ?_⟩
    subst h
    simp only [draw_size, true_or, if_true]
    constructor
    · rintro ⟨h1, h2, h3, h4⟩
      refine ⟨(q.1 / s, q.2 / s), ⟨by positivity, ?_, by positivity, ?_⟩, ?_⟩
      · rw [div_le_iff₀ hs]; exact h2
      · rw [div_le_iff₀ hs]; exact h4
      · rw [hap]
        ext <;> simp <;> field_simp
    · rintro ⟨p, ⟨h1, h2, h3, h4⟩, rfl⟩
      rw [hap]
      refine ⟨by positivity, ?_, by positivity, ?_⟩ <;> simp only <;> nlinarith
  · obtain ⟨m, hm, hap⟩ := key (fun p => (H * s - s * p.2, s * p.1))
      (fun p => (draw_point_eq rotate s W H p).2.1 h)
    refine ⟨m, hm, fun q => ?_⟩
    subst h
    simp only [draw_size, show ¬ ((90 : Int) = 0 ∨ (90 : Int) = 180) by decide, if_false]
    constructor
    · rintro ⟨h1, h2, h3, h4⟩
      refine ⟨(q.2 / s, (H * s - q.1) / s), ⟨by positivity, ?_, ?_, ?_⟩, ?_⟩
      · rw [div_le_iff₀ hs]; exact h4
      · apply div_nonneg _ hs.le; linarith
      · rw [div_le_iff₀ hs]; linarith
      · rw [hap]
        ext <;> simp <;> field_simp
    · rintro ⟨p, ⟨h1, h2, h3, h4⟩, rfl⟩
      rw [hap]
      refine ⟨?_, ?_, by positivity, ?_⟩ <;> simp only <;> nlinarith
  · obtain ⟨m, hm, hap⟩ := key (fun p => (W * s - s * p.1, H * s - s * p.2))
      (fun p => (draw_point_eq rotate s W H p).2.2.1 h)
    refine ⟨m, hm, fun q => ?_⟩
    subst h
    simp only [draw_size, or_true, if_true]
    constructor
    · rintro ⟨h1, h2, h3, h4⟩
      refine ⟨((W * s - q.1) / s, (H * s - q.2) / s), ⟨?_, ?_, ?_, ?_⟩, ?_⟩
      · apply div_nonneg _ hs.le; linarith
      · rw [div_le_iff₀ hs]; linarith
      · apply div_nonneg _ hs.le; linarith
      · rw [div_le_iff₀ hs]; linarith
      · rw [hap]
        ext <;> simp <;> field_simp
    · rintro ⟨p, ⟨h1, h2, h3, h4⟩, rfl⟩
      rw [hap]
      refine ⟨?_, ?_, ?_, ?_⟩ <;> simp only <;> nlinarith
  · obtain ⟨m, hm, hap⟩ := key (fun p => (s * p.2, W * s - s * p.1))
      (fun p => (draw_point_eq rotate s W H p).2.2.2 h)
    refine ⟨m, hm, fun q => ?_⟩
    subst h
    simp only [draw_size, show ¬ ((270 : Int) = 0 ∨ (270 : Int) = 180) by decide, if_false]
    constructor
    · rintro ⟨h1, h2, h3, h4⟩
      refine ⟨((W * s - q.2) / s, q.1 / s), ⟨?_, ?_, by positivity, ?_⟩, ?_⟩
      · apply div_nonneg _ hs.le; linarith
      · rw [div_le_iff₀ hs]; linarith
      · rw [div_le_iff₀ hs]; exact h2
      · rw [hap]
        ext <;> simp <;> field_simp
    · rintro ⟨p, ⟨h1, h2, h3, h4⟩, rfl⟩
      rw [hap]
      refine ⟨by positivity, ?_, ?_, ?_⟩ <;> simp only <;> nlinarith

/-- Witness of C28: a page of 612 by 792 points at rotation 90 and scale one
half. -/
theorem draw_page_onto_canvas_witness :
    ∃ m, draw_matrix 90 (1 / 2) (draw_size 90 (1 / 2) 612 792).1
        (draw_size 90 (1 / 2) 612 792).2 = some m ∧
      ∀ q : ℚ × ℚ,
        (0 ≤ q.1 ∧ q.1 ≤ (draw_size 90 (1 / 2) 612 792).1 ∧
          0 ≤ q.2 ∧ q.2 ≤ (draw_size 90 (1 / 2) 612 792).2) ↔
        ∃ p : ℚ × ℚ, (0 ≤ p.1 ∧ p.1 ≤ 612 ∧ 0 ≤ p.2 ∧ p.2 ≤ 792) ∧
          cairo_matrix_transform_point m p = q :=
  draw_page_onto_canvas 90 (1 / 2) 612 792 (by decide) (by norm_num)

/-- The image of an interval under t = k u + c with k not 0: t lies between
the images A, B of the ends a, b exactly when u lies between a and b. -/
lemma interval_image (k c a b t A B : ℚ) (hk : k ≠ 0) (hA : A = k * a + c)
    (hB : B = k * b + c) :
    (min A B ≤ t ∧ t ≤ max A B) ↔ (min a b ≤ (t - c) / k ∧ (t - c) / k ≤ max a b) := by
  subst hA hB
  simp only [min_le_iff, le_max_iff]
  rcases lt_or_gt_of_ne hk with hneg | hpos
  · have e1 : ∀ x : ℚ, k * x + c ≤ t ↔ (t - c) / k ≤ x := by
      intro x
      rw [div_le_iff_of_neg hneg]
      constructor <;> intro h <;> linarith
    have e2 : ∀ x : ℚ, t ≤ k * x + c ↔ x ≤ (t - c) / k := by
      intro x
      rw [le_div_iff_of_neg hneg]
      constructor <;> intro h <;> linarith
    rw [e1, e1, e2, e2]
    exact and_comm
  · have e1 : ∀ x : ℚ, k * x + c ≤ t ↔ x ≤ (t - c) / k := by
      intro x
      rw [le_div_iff₀ hpos]
      constructor <;> intro h <;> linarith
    have e2 : ∀ x : ℚ, t ≤ k * x + c ↔ (t - c) / k ≤ x := by
      intro x
      rw [div_le_iff₀ hpos]
      constructor <;> intro h <;> linarith
    rw [e1, e1, e2, e2]

/-- Where draw paints a point of document space, for the four rotations. -/
lemma draw_page_point (rotate : Int) (s W H : ℚ) (p : ℚ × ℚ) :
    (rotate = 0 → draw_point rotate s W H (page_point H p) =
      some (s * p.1 + 0, -s * p.2 + H * s)) ∧
    (rotate = 90 → draw_point rotate s W H (page_point H p) =
      some (s * p.2 + 0, s * p.1 + 0)) ∧
    (rotate = 180 → draw_point rotate s W H (page_point H p) =
      some (-s * p.1 + W * s, s * p.2 + 0)) ∧
    (rotate = 270 → draw_point rotate s W H (page_point H p) =
      some (-s * p.2 + H * s, -s * p.1 + W * s)) := by
  obtain ⟨h0, h1, h2, h3⟩ := draw_point_eq rotate s W H (page_point H p)
  refine ⟨fun h => ?_, fun h => ?_, fun h => ?_, fun h => ?_⟩
  · rw [h0 h]
    simp only [page_point, Option.some.injEq, Prod.mk.injEq]
    exact ⟨by ring, by ring⟩
  · rw [h1 h]
    simp only [page_point, Option.some.injEq, Prod.mk.injEq]
    exact ⟨by ring, by ring⟩
  · rw [h2 h]
    simp only [page_point, Option.some.injEq, Prod.mk.injEq]
    exact ⟨by ring, by ring⟩
  · rw [h3 h]
    simp only [page_point, Option.some.injEq, Prod.mk.injEq]
    exact ⟨by ring, by ring⟩

/-- The region between two corners whose coordinates are images under
q.1 = k1 u + c1 and q.2 = k2 v + c2 of the ends of two intervals is the image
of the product of the intervals. -/
lemma region_image (k1 c1 k2 c2 a1 b1 a2 b2 X1 Y1 X2 Y2 : ℚ) (hk1 : k1 ≠ 0) (hk2 : k2 ≠ 0)
    (hX1 : X1 = k1 * a1 + c1) (hX2 : X2 = k1 * b1 + c1)
    (hY1 : Y1 = k2 * a2 + c2) (hY2 : Y2 = k2 * b2 + c2) (q : ℚ × ℚ) :
    in_region X1 Y1 X2 Y2 q ↔
      ∃ u v : ℚ, (min a1 b1 ≤ u ∧ u ≤ max a1 b1 ∧ min a2 b2 ≤ v ∧ v ≤ max a2 b2) ∧
        (k1 * u + c1, k2 * v + c2) = q := by
  have ex := interval_image k1 c1 a1 b1 q.1 X1 X2 hk1 hX1 hX2
  have ey := interval_image k2 c2 a2 b2 q.2 Y1 Y2 hk2 hY1 hY2
  unfold in_region
  constructor
  · rintro ⟨h1, h2, h3, h4⟩
    obtain ⟨u1, u2⟩ := ex.mp ⟨h1, h2⟩
    obtain ⟨v1, v2⟩ := ey.mp ⟨h3, h4⟩
    refine ⟨(q.1 - c1) / k1, (q.2 - c2) / k2, ⟨u1, u2, v1, v2⟩, ?_⟩
    ext
    · show k1 * ((q.1 - c1) / k1) + c1 = q.1
      field_simp
    · show k2 * ((q.2 - c2) / k2) + c2 = q.2
      field_simp
  · rintro ⟨u, v, ⟨u1, u2, v1, v2⟩, rfl⟩
    have eu : (k1 * u + c1 - c1) / k1 = u := by field_simp
    have ev : (k2 * v + c2 - c2) / k2 = v := by field_simp
    have hx := ex.mpr (by rw [eu]; exact ⟨u1, u2⟩)
    have hy := ey.mpr (by rw [ev]; exact ⟨v1, v2⟩)
    exact ⟨hx.1, hx.2, hy.1, hy.2⟩

/-- C27: for a rotation among 0, 90, 180, 270, a positive scale and a page of
size (W, H), the rectangle recalcRectangle produces from a rectangle of
document space (origin at the bottom left, so (x, y) sits at (x, H - y) in
page space) has as its corners (x1, y1) and (x2, y2) the points where the
matrix of draw paints two opposite corners of the given rectangle, and the
region between them is exactly the image under that matrix of the region of
the given rectangle. -/
theorem recalcRectangle_follows_draw (z : Session) (page_id : Int) (current_page : Page)
    (r : PopplerRectangle) (hp : array_at z.PDF.pages page_id = some current_page)
    (hR : z.PDF.rotate = 0 ∨ z.PDF.rotate = 90 ∨ z.PDF.rotate = 180 ∨ z.PDF.rotate = 270)
    (hs : 0 < z.PDF.scale) :
    ∃ r', recalcRectangle z page_id r = some r' ∧
      (∃ a b : ℚ × ℚ,
        (a.1 = r.x1 ∨ a.1 = r.x2) ∧ (a.2 = r.y1 ∨ a.2 = r.y2) ∧
        b = (r.x1 + r.x2 - a.1, r.y1 + r.y2 - a.2) ∧
        draw_point z.PDF.rotate ((z.PDF.scale : ℚ) / 100) current_page.page.width
          current_page.page.height (page_point current_page.page.height a) =
            some (r'.x1, r'.y1) ∧
        draw_point z.PDF.rotate ((z.PDF.scale : ℚ) / 100) current_page.page.width
          current_page.page.height (page_point current_page.page.height b) =
            some (r'.x2, r'.y2)) ∧
      (∀ q : ℚ × ℚ, in_region r'.x1 r'.y1 r'.x2 r'.y2 q ↔
        ∃ p : ℚ × ℚ, in_region r.x1 r.y1 r.x2 r.y2 p ∧
          draw_point z.PDF.rotate ((z.PDF.scale : ℚ) / 100) current_page.page.width
            current_page.page.height (page_point current_page.page.height p) = some q) := by
  have hs0 : (0 : ℚ) < (z.PDF.scale : ℚ) / 100 := by
    have : (0 : ℚ) < (z.PDF.scale : ℚ) := by exact_mod_cast hs
    positivity
  have hs1 : (z.PDF.scale : ℚ) / 100 ≠ 0 := ne_of_gt hs0
  have hs2 : -((z.PDF.scale : ℚ) / 100) ≠ 0 := neg_ne_zero.mpr hs1
  have hrec : recalcRectangle z page_id r = some (recalc z.PDF.rotate ((z.PDF.scale : ℚ) / 100)
      current_page.page.width current_page.page.height r) := by
    simp [recalcRectangle, hp, poppler_page_get_size]
  refine ⟨_, hrec, ?_⟩
  generalize (z.PDF.scale : ℚ) / 100 = s at hs0 hs1 hs2
  generalize current_page.page.width = W
  generalize current_page.page.height = H
  generalize z.PDF.rotate = R at hR
  rcases hR with h | h | h | h
  · have hd := fun p => (draw_page_point R s W H p).1 h
    subst h
    refine ⟨⟨(r.x1, r.y1), (r.x2, r.y2), Or.inl rfl, Or.inl rfl, ?_, ?_, ?_⟩, fun q => ?_⟩
    · ext <;> simp
    · rw [hd]
      simp only [recalc, Option.some.injEq, Prod.mk.injEq]
      norm_num
      exact ⟨by ring, by ring⟩
    · rw [hd]
      simp only [recalc, Option.some.injEq, Prod.mk.injEq]
      norm_num
      exact ⟨by ring, by ring⟩
    · rw [region_image s 0 (-s) (H * s) r.x1 r.x2 r.y1 r.y2 _ _ _ _ hs1 hs2
        (by simp [recalc]; ring) (by simp [recalc]; ring) (by simp [recalc]; ring)
        (by simp [recalc]; ring) q]
      constructor
      · rintro ⟨u, v, huv, rfl⟩
        exact ⟨(u, v), huv, hd (u, v)⟩
      · rintro ⟨p, hp1, hp2⟩
        rw [hd] at hp2
        exact ⟨p.1, p.2, hp1, Option.some.inj hp2⟩
  · have hd := fun p => (draw_page_point R s W H p).2.1 h
    subst h
    refine ⟨⟨(r.x1, r.y2), (r.x2, r.y1), Or.inl rfl, Or.inr rfl, ?_, ?_, ?_⟩, fun q => ?_⟩
    · ext <;> simp
    · rw [hd]
      simp only [recalc, Option.some.injEq, Prod.mk.injEq]
      norm_num
      exact ⟨by ring, by ring⟩
    · rw [hd]
      simp only [recalc, Option.some.injEq, Prod.mk.injEq]
      norm_num
      exact ⟨by ring, by ring⟩
    · rw [region_image s 0 s 0 r.y2 r.y1 r.x1 r.x2 _ _ _ _ hs1 hs1
        (by simp [recalc]; ring) (by simp [recalc]; ring) (by simp [recalc]; ring)
        (by simp [recalc]; ring) q]
      constructor
      · rintro ⟨u, v, ⟨h1, h2, h3, h4⟩, rfl⟩
        refine ⟨(v, u), ⟨h3, h4, ?_, ?_⟩, hd (v, u)⟩
        · rw [min_comm]; exact h1
        · rw [max_comm]; exact h2
      · rintro ⟨p, ⟨h1, h2, h3, h4⟩, hp2⟩
        rw [hd] at hp2
        refine ⟨p.2, p.1, ⟨?_, ?_, h1, h2⟩, Option.some.inj hp2⟩
        · rw [min_comm]; exact h3
        · rw [max_comm]; exact h4
  · have hd := fun p => (draw_page_point R s W H p).2.2.1 h
    subst h
    refine ⟨⟨(r.x2, r.y2), (r.x1, r.y1), Or.inr rfl, Or.inr rfl, ?_, ?_, ?_⟩, fun q => ?_⟩
    · ext <;> simp
    · rw [hd]
      simp only [recalc, Option.some.injEq, Prod.mk.injEq]
      norm_num
      exact ⟨by ring, by ring⟩
    · rw [hd]
      simp only [recalc, Option.some.injEq, Prod.mk.injEq]
      norm_num
      exact ⟨by ring, by ring⟩
    · rw [region_image (-s) (W * s) s 0 r.x2 r.x1 r.y2 r.y1 _ _ _ _ hs2 hs1
        (by simp [recalc]; ring) (by simp [recalc]; ring) (by simp [recalc]; ring)
        (by simp [recalc]; ring) q]
      constructor
      · rintro ⟨u, v, ⟨h1, h2, h3, h4⟩, rfl⟩
        refine ⟨(u, v), ⟨?_, ?_, ?_, ?_⟩, hd (u, v)⟩
        · rw [min_comm]; exact h1
        · rw [max_comm]; exact h2
        · rw [min_comm]; exact h3
        · rw [max_comm]; exact h4
      · rintro ⟨p, ⟨h1, h2, h3, h4⟩, hp2⟩
        rw [hd] at hp2
        refine ⟨p.1, p.2, ⟨?_, ?_, ?_, ?_⟩, Option.some.inj hp2⟩
        · rw [min_comm]; exact h1
        · rw [max_comm]; exact h2
        · rw [min_comm]; exact h3
        · rw [max_comm]; exact h4
  · have hd := fun p => (draw_page_point R s W H p).2.2.2 h
    subst h
    refine ⟨⟨(r.x2, r.y1), (r.x1, r.y2), Or.inr rfl, Or.inl rfl, ?_, ?_, ?_⟩, fun q => ?_⟩
    · ext <;> simp
    · rw [hd]
      simp only [recalc, Option.some.injEq, Prod.mk.injEq]
      norm_num
      exact ⟨by ring, by ring⟩
    · rw [hd]
      simp only [recalc, Option.some.injEq, Prod.mk.injEq]
      norm_num
      exact ⟨by ring, by ring⟩
    · rw [region_image (-s) (H * s) (-s) (W * s) r.y1 r.y2 r.x2 r.x1 _ _ _ _ hs2 hs2
        (by simp [recalc]; ring) (by simp [recalc]; ring) (by simp [recalc]; ring)
        (by simp [recalc]; ring) q]
      constructor
      · rintro ⟨u, v, ⟨h1, h2, h3, h4⟩, rfl⟩
        refine ⟨(v, u), ⟨?_, ?_, h1, h2⟩, hd (v, u)⟩
        · rw [min_comm]; exact h3
        · rw [max_comm]; exact h4
      · rintro ⟨p, ⟨h1, h2, h3, h4⟩, hp2⟩
        rw [hd] at hp2
        refine ⟨p.2, p.1, ⟨h3, h4, ?_, ?_⟩, Option.some.inj hp2⟩
        · rw [min_comm]; exact h1
        · rw [max_comm]; exact h2

/-- Witness of C27: page 0 of a one-page session at scale 100 and rotation 0,
with a sample rectangle. -/
theorem recalcRectangle_follows_draw_witness :
    ∃ r', recalcRectangle (sample_session [false]) 0
        { x1 := 10, y1 := 20, x2 := 30, y2 := 40 } = some r' ∧
      ∃ a b : ℚ × ℚ,
        (a.1 = 10 ∨ a.1 = 30) ∧ (a.2 = 20 ∨ a.2 = 40) ∧
        b = (10 + 30 - a.1, 20 + 40 - a.2) ∧
        draw_point 0 ((100 : ℚ) / 100) 612 792 (page_point 792 a) = some (r'.x1, r'.y1) ∧
        draw_point 0 ((100 : ℚ) / 100) 612 792 (page_point 792 b) = some (r'.x2, r'.y2) :=
  (recalcRectangle_follows_draw (sample_session [false]) 0
    { page := sample_page false, id := 1, label := sample_label 1 }
    { x1 := 10, y1 := 20, x2 := 30, y2 := 40 } (by rfl) (Or.inl (by rfl)) (by decide)).imp
    (fun _ h => ⟨h.1, h.2.1⟩)

/-! ## Bookmarks -/

lemma bookmark_id_loop_succ (rest : List (List Char)) (i : Nat) (id : List Char) :
    bookmark_id_loop (i + 1) rest id = id ++ (rest.map (fun a => ' ' :: a)).flatten := by
  induction rest generalizing i id with
  | nil => simp [bookmark_id_loop]
  | cons a rest ih =>
    simp [bookmark_id_loop, ih]

lemma intercalate_space (a : List Char) (rest : List (List Char)) :
    List.intercalate [' '] (a :: rest) = a ++ (rest.map (fun a => ' ' :: a)).flatten := by
  induction rest generalizing a with
  | nil => simp [List.intercalate]
  | cons b rest ih =>
    have := ih b
    simp [List.intercalate] at this ⊢
    rw [this]

/-- The id of the bookmark commands is the arguments joined with one space
between neighbours. -/
lemma bookmark_id_eq (argv : List (List Char)) :
    bookmark_id argv = List.intercalate [' '] argv := by
  cases argv with
  | nil => simp [bookmark_id, bookmark_id_loop, List.intercalate]
  | cons a rest =>
    rw [intercalate_space]
    simp [bookmark_id, bookmark_id_loop, bookmark_id_loop_succ]

lemma bookmarks_update_none (bs : List Bookmark) (id : List Char) (p : Int)
    (h : id ∉ bs.map Bookmark.id) : bookmarks_update bs id p = none := by
  induction bs with
  | nil => rfl
  | cons b bs ih =>
    simp only [List.map_cons, List.mem_cons, not_or] at h
    simp [bookmarks_update, h.1, ih h.2]

lemma bookmarks_update_some (bs : List Bookmark) (id : List Char) (p : Int)
    (h : id ∈ bs.map Bookmark.id) (hnd : (bs.map Bookmark.id).Nodup) :
    bookmarks_update bs id p =
      some (bs.map (fun b => if b.id = id then { b with page := p } else b)) := by
  induction bs with
  | nil => simp at h
  | cons b bs ih =>
    simp only [List.map_cons, List.nodup_cons] at hnd
    by_cases hb : id = b.id
    · have hrest : ∀ c ∈ bs, (if c.id = id then { c with page := p } else c) = c := by
        intro c hc
        have : c.id ≠ id := by
          intro e
          apply hnd.1
          rw [← hb, ← e]
          exact List.mem_map_of_mem _ hc
        rw [if_neg this]
      have hmap : bs.map (fun b => if b.id = id then { b with page := p } else b) = bs := by
        conv_rhs => rw [← List.map_id bs]
        exact List.map_congr_left (fun c hc => hrest c hc)
      simp only [bookmarks_update, if_pos hb, List.map_cons, if_pos hb.symm, hmap]
    · have hin : id ∈ bs.map Bookmark.id := by
        simp only [List.map_cons, List.mem_cons] at h
        rcases h with h | h
        · exact absurd h hb
        · exact h
      simp only [bookmarks_update, if_neg hb, ih hin hnd.2, Option.map_some', List.map_cons,
        if_neg (Ne.symm hb)]

lemma bookmarks_overwrite_ids (bs : List Bookmark) (id : List Char) (p : Int) :
    (bs.map (fun b => if b.id = id then { b with page := p } else b)).map Bookmark.id =
      bs.map Bookmark.id := by
  rw [List.map_map]
  apply List.map_congr_left
  intro b _
  by_cases h : b.id = id <;> simp [h]

lemma bookmarks_overwrite_find (bs : List Bookmark) (id : List Char) (p : Int)
    (h : id ∈ bs.map Bookmark.id) :
    ∃ b, (bs.map (fun b => if b.id = id then { b with page := p } else b)).find?
      (fun b => id = b.id) = some b ∧ b.page = p := by
  induction bs with
  | nil => simp at h
  | cons c bs ih =>
    by_cases hc : c.id = id
    · refine ⟨{ c with page := p }, ?_, rfl⟩
      simp [hc]
    · have hin : id ∈ bs.map Bookmark.id := by
        simp only [List.map_cons, List.mem_cons] at h
        rcases h with h | h
        · exact absurd h.symm hc
        · exact h
      obtain ⟨b, hb, hp⟩ := ih hin
      refine ⟨b, ?_, hp⟩
      simp only [List.map_cons, if_neg hc, List.find?_cons]
      have : decide (id = c.id) = false := by
        simp only [decide_eq_false_iff_not]
        exact fun e => hc e.symm
      rw [this]
      exact hb

lemma bookmarks_find_none (bs : List Bookmark) (id : List Char)
    (h : id ∉ bs.map Bookmark.id) : bs.find? (fun b => id = b.id) = none := by
  rw [List.find?_eq_none]
  intro b hb
  simp only [decide_eq_true_eq]
  intro e
  exact h (e ▸ List.mem_map_of_mem _ hb)

/-- C23: on an open document, with pairwise distinct ids in the bookmark list
and at least one argument, cmd_bookmark builds the id by joining the arguments
with single spaces; when a bookmark has that id, the list stays as long and
only that entry changes, its page becoming the current page; otherwise exactly
the entry (id, current page) is appended; the ids stay pairwise distinct; and
cmd_open_bookmark with the same arguments, in any later session that has this
bookmark list and an open document in which the bookmarked page is accepted,
sets the current page to the bookmarked page. -/
theorem cmd_bookmark_unique (z : Session) (argv : List (List Char))
    (hdoc : z.PDF.document.isSome = true) (hargv : argv ≠ [])
    (hnd : (z.Bookmarks.bookmarks.map Bookmark.id).Nodup) :
    bookmark_id argv = List.intercalate [' '] argv ∧
    (cmd_bookmark z argv).2 = true ∧
    (bookmark_id argv ∈ z.Bookmarks.bookmarks.map Bookmark.id →
      (cmd_bookmark z argv).1.Bookmarks.bookmarks.length = z.Bookmarks.bookmarks.length ∧
      (cmd_bookmark z argv).1.Bookmarks.bookmarks =
        z.Bookmarks.bookmarks.map (fun b =>
          if b.id = bookmark_id argv then { b with page := z.PDF.page_number } else b)) ∧
    (bookmark_id argv ∉ z.Bookmarks.bookmarks.map Bookmark.id →
      (cmd_bookmark z argv).1.Bookmarks.bookmarks =
        z.Bookmarks.bookmarks ++ [{ id := bookmark_id argv, page := z.PDF.page_number }]) ∧
    ((cmd_bookmark z argv).1.Bookmarks.bookmarks.map Bookmark.id).Nodup ∧
    (cmd_bookmark z argv).1.PDF.page_number = z.PDF.page_number ∧
    (∀ later : Session,
      later.Bookmarks.bookmarks = (cmd_bookmark z argv).1.Bookmarks.bookmarks →
      later.PDF.document.isSome = true →
      (0 ≤ z.PDF.page_number ∧ z.PDF.page_number ≤ later.PDF.number_of_pages) →
      (cmd_open_bookmark later argv).2 = true ∧
      (cmd_open_bookmark later argv).1.PDF.page_number = z.PDF.page_number) := by
  have hguard : ¬ (z.PDF.document.isNone = true ∨ argv.length < 1) := by
    intro h
    rcases h with h | h
    · cases hd : z.PDF.document with
      | none => rw [hd] at hdoc; cases hdoc
      | some d => rw [hd] at h; cases h
    · cases argv with
      | nil => exact hargv rfl
      | cons a rest => simp at h
  have hlen : ¬ argv.length < 1 := fun h => hguard (Or.inr h)
  -- the list after cmd_bookmark, in the two cases
  have hin : bookmark_id argv ∈ z.Bookmarks.bookmarks.map Bookmark.id →
      cmd_bookmark z argv =
        ({ z with Bookmarks := { z.Bookmarks with
            bookmarks := z.Bookmarks.bookmarks.map (fun b =>
              if b.id = bookmark_id argv then { b with page := z.PDF.page_number } else b) } },
          true) := by
    intro h
    unfold cmd_bookmark
    rw [if_neg hguard]
    simp only [bookmarks_update_some _ _ _ h hnd]
  have hout : bookmark_id argv ∉ z.Bookmarks.bookmarks.map Bookmark.id →
      cmd_bookmark z argv =
        ({ z with Bookmarks := { z.Bookmarks with
            bookmarks := z.Bookmarks.bookmarks ++
              [{ id := bookmark_id argv, page := z.PDF.page_number }] } }, true) := by
    intro h
    unfold cmd_bookmark
    rw [if_neg hguard]
    simp only [bookmarks_update_none _ _ _ h]
  have hfind : ∃ b, (cmd_bookmark z argv).1.Bookmarks.bookmarks.find?
      (fun b => bookmark_id argv = b.id) = some b ∧ b.page = z.PDF.page_number := by
    by_cases h : bookmark_id argv ∈ z.Bookmarks.bookmarks.map Bookmark.id
    · rw [hin h]
      exact bookmarks_overwrite_find _ _ _ h
    · rw [hout h]
      refine ⟨{ id := bookmark_id argv, page := z.PDF.page_number }, ?_, rfl⟩
      simp only [List.find?_append, bookmarks_find_none _ _ h, Option.none_or]
      simp
  refine ⟨bookmark_id_eq argv, ?_, ?_, ?_, ?_, ?_, ?_⟩
  · by_cases h : bookmark_id argv ∈ z.Bookmarks.bookmarks.map Bookmark.id
    · rw [hin h]
    · rw [hout h]
  · intro h
    rw [hin h]
    exact ⟨by simp, rfl⟩
  · intro h
    rw [hout h]
  · by_cases h : bookmark_id argv ∈ z.Bookmarks.bookmarks.map Bookmark.id
    · rw [hin h]
      simp only [bookmarks_overwrite_ids]
      exact hnd
    · rw [hout h]
      simp only [List.map_append, List.map_cons, List.map_nil]
      rw [List.nodup_append]
      refine ⟨hnd, List.nodup_singleton _, ?_⟩
      intro a ha hb
      simp only [List.mem_singleton] at hb
      exact h (hb ▸ ha)
  · by_cases h : bookmark_id argv ∈ z.Bookmarks.bookmarks.map Bookmark.id
    · rw [hin h]
    · rw [hout h]
  · intro later hbs hld hpage
    obtain ⟨b, hb, hbp⟩ := hfind
    have hg : ¬ (later.PDF.document.isNone = true ∨ argv.length < 1) := by
      intro h
      rcases h with h | h
      · cases hd : later.PDF.document with
        | none => rw [hd] at hld; cases hld
        | some d => rw [hd] at h; cases h
      · exact hlen h
    unfold cmd_open_bookmark
    rw [if_neg hg]
    simp only [hbs, hb]
    exact ⟨trivial, by rw [hbp]; exact set_page_accepted _ _ hpage⟩

/-- Witness of C23: the bookmark my mark on the sample document of 3 pages,
which has no bookmark yet. -/
theorem cmd_bookmark_unique_witness :
    bookmark_id ["my".toList, "mark".toList] = "my mark".toList ∧
    (cmd_bookmark (sample_session [false, false, false])
      ["my".toList, "mark".toList]).1.Bookmarks.bookmarks =
      [{ id := "my mark".toList, page := 0 }] :=
  have h := cmd_bookmark_unique (sample_session [false, false, false])
    ["my".toList, "mark".toList] (by decide) (by decide) (by decide)
  ⟨h.1.trans (by decide), (h.2.2.2.1 (by decide)).trans (by decide)⟩

lemma bookmarks_index_append (l1 l2 : List Bookmark) (b : Bookmark) (id : List Char)
    (hb : id = b.id) (h1 : id ∉ l1.map Bookmark.id) :
    bookmarks_index (l1 ++ b :: l2) id = some l1.length := by
  induction l1 with
  | nil => simp [bookmarks_index, hb]
  | cons c l1 ih =>
    simp only [List.map_cons, List.mem_cons, not_or] at h1
    simp [bookmarks_index, h1.1, ih h1.2]

lemma bookmarks_index_none (bs : List Bookmark) (id : List Char)
    (h : id ∉ bs.map Bookmark.id) : bookmarks_index bs id = none := by
  induction bs with
  | nil => rfl
  | cons c bs ih =>
    simp only [List.map_cons, List.mem_cons, not_or] at h
    simp [bookmarks_index, h.1, ih h.2]

/-- Overwriting the entry after l1 with the last entry and dropping the last
entry leaves the other entries, in some order. -/
lemma bookmarks_swap_out (l1 l2 : List Bookmark) (b last : Bookmark)
    (hlast : (l1 ++ b :: l2).getLast? = some last) :
    (((l1 ++ b :: l2).set l1.length last).dropLast).Perm (l1 ++ l2) := by
  have hset : (l1 ++ b :: l2).set l1.length last = l1 ++ last :: l2 := by
    rw [List.set_append]
    simp
  rw [hset]
  rcases List.eq_nil_or_concat l2 with h | ⟨l, c, h⟩
  · subst h
    rw [List.dropLast_concat]
    simp
  · rw [List.concat_eq_append] at h
    subst h
    have hc : last = c := by
      rw [show l1 ++ b :: (l ++ [c]) = (l1 ++ b :: l) ++ [c] by simp,
        List.getLast?_concat] at hlast
      exact (Option.some.inj hlast).symm
    subst hc
    rw [show l1 ++ last :: (l ++ [last]) = (l1 ++ last :: l) ++ [last] by simp,
      List.dropLast_concat]
    apply List.Perm.append_left
    exact (List.perm_append_singleton last l).symm

lemma bookmarks_filter_out (l1 l2 : List Bookmark) (b : Bookmark) (id : List Char)
    (hb : id = b.id) (hnd : ((l1 ++ b :: l2).map Bookmark.id).Nodup) :
    (l1 ++ b :: l2).filter (fun c => c.id ≠ id) = l1 ++ l2 := by
  simp only [List.map_append, List.map_cons] at hnd
  have hnd2 := List.nodup_middle.mp hnd
  rw [List.nodup_cons] at hnd2
  have hall : ∀ c ∈ l1 ++ l2, c.id ≠ id := by
    intro c hc e
    apply hnd2.1
    rw [← hb, ← e, ← List.map_append]
    exact List.mem_map_of_mem _ hc
  rw [List.filter_append, List.filter_cons]
  have e1 : l1.filter (fun c => decide (c.id ≠ id)) = l1 :=
    List.filter_eq_self.mpr (fun c hc => by simpa using hall c (List.mem_append_left _ hc))
  have e2 : l2.filter (fun c => decide (c.id ≠ id)) = l2 :=
    List.filter_eq_self.mpr (fun c hc => by simpa using hall c (List.mem_append_right _ hc))
  rw [e1, e2]
  simp [hb]

/-- C30: on an open document, with pairwise distinct ids in the bookmark list
and at least one argument, cmd_delete_bookmark with an id of the list takes
the count down by one and leaves exactly the former entries without the one
of that id, each with its page, in some order; cmd_open_bookmark with that id
then finds no bookmark, returns FALSE and keeps the current page; with an id
that is not in the list the session is left as it was. -/
theorem cmd_delete_bookmark_removes (z : Session) (argv : List (List Char))
    (hdoc : z.PDF.document.isSome = true) (hargv : argv ≠ [])
    (hnd : (z.Bookmarks.bookmarks.map Bookmark.id).Nodup) :
    (cmd_delete_bookmark z argv).2 = true ∧
    (bookmark_id argv ∈ z.Bookmarks.bookmarks.map Bookmark.id →
      (cmd_delete_bookmark z argv).1.Bookmarks.bookmarks.length + 1 =
        z.Bookmarks.bookmarks.length ∧
      (cmd_delete_bookmark z argv).1.Bookmarks.bookmarks.Perm
        (z.Bookmarks.bookmarks.filter (fun b => b.id ≠ bookmark_id argv)) ∧
      (cmd_delete_bookmark z argv).1.PDF.page_number = z.PDF.page_number ∧
      (∀ later : Session,
        later.Bookmarks.bookmarks = (cmd_delete_bookmark z argv).1.Bookmarks.bookmarks →
        later.PDF.document.isSome = true →
        (cmd_open_bookmark later argv).2 = false ∧
        (cmd_open_bookmark later argv).1.PDF.page_number = later.PDF.page_number)) ∧
    (bookmark_id argv ∉ z.Bookmarks.bookmarks.map Bookmark.id →
      (cmd_delete_bookmark z argv).1 = z) := by
  have hlen : ¬ argv.length < 1 := by
    cases argv with
    | nil => exact absurd rfl hargv
    | cons a rest => simp
  have hguard : ¬ (z.PDF.document.isNone = true ∨ argv.length < 1) := by
    intro h
    rcases h with h | h
    · cases hd : z.PDF.document with
      | none => rw [hd] at hdoc; cases hdoc
      | some d => rw [hd] at h; cases h
    · exact hlen h
  have hout : bookmark_id argv ∉ z.Bookmarks.bookmarks.map Bookmark.id →
      cmd_delete_bookmark z argv = (z, true) := by
    intro h
    unfold cmd_delete_bookmark
    rw [if_neg hguard]
    simp only [bookmarks_index_none _ _ h]
  have hin : bookmark_id argv ∈ z.Bookmarks.bookmarks.map Bookmark.id →
      ∃ bs, (bs.Perm (z.Bookmarks.bookmarks.filter (fun b => b.id ≠ bookmark_id argv)) ∧
        bs.length + 1 = z.Bookmarks.bookmarks.length) ∧
        cmd_delete_bookmark z argv =
          ({ z with Bookmarks :=
              { bookmarks := bs,
                data := z.Bookmarks.data.map (fun key_file =>
                  g_key_file_remove_key key_file z.PDF.file (bookmark_id argv)) } }, true) := by
    intro h
    obtain ⟨b, hb, hid⟩ := List.mem_map.mp h
    obtain ⟨l1, l2, hsplit⟩ := List.append_of_mem hb
    have hnd1 := hnd
    rw [hsplit] at hnd1
    have h1 : bookmark_id argv ∉ l1.map Bookmark.id := by
      simp only [List.map_append, List.map_cons] at hnd1
      have hnd2 := List.nodup_middle.mp hnd1
      rw [List.nodup_cons] at hnd2
      intro hmem
      apply hnd2.1
      rw [hid]
      exact List.mem_append_left _ hmem
    obtain ⟨last, hlast⟩ : ∃ last, (l1 ++ b :: l2).getLast? = some last := by
      cases hl : (l1 ++ b :: l2).getLast? with
      | none => simp at hl
      | some last => exact ⟨last, rfl⟩
    have hperm := bookmarks_swap_out l1 l2 b last hlast
    have hfilter := bookmarks_filter_out l1 l2 b (bookmark_id argv) hid.symm hnd1
    refine ⟨((l1 ++ b :: l2).set l1.length last).dropLast, ⟨?_, ?_⟩, ?_⟩
    · rw [hsplit, hfilter]
      exact hperm
    · rw [hperm.length_eq, hsplit]
      simp
      omega
    · unfold cmd_delete_bookmark
      rw [if_neg hguard]
      simp only [hsplit, bookmarks_index_append l1 l2 b _ hid.symm h1, hlast]
  refine ⟨?_, ?_, ?_⟩
  · by_cases h : bookmark_id argv ∈ z.Bookmarks.bookmarks.map Bookmark.id
    · obtain ⟨bs, _, e⟩ := hin h
      rw [e]
    · rw [hout h]
  · intro h
    obtain ⟨bs, ⟨hperm, hlength⟩, e⟩ := hin h
    rw [e]
    refine ⟨hlength, hperm, rfl, ?_⟩
    intro later hbs hld
    have hg : ¬ (later.PDF.document.isNone = true ∨ argv.length < 1) := by
      intro h
      rcases h with h | h
      · cases hd : later.PDF.document with
        | none => rw [hd] at hld; cases hld
        | some d => rw [hd] at h; cases h
      · exact hlen h
    have hnone : later.Bookmarks.bookmarks.find? (fun b => bookmark_id argv = b.id) = none := by
      rw [List.find?_eq_none]
      intro c hc
      rw [hbs] at hc
      have hc2 := (hperm.mem_iff.mp hc)
      rw [List.mem_filter] at hc2
      simp only [decide_eq_true_eq]
      intro e2
      have := hc2.2
      simp only [ne_eq, decide_not, Bool.not_eq_true', decide_eq_false_iff_not] at this
      exact this e2.symm
    unfold cmd_open_bookmark
    rw [if_neg hg]
    simp only [hnone]
    exact ⟨trivial, rfl⟩
  · intro h
    rw [hout h]

/-- Witness of C30: deleting the bookmark a of the sample list puts the last
entry in its place. -/
theorem cmd_delete_bookmark_removes_witness :
    (cmd_delete_bookmark sample_bookmarked ["a".toList]).1.Bookmarks.bookmarks.length + 1 =
      sample_bookmarked.Bookmarks.bookmarks.length ∧
    (cmd_delete_bookmark sample_bookmarked ["a".toList]).1.Bookmarks.bookmarks =
      [{ id := "c".toList, page := 0 }, { id := "my mark".toList, page := 2 }] :=
  ⟨((cmd_delete_bookmark_removes sample_bookmarked ["a".toList]
      (by decide) (by decide) (by decide)).2.1 (by decide)).1, by decide⟩

/-! ## Opening a document -/

lemma draw_scale (z : Session) (page_id : Int) : (draw z page_id).PDF.scale = z.PDF.scale := by
  unfold draw
  split
  · rfl
  · split <;> rfl

lemma draw_page_offset (z : Session) (page_id : Int) :
    (draw z page_id).PDF.page_offset = z.PDF.page_offset := by
  unfold draw
  split
  · rfl
  · split <;> rfl

lemma set_page_scale (z : Session) (page : Int) :
    (set_page z page).PDF.scale = z.PDF.scale := by
  unfold set_page
  split
  · rfl
  · rw [draw_scale]

lemma set_page_page_offset (z : Session) (page : Int) :
    (set_page z page).PDF.page_offset = z.PDF.page_offset := by
  unfold set_page
  split
  · rfl
  · rw [draw_page_offset]

/-- The page open_file starts on and the page offset it stores, read from the
key file as it is after the old document was closed. -/
lemma open_file_ok (config : Config) (files : Files) (z : Session) (path : List Char)
    (password : Option (List Char)) (file file_uri : List Char) (document : PopplerDocument)
    (hfile : (open_file_name files path).filter files.g_file_test = some file)
    (huri : files.g_filename_to_uri file = Except.ok file_uri)
    (hdoc : files.poppler_document_new_from_file file_uri
      (open_file_password (cmd_close config z (-1)).1 password) = Except.ok document) :
    ∃ opened : Session, ∃ start_page : Int,
      open_file config files z path password = (set_page opened start_page, true) ∧
      opened.PDF.number_of_pages = document.pages.length ∧
      opened.PDF.scale = 100 ∧
      opened.PDF.page_number = (cmd_close config z (-1)).1.PDF.page_number ∧
      start_page =
        (match (cmd_close config z (-1)).1.Bookmarks.data with
         | none => 0
         | some data =>
           if g_key_file_has_group data file = true ∧
               g_key_file_has_key data file config.BM_PAGE_ENTRY = true then
             g_key_file_get_integer data file config.BM_PAGE_ENTRY
           else 0) ∧
      opened.PDF.page_offset =
        (match (cmd_close config z (-1)).1.Bookmarks.data with
         | none => 0
         | some data =>
           if g_key_file_has_group data file = true ∧
               g_key_file_has_key data file config.BM_PAGE_OFFSET = true then
             (if g_key_file_get_integer data file config.BM_PAGE_OFFSET = 0 then 0
              else GOTO_OFFSET)
           else 0) := by
  unfold open_file
  simp only [hfile, huri, hdoc]
  refine ⟨_, _, rfl, rfl, rfl, rfl, ?_, ?_⟩
  · cases hd : (cmd_close config z (-1)).1.Bookmarks.data with
    | none => rfl
    | some data =>
      simp only
      by_cases hg : g_key_file_has_group data file = true
      · by_cases hk : g_key_file_has_key data file config.BM_PAGE_ENTRY = true
        · simp [hg, hk]
        · simp [hg, hk]
      · simp [hg]
  · cases hd : (cmd_close config z (-1)).1.Bookmarks.data with
    | none => rfl
    | some data =>
      simp only
      by_cases hg : g_key_file_has_group data file = true
      · by_cases hk : g_key_file_has_key data file config.BM_PAGE_OFFSET = true
        · by_cases h0 : g_key_file_get_integer data file config.BM_PAGE_OFFSET = 0
          · simp [hg, hk, h0]
          · by_cases h1 : g_key_file_get_integer data file config.BM_PAGE_OFFSET = GOTO_OFFSET
            · simp [hg, hk, h0, h1]
              rw [if_neg (by decide)]
            · simp [hg, hk, h0, h1]
        · simp [hg, hk]
      · simp [hg]

/-- Setting a key in one group leaves every other group as it was. -/
lemma g_key_file_set_integer_other (key_file : GKeyFile) (other key : List Char) (value : Int)
    (group_name : List Char) (h : other ≠ group_name) :
    g_key_file_group (g_key_file_set_integer key_file other key value) group_name =
      g_key_file_group key_file group_name ∧
    g_key_file_has_group (g_key_file_set_integer key_file other key value) group_name =
      g_key_file_has_group key_file group_name := by
  unfold g_key_file_set_integer
  split
  · constructor
    · unfold g_key_file_group
      have : ∀ l : GKeyFile,
          (l.map (fun g => if g.1 = other then (g.1, g_key_file_set_entry g.2 key value)
            else g)).find? (fun g => g.1 = group_name) = l.find? (fun g => g.1 = group_name) := by
        intro l
        induction l with
        | nil => rfl
        | cons g l ih =>
          by_cases hg : g.1 = group_name
          · have hne : ¬ g.1 = other := fun e => h (e ▸ hg)
            rw [List.map_cons, if_neg hne]
            simp only [List.find?_cons, hg, decide_True]
          · by_cases ho : g.1 = other
            · simp only [List.map_cons, if_pos ho, List.find?_cons, hg, decide_False]
              exact ih
            · simp only [List.map_cons, if_neg ho, List.find?_cons, hg, decide_False]
              exact ih
      rw [this]
    · unfold g_key_file_has_group
      rw [List.any_map]
      congr 1
      funext g
      by_cases ho : g.1 = other <;> simp [ho]
  · constructor
    · unfold g_key_file_group
      rw [List.find?_append]
      have : [(other, [(key, value)])].find? (fun g => decide (g.1 = group_name)) = none := by
        simp [h]
      rw [this, Option.or_none]
    · unfold g_key_file_has_group
      rw [List.any_append]
      simp [h]

/-- What the key file functions read in a group depends on the first group of
that name and on whether there is one. -/
lemma g_key_file_reads (a b : GKeyFile) (group_name : List Char)
    (h : g_key_file_group a group_name = g_key_file_group b group_name ∧
      g_key_file_has_group a group_name = g_key_file_has_group b group_name) :
    g_key_file_has_group a group_name = g_key_file_has_group b group_name ∧
    ∀ key, g_key_file_has_key a group_name key = g_key_file_has_key b group_name key ∧
      g_key_file_get_integer a group_name key = g_key_file_get_integer b group_name key := by
  refine ⟨h.2, fun key => ?_⟩
  unfold g_key_file_has_key g_key_file_get_integer
  rw [h.1]
  exact ⟨rfl, rfl⟩

/-- Closing a document of another file leaves the group of the file in the
key file as it was; closing without a document leaves the whole session. -/
lemma cmd_close_other_group (config : Config) (z : Session) (file : List Char)
    (h : z.PDF.document = none ∨ z.PDF.file ≠ file) :
    (z.Bookmarks.data = none → (cmd_close config z (-1)).1.Bookmarks.data = none) ∧
    ∀ data, z.Bookmarks.data = some data →
      ∃ closed, (cmd_close config z (-1)).1.Bookmarks.data = some closed ∧
        g_key_file_group closed file = g_key_file_group data file ∧
        g_key_file_has_group closed file = g_key_file_has_group data file := by
  by_cases hd : z.PDF.document.isNone = true
  · have e : cmd_close config z (-1) = (z, false) := by
      unfold cmd_close
      rw [if_pos hd]
      simp
    rw [e]
    exact ⟨fun h => h, fun data hdata => ⟨data, hdata, rfl, rfl⟩⟩
  · have hne : z.PDF.file ≠ file := by
      rcases h with h | h
      · rw [h] at hd
        exact absurd rfl hd
      · exact h
    have e : (cmd_close config z (-1)).1.Bookmarks.data =
        z.Bookmarks.data.map (fun key_file =>
          z.Bookmarks.bookmarks.foldl
            (fun key_file b => g_key_file_set_integer key_file z.PDF.file b.id b.page)
            (g_key_file_set_integer
              (g_key_file_set_integer key_file z.PDF.file config.BM_PAGE_ENTRY z.PDF.page_number)
              z.PDF.file config.BM_PAGE_OFFSET z.PDF.page_offset)) := by
      unfold cmd_close
      rw [if_neg hd]
    rw [e]
    refine ⟨fun h => by rw [h]; rfl, fun data hdata => ?_⟩
    rw [hdata]
    refine ⟨_, rfl, ?_⟩
    have hfold : ∀ (bs : List Bookmark) (kf : GKeyFile),
        g_key_file_group (bs.foldl
          (fun key_file b => g_key_file_set_integer key_file z.PDF.file b.id b.page) kf) file =
          g_key_file_group kf file ∧
        g_key_file_has_group (bs.foldl
          (fun key_file b => g_key_file_set_integer key_file z.PDF.file b.id b.page) kf) file =
          g_key_file_has_group kf file := by
      intro bs
      induction bs with
      | nil => exact fun kf => ⟨rfl, rfl⟩
      | cons b bs ih =>
        intro kf
        have h1 := ih (g_key_file_set_integer kf z.PDF.file b.id b.page)
        have h2 := g_key_file_set_integer_other kf z.PDF.file b.id b.page file hne
        exact ⟨h1.1.trans h2.1, h1.2.trans h2.2⟩
    have h1 := hfold z.Bookmarks.bookmarks (g_key_file_set_integer
      (g_key_file_set_integer data z.PDF.file config.BM_PAGE_ENTRY z.PDF.page_number)
      z.PDF.file config.BM_PAGE_OFFSET z.PDF.page_offset)
    have h2 := g_key_file_set_integer_other
      (g_key_file_set_integer data z.PDF.file config.BM_PAGE_ENTRY z.PDF.page_number)
      z.PDF.file config.BM_PAGE_OFFSET z.PDF.page_offset file hne
    have h3 := g_key_file_set_integer_other data z.PDF.file config.BM_PAGE_ENTRY
      z.PDF.page_number file hne
    exact ⟨h1.1.trans (h2.1.trans h3.1), h1.2.trans (h2.2.trans h3.2)⟩

/-- C21: when open_file gets a regular file that the library opens as a
document of N pages, it returns TRUE; if the group of the file in the key
file, as it is once the old document is closed, holds a last-page entry p with
0 <= p < N, the current page is p afterwards, and without such an entry (no
key file, no group or no key) it is 0.  When no document was open, or the open
one was another file, closing leaves the group of the file as it was before
the call, so the entry read is the entry saved before. -/
theorem open_file_restores_page (config : Config) (files : Files) (z : Session)
    (path : List Char) (password : Option (List Char)) (file file_uri : List Char)
    (document : PopplerDocument)
    (hfile : (open_file_name files path).filter files.g_file_test = some file)
    (huri : files.g_filename_to_uri file = Except.ok file_uri)
    (hdoc : files.poppler_document_new_from_file file_uri
      (open_file_password (cmd_close config z (-1)).1 password) = Except.ok document) :
    (open_file config files z path password).2 = true ∧
    (open_file config files z path password).1.PDF.number_of_pages = document.pages.length ∧
    (∀ data, (cmd_close config z (-1)).1.Bookmarks.data = some data →
      g_key_file_has_group data file = true →
      g_key_file_has_key data file config.BM_PAGE_ENTRY = true →
      0 ≤ g_key_file_get_integer data file config.BM_PAGE_ENTRY →
      g_key_file_get_integer data file config.BM_PAGE_ENTRY < document.pages.length →
      (open_file config files z path password).1.PDF.page_number =
        g_key_file_get_integer data file config.BM_PAGE_ENTRY) ∧
    ((∀ data, (cmd_close config z (-1)).1.Bookmarks.data = some data →
        g_key_file_has_group data file = true →
        g_key_file_has_key data file config.BM_PAGE_ENTRY = false) →
      (open_file config files z path password).1.PDF.page_number = 0) ∧
    ((z.PDF.document = none ∨ z.PDF.file ≠ file) →
      (z.Bookmarks.data = none → (cmd_close config z (-1)).1.Bookmarks.data = none) ∧
      ∀ data, z.Bookmarks.data = some data →
        ∃ closed, (cmd_close config z (-1)).1.Bookmarks.data = some closed ∧
          g_key_file_has_group closed file = g_key_file_has_group data file ∧
          ∀ key, g_key_file_has_key closed file key = g_key_file_has_key data file key ∧
            g_key_file_get_integer closed file key = g_key_file_get_integer data file key) := by
  obtain ⟨opened, start_page, hopen, hN, _, _, hstart, _⟩ :=
    open_file_ok config files z path password file file_uri document hfile huri hdoc
  rw [hopen]
  refine ⟨rfl, ?_, ?_, ?_, ?_⟩
  · show (set_page opened start_page).PDF.number_of_pages = _
    rw [set_page_number_of_pages, hN]
  · intro data hdata hg hk h0 hlt
    show (set_page opened start_page).PDF.page_number = _
    rw [hdata] at hstart
    simp only [hg, hk, and_self, if_true] at hstart
    rw [hstart]
    apply set_page_accepted
    rw [hN]
    exact ⟨h0, le_of_lt hlt⟩
  · intro hno
    show (set_page opened start_page).PDF.page_number = _
    have h0 : start_page = 0 := by
      rw [hstart]
      cases hd : (cmd_close config z (-1)).1.Bookmarks.data with
      | none => rfl
      | some data =>
        simp only
        by_cases hg : g_key_file_has_group data file = true
        · have := hno data hd hg
          simp [hg, this]
        · simp [hg]
    rw [h0]
    apply set_page_accepted
    rw [hN]
    exact ⟨le_refl _, by positivity⟩
  · intro hother
    obtain ⟨h1, h2⟩ := cmd_close_other_group config z file hother
    refine ⟨h1, fun data hdata => ?_⟩
    obtain ⟨closed, hc, hgroup, hhas⟩ := h2 data hdata
    exact ⟨closed, hc, g_key_file_reads closed data file ⟨hgroup, hhas⟩⟩

/-- Witness of C21: with last page 5 and offset 0 saved for /doc.pdf, opening
it (a document of 8 pages) starts on page 5. -/
theorem open_file_restores_page_witness :
    (open_file sample_config (sample_files true) (sample_saved 5 0) "/doc.pdf".toList none).2 =
      true ∧
    (open_file sample_config (sample_files true) (sample_saved 5 0)
      "/doc.pdf".toList none).1.PDF.page_number = 5 :=
  have h := open_file_restores_page sample_config (sample_files true) (sample_saved 5 0)
    "/doc.pdf".toList none "/doc.pdf".toList "file:///doc.pdf".toList
    (sample_document (List.replicate 8 false)) (by decide) (by rfl) (by rfl)
  ⟨h.1, (h.2.2.1 [("/doc.pdf".toList, [("page".toList, 5), ("offset".toList, 0)])]
    (by decide) (by decide) (by decide) (by decide) (by decide)).trans (by decide)⟩

/-- C22 (the code breaks the claim): when open_file gets a regular file that
the library opens, the page offset it leaves is not the saved offset o but 0
when o is 0 and the enumeration constant GOTO_OFFSET (38) for every other o:
after reading the entry, open_file overwrites a page offset that is neither 0
nor GOTO_OFFSET with GOTO_OFFSET.  Without a saved entry the offset is 0. -/
theorem open_file_page_offset (config : Config) (files : Files) (z : Session)
    (path : List Char) (password : Option (List Char)) (file file_uri : List Char)
    (document : PopplerDocument)
    (hfile : (open_file_name files path).filter files.g_file_test = some file)
    (huri : files.g_filename_to_uri file = Except.ok file_uri)
    (hdoc : files.poppler_document_new_from_file file_uri
      (open_file_password (cmd_close config z (-1)).1 password) = Except.ok document) :
    (∀ data, (cmd_close config z (-1)).1.Bookmarks.data = some data →
      g_key_file_has_group data file = true →
      g_key_file_has_key data file config.BM_PAGE_OFFSET = true →
      (open_file config files z path password).1.PDF.page_offset =
        if g_key_file_get_integer data file config.BM_PAGE_OFFSET = 0 then 0
        else GOTO_OFFSET) ∧
    ((∀ data, (cmd_close config z (-1)).1.Bookmarks.data = some data →
        g_key_file_has_group data file = true →
        g_key_file_has_key data file config.BM_PAGE_OFFSET = false) →
      (open_file config files z path password).1.PDF.page_offset = 0) ∧
    ((open_file config files z path password).1.PDF.page_offset = 0 ∨
      (open_file config files z path password).1.PDF.page_offset = GOTO_OFFSET) := by
  obtain ⟨opened, start_page, hopen, _, _, _, _, hoffset⟩ :=
    open_file_ok config files z path password file file_uri document hfile huri hdoc
  rw [hopen]
  have hpo : (set_page opened start_page, true).1.PDF.page_offset = opened.PDF.page_offset :=
    set_page_page_offset _ _
  rw [hpo]
  refine ⟨?_, ?_, ?_⟩
  · intro data hdata hg hk
    rw [hoffset, hdata]
    simp only [hg, hk, and_self, if_true]
  · intro hno
    rw [hoffset]
    cases hd : (cmd_close config z (-1)).1.Bookmarks.data with
    | none => rfl
    | some data =>
      simp only
      by_cases hg : g_key_file_has_group data file = true
      · have := hno data hd hg
        simp [hg, this]
      · simp [hg]
  · rw [hoffset]
    cases hd : (cmd_close config z (-1)).1.Bookmarks.data with
    | none => exact Or.inl rfl
    | some data =>
      simp only
      split
      · split
        · exact Or.inl rfl
        · exact Or.inr rfl
      · exact Or.inl rfl

/-- The failing input of C22: with the page offset 2 saved for /doc.pdf,
open_file leaves the page offset 38. -/
theorem open_file_page_offset_witness :
    (open_file sample_config (sample_files true) (sample_saved 0 2)
      "/doc.pdf".toList none).1.PDF.page_offset = 38 ∧
    g_key_file_get_integer [("/doc.pdf".toList, [("page".toList, 0), ("offset".toList, 2)])]
      "/doc.pdf".toList sample_config.BM_PAGE_OFFSET = 2 :=
  have h := open_file_page_offset sample_config (sample_files true) (sample_saved 0 2)
    "/doc.pdf".toList none "/doc.pdf".toList "file:///doc.pdf".toList
    (sample_document (List.replicate 8 false)) (by decide) (by rfl) (by rfl)
  ⟨(h.1 [("/doc.pdf".toList, [("page".toList, 0), ("offset".toList, 2)])]
    (by decide) (by decide) (by decide)).trans (by decide), by decide⟩

/-- C24 (the claim does not hold as stated): with the sample document of 3
pages open on page 0 at scale 100, open_file on a regular file that the
library cannot parse returns FALSE and leaves no document: the handle is NULL,
the page count 0 and the scale 0. -/
theorem open_file_failure_closes :
    (open_file sample_config (sample_files false) (sample_session [false, false, false])
      "/doc.pdf".toList none).2 = false ∧
    (sample_session [false, false, false]).PDF.document.isSome = true ∧
    (sample_session [false, false, false]).PDF.number_of_pages = 3 ∧
    (sample_session [false, false, false]).PDF.scale = 100 ∧
    (open_file sample_config (sample_files false) (sample_session [false, false, false])
      "/doc.pdf".toList none).1.PDF.document.isSome = false ∧
    (open_file sample_config (sample_files false) (sample_session [false, false, false])
      "/doc.pdf".toList none).1.PDF.number_of_pages = 0 ∧
    (open_file sample_config (sample_files false) (sample_session [false, false, false])
      "/doc.pdf".toList none).1.PDF.scale = 0 := by
  decide

/-- C24 as the code has it: when open_file returns FALSE because the file is
not a regular file, the document state (handle, page count, current page,
scale, rotation), the markers and the bookmarks are as before the call; when
it returns FALSE for a regular file (no URI for the name, bad password, or
the library does not parse it), the old document has been closed first, so
the state is that of cmd_close: with a document open before, no handle, page
count 0, page 0, scale 0, rotation 0, no markers and last marker -1, while the
bookmark list is as before. -/
theorem open_file_failure_state (config : Config) (files : Files) (z : Session)
    (path : List Char) (password : Option (List Char))
    (hfail : (open_file config files z path password).2 = false) :
    ((open_file_name files path).filter files.g_file_test = none →
      (open_file config files z path password).1.PDF = z.PDF ∧
      (open_file config files z path password).1.Marker = z.Marker ∧
      (open_file config files z path password).1.Bookmarks = z.Bookmarks) ∧
    (∀ file, (open_file_name files path).filter files.g_file_test = some file →
      (open_file config files z path password).1.PDF.document = none ∧
      (open_file config files z path password).1.Bookmarks.bookmarks = z.Bookmarks.bookmarks ∧
      (z.PDF.document.isSome = true →
        (open_file config files z path password).1.PDF.number_of_pages = 0 ∧
        (open_file config files z path password).1.PDF.page_number = 0 ∧
        (open_file config files z path password).1.PDF.scale = 0 ∧
        (open_file config files z path password).1.PDF.rotate = 0 ∧
        (open_file config files z path password).1.Marker.markers = [] ∧
        (open_file config files z path password).1.Marker.last = -1)) := by
  have hclose : (cmd_close config z (-1)).1.Bookmarks.bookmarks = z.Bookmarks.bookmarks ∧
      (cmd_close config z (-1)).1.PDF.document = none ∧
      (z.PDF.document.isSome = true →
        (cmd_close config z (-1)).1.PDF.number_of_pages = 0 ∧
        (cmd_close config z (-1)).1.PDF.page_number = 0 ∧
        (cmd_close config z (-1)).1.PDF.scale = 0 ∧
        (cmd_close config z (-1)).1.PDF.rotate = 0 ∧
        (cmd_close config z (-1)).1.Marker.markers = [] ∧
        (cmd_close config z (-1)).1.Marker.last = -1) := by
    unfold cmd_close
    cases hd : z.PDF.document with
    | none => simp [hd]
    | some d => simp
  constructor
  · intro hnone
    unfold open_file
    simp only [hnone]
    exact ⟨rfl, rfl, rfl⟩
  · intro file hfile
    unfold open_file at hfail ⊢
    simp only [hfile] at hfail ⊢
    cases huri : files.g_filename_to_uri file with
    | error e =>
      simp only [huri]
      exact ⟨hclose.2.1, hclose.1, hclose.2.2⟩
    | ok file_uri =>
      simp only [huri] at hfail ⊢
      cases hdoc : files.poppler_document_new_from_file file_uri
          (open_file_password (cmd_close config z (-1)).1 password) with
      | error e =>
        simp only [hdoc]
        exact ⟨rfl, hclose.1, hclose.2.2⟩
      | ok document =>
        simp only [hdoc] at hfail
        cases hfail

/-- Witness of C24 as the code has it: the sample document of 3 pages is open
and the file to open is a regular file the library cannot parse. -/
theorem open_file_failure_state_witness :
    (open_file sample_config (sample_files false) (sample_session [false, false, false])
      "/doc.pdf".toList none).1.PDF.document = none ∧
    (open_file sample_config (sample_files false) (sample_session [false, false, false])
      "/none.pdf".toList none).1.PDF = (sample_session [false, false, false]).PDF :=
  ⟨((open_file_failure_state sample_config (sample_files false)
      (sample_session [false, false, false]) "/doc.pdf".toList none (by decide)).2
      "/doc.pdf".toList (by decide)).1,
    ((open_file_failure_state sample_config (sample_files false)
      (sample_session [false, false, false]) "/none.pdf".toList none (by decide)).1
      (by decide)).1⟩

/-! ## The scale -/

lemma trunc_intCast (n : Int) : trunc (n : ℚ) = n := by
  unfold trunc
  split
  · exact Int.floor_intCast n
  · exact Int.ceil_intCast n

/-- The scale sc_adjust_window stores for the one-page sample session with
best fit: the view size over the page height, as a percentage. -/
lemma sc_adjust_window_bestfit (view_v view_h : ℚ) :
    (sc_adjust_window view_v view_h (sample_session [false]) { n := ADJUST_BESTFIT }).PDF.scale =
      trunc (view_v / 792 * 100) := by
  unfold sc_adjust_window
  simp [sample_session, ADJUST_BESTFIT, ADJUST_WIDTH, array_at, poppler_page_get_size,
    sample_page, draw_scale]

lemma sc_adjust_window_width (view_v view_h : ℚ) :
    (sc_adjust_window view_v view_h (sample_session [false]) { n := ADJUST_WIDTH }).PDF.scale =
      trunc (view_h / 612 * 100) := by
  unfold sc_adjust_window
  simp [sample_session, ADJUST_BESTFIT, ADJUST_WIDTH, array_at, poppler_page_get_size,
    sample_page, draw_scale]

lemma open_file_scale (config : Config) (files : Files) (z : Session) (path : List Char)
    (password : Option (List Char)) (h : (open_file config files z path password).2 = true) :
    (open_file config files z path password).1.PDF.scale = 100 := by
  unfold open_file at h ⊢
  cases hfile : (open_file_name files path).filter files.g_file_test with
  | none =>
    simp only [hfile] at h
    cases h
  | some file =>
    simp only [hfile] at h ⊢
    cases huri : files.g_filename_to_uri file with
    | error e =>
      simp only [huri] at h
      cases h
    | ok file_uri =>
      simp only [huri] at h ⊢
      cases hdoc : files.poppler_document_new_from_file file_uri
          (open_file_password (cmd_close config z (-1)).1 password) with
      | error e =>
        simp only [hdoc] at h
        cases h
      | ok document =>
        simp only [hdoc]
        rw [set_page_scale]

/-- C25 (the code breaks the claim): with ZOOM_MIN <= 100 <= ZOOM_MAX, a step
that is not negative and a scale within the bounds, bcmd_zoom leaves the scale
within the bounds for every argument and buffer, and a successful open_file
leaves it at 100; but sc_adjust_window stores the quotient it computes as it
is: on the one-page sample session (page 612 by 792 points, scale 100) a view
height of 7.92 (ZOOM_MAX + 1) with best fit, or a view width of
6.12 (ZOOM_MAX + 1) with width, gives the scale ZOOM_MAX + 1, and a view of
size 0 gives the scale 0. -/
theorem scale_clamp_sites (config : Config) (z : Session)
    (hmin : config.ZOOM_MIN ≤ 100) (hmax : 100 ≤ config.ZOOM_MAX)
    (hstep : 0 ≤ config.ZOOM_STEP)
    (hscale : config.ZOOM_MIN ≤ z.PDF.scale ∧ z.PDF.scale ≤ config.ZOOM_MAX) :
    (∀ buffer argument,
      config.ZOOM_MIN ≤ (bcmd_zoom config z buffer argument).PDF.scale ∧
      (bcmd_zoom config z buffer argument).PDF.scale ≤ config.ZOOM_MAX) ∧
    (∀ files path password, (open_file config files z path password).2 = true →
      (open_file config files z path password).1.PDF.scale = 100) ∧
    (sample_session [false]).PDF.document.isSome = true ∧
    (sample_session [false]).PDF.scale = 100 ∧
    (sc_adjust_window ((792 : ℚ) * ((config.ZOOM_MAX : ℚ) + 1) / 100) 0
      (sample_session [false]) { n := ADJUST_BESTFIT }).PDF.scale = config.ZOOM_MAX + 1 ∧
    (sc_adjust_window 0 ((612 : ℚ) * ((config.ZOOM_MAX : ℚ) + 1) / 100)
      (sample_session [false]) { n := ADJUST_WIDTH }).PDF.scale = config.ZOOM_MAX + 1 ∧
    (sc_adjust_window 0 0 (sample_session [false]) { n := ADJUST_BESTFIT }).PDF.scale = 0 := by
  refine ⟨?_, ?_, rfl, rfl, ?_, ?_, ?_⟩
  · intro buffer argument
    unfold bcmd_zoom
    dsimp only
    by_cases h1 : argument.n = ZOOM_IN
    · rw [if_pos h1, draw_scale]
      dsimp only
      split <;> omega
    · rw [if_neg h1]
      by_cases h2 : argument.n = ZOOM_OUT
      · rw [if_pos h2, draw_scale]
        dsimp only
        split <;> omega
      · rw [if_neg h2]
        by_cases h3 : argument.n = ZOOM_SPECIFIC
        · rw [if_pos h3]
          by_cases h4 : buffer.length < 1
          · rw [if_pos h4]
            exact hscale
          · rw [if_neg h4, draw_scale]
            dsimp only
            split
            · omega
            · split <;> omega
        · rw [if_neg h3, draw_scale]
          dsimp only
          omega
  · intro files path password h
    exact open_file_scale config files z path password h
  · rw [sc_adjust_window_bestfit]
    have e : (792 : ℚ) * ((config.ZOOM_MAX : ℚ) + 1) / 100 / 792 * 100 =
        ((config.ZOOM_MAX + 1 : Int) : ℚ) := by
      push_cast
      field_simp
      ring
    rw [e, trunc_intCast]
  · rw [sc_adjust_window_width]
    have e : (612 : ℚ) * ((config.ZOOM_MAX : ℚ) + 1) / 100 / 612 * 100 =
        ((config.ZOOM_MAX + 1 : Int) : ℚ) := by
      push_cast
      field_simp
      ring
    rw [e, trunc_intCast]
  · rw [sc_adjust_window_bestfit]
    have e : (0 : ℚ) / 792 * 100 = ((0 : Int) : ℚ) := by norm_num
    rw [e, trunc_intCast]

/-- The failing input of C25 with the sample constants (ZOOM_MAX = 400): a
view 3175.92 points high with best fit gives the scale 401. -/
theorem scale_clamp_sites_witness :
    (sc_adjust_window ((792 : ℚ) * (((400 : Int) : ℚ) + 1) / 100) 0
      (sample_session [false]) { n := ADJUST_BESTFIT }).PDF.scale = 400 + 1 ∧
    sample_config.ZOOM_MAX = 400 :=
  ⟨(scale_clamp_sites sample_config (sample_session [false]) (by decide) (by decide)
    (by decide) (by decide)).2.2.2.2.1, rfl⟩

/-! ## No two searches at a time -/

lemma threads_inv_init : ThreadsInv {} := by
  constructor <;> simp [MainPc.holds]

/-- The entry of a list after one entry was set. -/
lemma workers_set (l : List WorkerPc) (i j : Nat) (p q r : WorkerPc) (hi : l[i]? = some p)
    (h : (l.set i q)[j]? = some r) : (j = i ∧ r = q) ∨ (j ≠ i ∧ l[j]? = some r) := by
  rw [List.getElem?_set] at h
  by_cases e : i = j
  · subst e
    rw [if_pos rfl] at h
    have hlt : i < l.length := by
      by_contra hn
      rw [List.getElem?_eq_none (by omega)] at hi
      cases hi
    rw [if_pos hlt] at h
    exact Or.inl ⟨rfl, (Option.some.inj h).symm⟩
  · rw [if_neg e] at h
    exact Or.inr ⟨fun e2 => e e2.symm, h⟩

/-- With the mutex free or held by the main thread, before and after, no worker
holds it. -/
lemma lock_worker_main (workers : List WorkerPc) (lock after : Option Owner)
    (h2 : ∀ (j : Nat) (pc : WorkerPc), workers[j]? = some pc →
      (pc.holds = true ↔ lock = some (Owner.worker j)))
    (h : lock = none ∨ lock = some Owner.main)
    (h' : after = none ∨ after = some Owner.main) :
    ∀ (j : Nat) (pc : WorkerPc), workers[j]? = some pc →
      (pc.holds = true ↔ after = some (Owner.worker j)) := by
  intro j pc hj
  have hn : ¬ pc.holds = true := by
    intro hh
    have := (h2 j pc hj).mp hh
    rcases h with h | h <;> rw [h] at this <;> cases this
  constructor
  · intro hh
    exact absurd hh hn
  · intro hc
    rcases h' with h' | h' <;> rw [h'] at hc <;> cases hc

/-- The invariant from its parts, for a state given by its fields. -/
lemma threads_inv_mk (flag : Bool) (lock : Option Owner) (handle : Option Nat) (main : MainPc)
    (workers : List WorkerPc)
    (a1 : lock = some Owner.main ↔ main.holds = true)
    (a2 : ∀ (j : Nat) (pc : WorkerPc), workers[j]? = some pc →
      (pc.holds = true ↔ lock = some (Owner.worker j)))
    (a3 : ∀ (j : Nat) (pc : WorkerPc), workers[j]? = some pc → handle ≠ some j →
      pc.finished = true)
    (a4 : flag = false → main ≠ MainPc.l1469 → main ≠ MainPc.l1471 →
      ∀ (j : Nat) (pc : WorkerPc), workers[j]? = some pc →
        pc = WorkerPc.l1204 ∨ pc.finished = true)
    (a5 : (main = MainPc.l1473 ∨ main = MainPc.l1476 ∨ main = MainPc.l1477) →
      ∀ (j : Nat) (pc : WorkerPc), workers[j]? = some pc → pc.finished = true)
    (a6 : (main = MainPc.l1469 ∨ main = MainPc.l1471 ∨ main = MainPc.l1473 ∨
      main = MainPc.l1476) → flag = false)
    (a7 : (main = MainPc.l1477 ∨ main = MainPc.l1478) → flag = true) :
    ThreadsInv { search_thread_running := flag, search_lock := lock, search_thread := handle,
                 main := main, workers := workers } :=
  ⟨a1, a2, a3, a4, a5, a6, a7⟩

/-- A step of the main thread keeps the invariant. -/
lemma sc_search_step_inv (s t : Threads) (hI : ThreadsInv s) (h : sc_search_step s = some t) :
    ThreadsInv t := by
  obtain ⟨h1, h2, h3, h4, h5, h6, h7⟩ := hI
  obtain ⟨flag, lock, handle, main, workers⟩ := s
  dsimp only at h1 h2 h3 h4 h5 h6 h7
  unfold sc_search_step at h
  dsimp only at h
  cases hm : main <;> simp only [hm] at h <;> subst hm
  · -- idle: sc_search is called
    cases h
    exact threads_inv_mk _ _ _ _ _ (h1.trans (by decide)) h2 h3
      (fun hf _ _ => h4 hf (by decide) (by decide)) (fun hc => absurd hc (by decide)) (fun hc => absurd hc (by decide)) (fun hc => absurd hc (by decide))
  · -- l1465: lock
    split at h
    · rename_i hl
      cases h
      exact threads_inv_mk _ _ _ _ _ (by decide)
        (lock_worker_main workers lock _ h2 (Or.inl hl) (Or.inr rfl)) h3
        (fun hf _ _ => h4 hf (by decide) (by decide)) (fun hc => absurd hc (by decide)) (fun hc => absurd hc (by decide)) (fun hc => absurd hc (by decide))
    · cases h
  · -- l1466: the test of the flag
    have hlock : lock = some Owner.main := h1.mpr rfl
    cases hr : flag
    · subst hr
      simp only [Bool.false_eq_true, if_false] at h
      cases h
      have hall : ∀ (j : Nat) (pc : WorkerPc), workers[j]? = some pc →
          pc.finished = true := by
        intro j pc hj
        rcases h4 rfl (by decide) (by decide) j pc hj with e | e
        · have := (h2 j pc hj).mp (by rw [e]; rfl)
          rw [hlock] at this
          cases this
        · exact e
      exact threads_inv_mk _ _ _ _ _ (h1.trans (by decide)) h2 h3
        (fun _ _ _ j pc hj => Or.inr (hall j pc hj)) (fun _ => hall) (fun _ => rfl) (fun hc => absurd hc (by decide))
    · subst hr
      simp only [if_true] at h
      cases h
      exact threads_inv_mk _ _ _ _ _ (h1.trans (by decide)) h2 h3
        (fun hf => absurd hf (by decide)) (fun hc => absurd hc (by decide)) (fun hc => absurd hc (by decide)) (fun hc => absurd hc (by decide))
  · -- l1468: the flag is cleared
    cases h
    exact threads_inv_mk _ _ _ _ _ (h1.trans (by decide)) h2 h3
      (fun _ hc => absurd rfl hc) (fun hc => absurd hc (by decide)) (fun _ => rfl) (fun hc => absurd hc (by decide))
  · -- l1469: unlock
    cases h
    have hlock : lock = some Owner.main := h1.mpr rfl
    exact threads_inv_mk _ _ _ _ _ (by decide)
      (lock_worker_main workers lock _ h2 (Or.inr hlock) (Or.inl rfl)) h3
      (fun _ _ hc => absurd rfl hc) (fun hc => absurd hc (by decide)) (fun _ => h6 (Or.inl rfl)) (fun hc => absurd hc (by decide))
  · -- l1471: g_thread_join
    cases handle with
    | none => cases h
    | some i =>
      dsimp only at h
      split at h
      · rename_i he
        cases h
        have hall : ∀ (j : Nat) (pc : WorkerPc), workers[j]? = some pc →
            pc.finished = true := by
          intro j pc hj
          by_cases e : j = i
          · subst e
            rw [he] at hj
            cases hj
            rfl
          · exact h3 j pc hj (fun c => e (Option.some.inj c).symm)
        exact threads_inv_mk _ _ _ _ _ (h1.trans (by decide)) h2 h3
          (fun _ _ _ j pc hj => Or.inr (hall j pc hj)) (fun _ => hall)
          (fun _ => h6 (Or.inr (Or.inl rfl))) (fun hc => absurd hc (by decide))
      · cases h
  · -- l1473: lock
    split at h
    · rename_i hl
      cases h
      have hall := h5 (Or.inl rfl)
      exact threads_inv_mk _ _ _ _ _ (by decide)
        (lock_worker_main workers lock _ h2 (Or.inl hl) (Or.inr rfl)) h3
        (fun _ _ _ j pc hj => Or.inr (hall j pc hj)) (fun _ => hall)
        (fun _ => h6 (Or.inr (Or.inr (Or.inl rfl)))) (fun hc => absurd hc (by decide))
    · cases h
  · -- l1476: the flag is set
    cases h
    have hall := h5 (Or.inr (Or.inl rfl))
    exact threads_inv_mk _ _ _ _ _ (h1.trans (by decide)) h2 h3
      (fun hf => absurd hf (by decide)) (fun _ => hall) (fun hc => absurd hc (by decide)) (fun _ => rfl)
  · -- l1477: g_thread_create
    cases h
    have hlock : lock = some Owner.main := h1.mpr rfl
    have hall := h5 (Or.inr (Or.inr rfl))
    have hflag : flag = true := h7 (Or.inl rfl)
    have hnew : ∀ (j : Nat) (pc : WorkerPc), (workers ++ [WorkerPc.entry])[j]? = some pc →
        (j = workers.length ∧ pc = WorkerPc.entry) ∨ (workers[j]? = some pc) := by
      intro j pc hj
      rw [List.getElem?_append] at hj
      split at hj
      · exact Or.inr hj
      · rename_i hge
        have : j - workers.length = 0 := by
          by_contra hne
          have : ([WorkerPc.entry] : List WorkerPc)[j - workers.length]? = none := by
            apply List.getElem?_eq_none
            simp
            omega
          rw [this] at hj
          cases hj
        rw [this] at hj
        simp at hj
        exact Or.inl ⟨by omega, hj.symm⟩
    refine threads_inv_mk _ _ _ _ _ (h1.trans (by decide)) ?_ ?_ ?_ (fun hc => absurd hc (by decide)) (fun hc => absurd hc (by decide)) (fun _ => hflag)
    · intro j pc hj
      rcases hnew j pc hj with ⟨e1, e2⟩ | e
      · subst e2
        rw [hlock]
        constructor
        · intro hh
          exact absurd hh (by decide)
        · intro hc
          cases hc
      · exact h2 j pc e
    · intro j pc hj hne
      rcases hnew j pc hj with ⟨e1, e2⟩ | e
      · exact absurd (by rw [e1]) hne
      · exact hall j pc e
    · intro hf
      rw [hflag] at hf
      cases hf
  · -- l1478: unlock
    cases h
    have hlock : lock = some Owner.main := h1.mpr rfl
    have hflag : flag = true := h7 (Or.inr rfl)
    exact threads_inv_mk _ _ _ _ _ (by decide)
      (lock_worker_main workers lock _ h2 (Or.inr hlock) (Or.inl rfl)) h3
      (fun hf => absurd (hflag.symm.trans hf) (by decide)) (fun hc => absurd hc (by decide)) (fun hc => absurd hc (by decide)) (fun hc => absurd hc (by decide))

/-- A move of worker i from pc to pc' keeps the invariant when it treats the
mutex as its positions say (kept, taken from free, or given back), changes the
flag only by the write of line 1203, and leaves a finished worker finished and
a worker at its last unlock there or finished. -/
lemma worker_move_inv (s : Threads) (hI : ThreadsInv s) (i : Nat) (pc pc' : WorkerPc)
    (lock' : Option Owner) (flag' : Bool) (hi : s.workers[i]? = some pc)
    (hlock : (lock' = s.search_lock ∧ pc'.holds = pc.holds) ∨
      (s.search_lock = none ∧ lock' = some (Owner.worker i) ∧ pc'.holds = true) ∨
      (pc.holds = true ∧ lock' = none ∧ pc'.holds = false))
    (hflag : flag' = s.search_thread_running ∨
      (flag' = false ∧ pc = WorkerPc.l1203 ∧ pc' = WorkerPc.l1204))
    (hfin : pc.finished = true → pc'.finished = true)
    (hclr : (pc = WorkerPc.l1204 ∨ pc.finished = true) →
      (pc' = WorkerPc.l1204 ∨ pc'.finished = true)) :
    ThreadsInv { s with search_thread_running := flag', search_lock := lock',
                        workers := s.workers.set i pc' } := by
  obtain ⟨h1, h2, h3, h4, h5, h6, h7⟩ := hI
  obtain ⟨flag, lock, handle, main, workers⟩ := s
  dsimp only at h1 h2 h3 h4 h5 h6 h7 hi hlock hflag ⊢
  have hpc := h2 i pc hi
  -- the worker that moves does not hold the mutex together with the main thread
  have hmain_free : pc.holds = true → main.holds = false := by
    intro hh
    have hl := hpc.mp hh
    cases hmh : main.holds with
    | false => rfl
    | true =>
      have := h1.mpr hmh
      rw [hl] at this
      cases this
  refine threads_inv_mk _ _ _ _ _ ?_ ?_ ?_ ?_ ?_ ?_ ?_
  · -- lock_main
    rcases hlock with ⟨e, _⟩ | ⟨e0, e, _⟩ | ⟨e0, e, _⟩
    · rw [e]
      exact h1
    · rw [e]
      rw [e0] at h1
      constructor
      · intro hc
        cases hc
      · intro hh
        exact absurd (h1.mpr hh) (by simp)
    · rw [e]
      have := hmain_free e0
      constructor
      · intro hc
        cases hc
      · intro hh
        rw [this] at hh
        cases hh
  · -- lock_worker
    intro j r hj
    rcases workers_set workers i j pc pc' r hi hj with ⟨ej, er⟩ | ⟨ej, hold⟩
    · subst ej er
      rcases hlock with ⟨e, eh⟩ | ⟨_, e, eh⟩ | ⟨_, e, eh⟩
      · rw [e, eh]
        exact hpc
      · rw [e, eh]
        simp
      · rw [e, eh]
        simp
    · have hr := h2 j r hold
      rcases hlock with ⟨e, _⟩ | ⟨e0, e, _⟩ | ⟨e0, e, _⟩
      · rw [e]
        exact hr
      · rw [e]
        rw [e0] at hr
        constructor
        · intro hh
          exact absurd (hr.mp hh) (by simp)
        · intro hc
          exact absurd (Owner.worker.inj (Option.some.inj hc)).symm ej
      · rw [e]
        have hl := hpc.mp e0
        rw [hl] at hr
        constructor
        · intro hh
          exact absurd (Owner.worker.inj (Option.some.inj (hr.mp hh))).symm ej
        · intro hc
          cases hc
  · -- others
    intro j r hj hne
    rcases workers_set workers i j pc pc' r hi hj with ⟨ej, er⟩ | ⟨ej, hold⟩
    · subst ej er
      exact hfin (h3 j pc hi hne)
    · exact h3 j r hold hne
  · -- cleared
    intro hf hm1 hm2 j r hj
    rcases hflag with e | ⟨_, e1, e2⟩
    · rw [e] at hf
      have hold := h4 hf hm1 hm2
      rcases workers_set workers i j pc pc' r hi hj with ⟨ej, er⟩ | ⟨ej, hj'⟩
      · subst ej er
        exact hclr (hold j pc hi)
      · exact hold j r hj'
    · subst e1 e2
      rcases workers_set workers i j _ _ r hi hj with ⟨ej, er⟩ | ⟨ej, hj'⟩
      · exact Or.inl er
      · by_cases hh : handle = some j
        · have := h3 i _ hi (by rw [hh]; intro c; exact ej (Option.some.inj c))
          cases this
        · exact Or.inr (h3 j r hj' hh)
  · -- joined
    intro hm j r hj
    have hold := h5 hm
    rcases workers_set workers i j pc pc' r hi hj with ⟨ej, er⟩ | ⟨ej, hj'⟩
    · subst ej er
      exact hfin (hold j pc hi)
    · exact hold j r hj'
  · -- flag_false
    intro hm
    rcases hflag with e | ⟨e, _, _⟩
    · rw [e]
      exact h6 hm
    · exact e
  · -- flag_true
    intro hm
    rcases hflag with e | ⟨_, e1, _⟩
    · rw [e]
      exact h7 hm
    · subst e1
      have := hmain_free rfl
      rcases hm with hm | hm <;> rw [hm] at this <;> cases this

/-- A step of a worker keeps the invariant. -/
lemma search_step_inv (s t : Threads) (i : Nat) (choice : Choice) (hI : ThreadsInv s)
    (h : search_step s i choice = some t) : ThreadsInv t := by
  unfold search_step at h
  cases hi : s.workers[i]? with
  | none =>
    rw [hi] at h
    cases h
  | some pc =>
    rw [hi] at h
    dsimp only at h
    cases pc <;> dsimp only at h
    · -- entry
      cases h
      exact worker_move_inv s hI i _ _ s.search_lock s.search_thread_running hi
        (Or.inl ⟨rfl, by cases choice <;> decide⟩) (Or.inl rfl)
        (fun hc => absurd hc (by decide)) (fun hc => absurd hc (by decide))
    · -- stuck
      cases h
    · -- l1163
      split at h
      · rename_i hl
        cases h
        exact worker_move_inv s hI i _ _ (some (Owner.worker i)) s.search_thread_running hi
          (Or.inr (Or.inl ⟨hl, rfl, rfl⟩)) (Or.inl rfl)
          (fun hc => absurd hc (by decide)) (fun hc => absurd hc (by decide))
      · cases h
    · -- l1164
      cases h
      exact worker_move_inv s hI i _ _ s.search_lock s.search_thread_running hi
        (Or.inl ⟨rfl, by cases s.search_thread_running <;> decide⟩) (Or.inl rfl)
        (fun hc => absurd hc (by decide)) (fun hc => absurd hc (by decide))
    · -- l1166
      cases h
      exact worker_move_inv s hI i _ _ none s.search_thread_running hi
        (Or.inr (Or.inr ⟨rfl, rfl, rfl⟩)) (Or.inl rfl)
        (fun hc => absurd hc (by decide)) (fun hc => absurd hc (by decide))
    · -- l1167
      cases h
      exact worker_move_inv s hI i _ _ s.search_lock s.search_thread_running hi
        (Or.inl ⟨rfl, rfl⟩) (Or.inl rfl)
        (fun _ => rfl) (fun _ => Or.inr rfl)
    · -- l1169
      cases h
      exact worker_move_inv s hI i _ _ none s.search_thread_running hi
        (Or.inr (Or.inr ⟨rfl, rfl, rfl⟩)) (Or.inl rfl)
        (fun hc => absurd hc (by decide)) (fun hc => absurd hc (by decide))
    · -- l1171
      cases h
      exact worker_move_inv s hI i _ _ s.search_lock s.search_thread_running hi
        (Or.inl ⟨rfl, by cases choice <;> decide⟩) (Or.inl rfl)
        (fun hc => absurd hc (by decide)) (fun hc => absurd hc (by decide))
    · -- l1190
      cases h
      exact worker_move_inv s hI i _ _ s.search_lock s.search_thread_running hi
        (Or.inl ⟨rfl, rfl⟩) (Or.inl rfl)
        (fun hc => absurd hc (by decide)) (fun hc => absurd hc (by decide))
    · -- l1202
      split at h
      · rename_i hl
        cases h
        exact worker_move_inv s hI i _ _ (some (Owner.worker i)) s.search_thread_running hi
          (Or.inr (Or.inl ⟨hl, rfl, rfl⟩)) (Or.inl rfl)
          (fun hc => absurd hc (by decide)) (fun hc => absurd hc (by decide))
      · cases h
    · -- l1203
      cases h
      exact worker_move_inv s hI i _ _ s.search_lock false hi
        (Or.inl ⟨rfl, rfl⟩) (Or.inr ⟨rfl, rfl, rfl⟩)
        (fun hc => absurd hc (by decide)) (fun _ => Or.inl rfl)
    · -- l1204
      cases h
      exact worker_move_inv s hI i _ _ none s.search_thread_running hi
        (Or.inr (Or.inr ⟨rfl, rfl, rfl⟩)) (Or.inl rfl)
        (fun hc => absurd hc (by decide)) (fun _ => Or.inr rfl)
    · -- l1206
      cases h
      exact worker_move_inv s hI i _ _ s.search_lock s.search_thread_running hi
        (Or.inl ⟨rfl, rfl⟩) (Or.inl rfl)
        (fun _ => rfl) (fun _ => Or.inr rfl)
    · -- exited
      cases h

/-- Every schedule keeps the invariant. -/
lemma threads_run_inv (events : List Event) (s t : Threads) (hI : ThreadsInv s)
    (h : threads_run s events = some t) : ThreadsInv t := by
  induction events generalizing s with
  | nil =>
    simp only [threads_run] at h
    cases h
    exact hI
  | cons e rest ih =>
    simp only [threads_run] at h
    cases hs : threads_step s e with
    | none =>
      rw [hs] at h
      cases h
    | some u =>
      rw [hs] at h
      apply ih u _ h
      cases e with
      | main => exact sc_search_step_inv s u hI hs
      | worker i choice => exact search_step_inv s u i choice hI hs

/-- A step of a worker leaves the main thread and the handle where they are,
and a worker that has ended stays so. -/
lemma search_step_frame (s t : Threads) (i : Nat) (choice : Choice)
    (h : search_step s i choice = some t) :
    t.main = s.main ∧ t.search_thread = s.search_thread ∧
    ∀ a : Nat, s.workers[a]? = some WorkerPc.exited → t.workers[a]? = some WorkerPc.exited := by
  unfold search_step at h
  cases hi : s.workers[i]? with
  | none =>
    rw [hi] at h
    cases h
  | some pc =>
    rw [hi] at h
    dsimp only at h
    have hkeep : ∀ (q : WorkerPc) (a : Nat), pc ≠ WorkerPc.exited →
        s.workers[a]? = some WorkerPc.exited → (s.workers.set i q)[a]? = some WorkerPc.exited := by
      intro q a hne ha
      rw [List.getElem?_set]
      by_cases e : i = a
      · subst e
        rw [hi] at ha
        exact absurd (Option.some.inj ha) hne
      · rw [if_neg e]
        exact ha
    cases pc <;> dsimp only at h
    case stuck => cases h
    case exited => cases h
    case l1163 =>
      split at h
      · cases h
        exact ⟨rfl, rfl, fun a ha => hkeep _ a (by decide) ha⟩
      · cases h
    case l1202 =>
      split at h
      · cases h
        exact ⟨rfl, rfl, fun a ha => hkeep _ a (by decide) ha⟩
      · cases h
    all_goals
      cases h
      exact ⟨rfl, rfl, fun a ha => hkeep _ a (by decide) ha⟩

/-- After every schedule, a main thread that has come back from g_thread_join
stands before a worker of the handle that has ended. -/
lemma threads_run_join (events : List Event) (s t : Threads)
    (hs : s.main = MainPc.l1473 →
      ∃ a, s.search_thread = some a ∧ s.workers[a]? = some WorkerPc.exited)
    (h : threads_run s events = some t) :
    t.main = MainPc.l1473 →
      ∃ a, t.search_thread = some a ∧ t.workers[a]? = some WorkerPc.exited := by
  induction events generalizing s with
  | nil =>
    simp only [threads_run] at h
    cases h
    exact hs
  | cons e rest ih =>
    simp only [threads_run] at h
    cases hu : threads_step s e with
    | none =>
      rw [hu] at h
      cases h
    | some u =>
      rw [hu] at h
      apply ih u _ h
      cases e with
      | main =>
        intro hm
        have hstep : sc_search_step s = some u := hu
        unfold sc_search_step at hstep
        cases hsm : s.main <;> rw [hsm] at hstep <;> dsimp only at hstep
        case l1471 =>
          cases hh : s.search_thread with
          | none =>
            rw [hh] at hstep
            cases hstep
          | some a =>
            rw [hh] at hstep
            dsimp only at hstep
            split at hstep
            · rename_i he
              cases hstep
              exact ⟨a, rfl, he⟩
            · cases hstep
        case l1465 =>
          split at hstep
          · cases hstep
            cases hm
          · cases hstep
        case l1473 =>
          split at hstep
          · cases hstep
            cases hm
          · cases hstep
        case l1466 =>
          cases hstep
          dsimp only at hm
          split at hm <;> cases hm
        all_goals
          cases hstep
          cases hm
      | worker i choice =>
        intro hm
        obtain ⟨f1, f2, f3⟩ := search_step_frame s u i choice hu
        obtain ⟨a, ha1, ha2⟩ := hs (f1 ▸ hm)
        exact ⟨a, f2.trans ha1, f3 a ha2⟩

/-- C26: after every schedule of the main thread, which runs sc_search again
and again, and of the workers it creates: of two workers one has left its
loop, its drawing and its write of the flag behind, so no two workers scan a
page or draw results at a time; when the main thread has come back from
g_thread_join, which it calls after it found the flag set and cleared it, the
flag is FALSE and the worker of the handle has ended; and when it stands at
g_thread_create, every worker created before is finished. -/
theorem searches_do_not_overlap (events : List Event) (t : Threads)
    (h : threads_run {} events = some t) :
    (∀ (i j : Nat) (pi pj : WorkerPc), i ≠ j → t.workers[i]? = some pi →
      t.workers[j]? = some pj → pi.finished = true ∨ pj.finished = true) ∧
    (∀ (i j : Nat) (pi pj : WorkerPc), i ≠ j → t.workers[i]? = some pi →
      t.workers[j]? = some pj → ¬ (pi.working = true ∧ pj.working = true)) ∧
    (t.main = MainPc.l1473 →
      t.search_thread_running = false ∧
      ∃ a, t.search_thread = some a ∧ t.workers[a]? = some WorkerPc.exited) ∧
    (t.main = MainPc.l1477 →
      ∀ (j : Nat) (pc : WorkerPc), t.workers[j]? = some pc → pc.finished = true) := by
  have hI := threads_run_inv events {} t threads_inv_init h
  have hpair : ∀ (i j : Nat) (pi pj : WorkerPc), i ≠ j → t.workers[i]? = some pi →
      t.workers[j]? = some pj → pi.finished = true ∨ pj.finished = true := by
    intro i j pi pj hne hi hj
    by_cases e : t.search_thread = some i
    · right
      apply hI.others j pj hj
      rw [e]
      intro c
      exact hne (Option.some.inj c)
    · left
      exact hI.others i pi hi e
  refine ⟨hpair, ?_, ?_, ?_⟩
  · intro i j pi pj hne hi hj hw
    rcases hpair i j pi pj hne hi hj with hf | hf
    · cases pi <;> simp [WorkerPc.working, WorkerPc.finished] at hw hf
    · cases pj <;> simp [WorkerPc.working, WorkerPc.finished] at hw hf
  · intro hm
    exact ⟨hI.flag_false (Or.inr (Or.inr (Or.inl hm))),
      threads_run_join events {} t (fun hc => by cases hc) h hm⟩
  · intro hm
    exact hI.joined (Or.inr (Or.inr hm))

/-- Witness of C26: the sample schedule can be run; at its end worker 0 has
ended and worker 1 scans a page. -/
theorem searches_do_not_overlap_witness :
    threads_run {} sample_schedule =
      some { search_thread_running := true, search_lock := none, search_thread := some 1,
             main := MainPc.idle, workers := [WorkerPc.exited, WorkerPc.l1171] } ∧
    (WorkerPc.exited.finished = true ∨ WorkerPc.l1171.finished = true) :=
  ⟨by decide,
    (searches_do_not_overlap sample_schedule
      { search_thread_running := true, search_lock := none, search_thread := some 1,
        main := MainPc.idle, workers := [WorkerPc.exited, WorkerPc.l1171] } (by decide)).1
      0 1 WorkerPc.exited WorkerPc.l1171 (by decide) (by decide) (by decide)⟩

/-! ## The completion functions of zathura.c give groups without a label -/

end Zathura
